import Mathlib

/-! LSD-SLAM coordination core: keyframe hand-off, pose registry, tracking state

A shallow embedding of `lib/SlamSystem.cpp` and `lib/SlamSystem/TrackingThread.cpp`, with
`getRefFrameScore` of `lib/GlobalMapping/TrackableKeyFrameSearch.h` and `MutexObject` of
`lib/util/ThreadMutexObject.h`.

Conventions of the embedding.

* `Frame::SharedPtr` and `FramePoseStruct::SharedPtr` are addresses into two heaps
  (`SlamSystem.frames`, `SlamSystem.poses`); a write through a pointer updates the heap,
  so every alias observes it.  A possibly-null shared pointer held by the system
  (the current-keyframe cell, the keyframe of a tracking reference) is an `Option`.
* Dereferencing a null pointer, `back()` on an empty vector, dereferencing `end()` of a
  map and a `LOG(FATAL)` do not return: the operation yields `Except.error`.
* A finite `float` or `double` held by an object is a rational, its exact value.  The
  arithmetic of the keyframe selection (`minVal`, `getRefFrameScore`, the squared distance
  and their comparison) is the machine's: every operation rounds its exact result to the
  format of the C++ expression, IEEE-754 binary32 for `float` and binary64 for `double`,
  to nearest with ties to even, overflows to an infinity and may yield a NaN (`FloatVal`,
  `FloatFormat`).
* Calls into collaborators whose sources are outside the modelled files (depth map,
  relocalizer, SE(3) tracker, publishers, constraint thread) are appended to
  `SlamSystem.calls` in program order.  What a collaborator hands back (the fields the
  SE(3) tracker leaves behind, the keyframe found by `findRePositionCandidate`) is an
  argument of the operation that consults it.
* Log statements are not modelled, except `LOG_IF(FATAL, ..)` which stops the program.
-/

namespace LsdSlam

/-! ## Machine arithmetic -/

/-- A value of a C++ `float` or `double`: a finite number, held exactly, an infinity with
its sign, or a NaN.  The sign of a zero is not kept: the modelled code divides by no zero
other than the conversion of the integer constant `INITIALIZATION_PHASE_COUNT`. -/
inductive FloatVal where
  | finite (q : ℚ)
  | inf (negative : Bool)
  | nan
  deriving DecidableEq

/-- An IEEE-754 binary format: the precision in bits and the exponents of the smallest and
of the largest normal binade. -/
structure FloatFormat where
  prec : Nat
  emin : Int
  emax : Int
  deriving DecidableEq

/-- The format of a C++ `float`. -/
def binary32 : FloatFormat := { prec := 24, emin := -126, emax := 127 }

/-- The format of a C++ `double`. -/
def binary64 : FloatFormat := { prec := 53, emin := -1022, emax := 1023 }

/-- Number of halvings that take `n` below 2, at most `fuel` of them: with `n ≤ fuel` the
integer part of the binary logarithm of a positive `n`. -/
def halvings : Nat → Nat → Nat
  | 0, _ => 0
  | fuel + 1, n => if n < 2 then 0 else halvings fuel (n / 2) + 1

/-- The binade of a rational: the `e` with `2 ^ e ≤ |q| < 2 ^ (e + 1)` for `q ≠ 0`. -/
def binade (q : ℚ) : ℤ :=
  if (2 : ℚ) ^ ((halvings q.num.natAbs q.num.natAbs : ℤ) - (halvings q.den q.den : ℤ)) ≤ |q|
  then (halvings q.num.natAbs q.num.natAbs : ℤ) - (halvings q.den q.den : ℤ)
  else (halvings q.num.natAbs q.num.natAbs : ℤ) - (halvings q.den q.den : ℤ) - 1

/-- The integer nearest to `x`, the even one of two equally near. -/
def roundHalfEven (x : ℚ) : ℤ :=
  if x - ⌊x⌋ < 1 / 2 then ⌊x⌋
  else if 1 / 2 < x - ⌊x⌋ then ⌊x⌋ + 1
  else if ⌊x⌋ % 2 = 0 then ⌊x⌋ else ⌊x⌋ + 1

/-- The spacing of the numbers of the format in the binade of `q`; below the smallest normal
binade it is the subnormal spacing. -/
def FloatFormat.ulp (F : FloatFormat) (q : ℚ) : ℚ :=
  (2 : ℚ) ^ (max (binade q) F.emin - ((F.prec : ℤ) - 1))

/-- The number nearest to `q` among the numbers of the format with the exponent unbounded
above, the one with the even significand of two equally near. -/
def FloatFormat.roundQ (F : FloatFormat) (q : ℚ) : ℚ :=
  (roundHalfEven (q / F.ulp q) : ℚ) * F.ulp q

/-- Rounding of an exact result to the format, to nearest with ties to even: a result whose
rounded magnitude reaches `2 ^ (emax + 1)` overflows to the infinity of its sign. -/
def FloatFormat.round (F : FloatFormat) (q : ℚ) : FloatVal :=
  if (2 : ℚ) ^ (F.emax + 1) ≤ |F.roundQ q| then .inf (decide (q < 0))
  else .finite (F.roundQ q)

/-- The property that an exact result is a number of the format, so that rounding leaves it
unchanged. -/
def FloatFormat.Exact (F : FloatFormat) (q : ℚ) : Prop :=
  F.round q = .finite q

/-- Conversion of a value to the format (`double` to `float` rounds; `float` to `double`
is exact). -/
def FloatFormat.convert (F : FloatFormat) : FloatVal → FloatVal
  | .finite q => F.round q
  | .inf s => .inf s
  | .nan => .nan

/-- Negation. -/
def FloatVal.neg : FloatVal → FloatVal
  | .finite q => .finite (-q)
  | .inf s => .inf (!s)
  | .nan => .nan

/-- The sum `a + b` in the format. -/
def FloatFormat.add (F : FloatFormat) : FloatVal → FloatVal → FloatVal
  | .finite a, .finite b => F.round (a + b)
  | .finite _, .inf s => .inf s
  | .inf s, .finite _ => .inf s
  | .inf s, .inf t => if s = t then .inf s else .nan
  | _, _ => .nan

/-- The difference `a - b` in the format. -/
def FloatFormat.sub (F : FloatFormat) (a b : FloatVal) : FloatVal :=
  F.add a b.neg

/-- The product `a * b` in the format. -/
def FloatFormat.mul (F : FloatFormat) : FloatVal → FloatVal → FloatVal
  | .finite a, .finite b => F.round (a * b)
  | .finite a, .inf s => if a = 0 then .nan else .inf (xor (decide (a < 0)) s)
  | .inf s, .finite b => if b = 0 then .nan else .inf (xor s (decide (b < 0)))
  | .inf s, .inf t => .inf (xor s t)
  | _, _ => .nan

/-- The quotient `a / b` in the format; a zero divisor counts as `+0`. -/
def FloatFormat.div (F : FloatFormat) : FloatVal → FloatVal → FloatVal
  | .finite a, .finite b =>
    if b = 0 then (if a = 0 then .nan else .inf (decide (a < 0))) else F.round (a / b)
  | .finite _, .inf _ => .finite 0
  | .inf s, .finite b => .inf (xor s (decide (b < 0)))
  | _, _ => .nan

/-- The C++ comparison `a < b`: false whenever an operand is a NaN. -/
def FloatVal.lt : FloatVal → FloatVal → Bool
  | .finite a, .finite b => decide (a < b)
  | .finite _, .inf s => !s
  | .inf s, .finite _ => s
  | .inf s, .inf t => s && !t
  | _, _ => false

instance : LT FloatVal := ⟨fun a b => FloatVal.lt a b = true⟩

instance (a b : FloatVal) : Decidable (a < b) :=
  inferInstanceAs (Decidable (FloatVal.lt a b = true))

/-- The library function `fmin`: the smaller argument, and the other argument when one is a
NaN. -/
def fmin (a b : FloatVal) : FloatVal :=
  match a, b with
  | .nan, _ => b
  | _, .nan => a
  | _, _ => if b < a then b else a

/-! ## Objects of the system -/

/-- Address of a `Frame` (a non-null `Frame::SharedPtr`). -/
abbrev FramePtr := Nat

/-- Address of a `FramePoseStruct` (a non-null `FramePoseStruct::SharedPtr`). -/
abbrev PosePtr := Nat

/-- The mutable pose record owned by a frame; only the members the modelled code touches. -/
structure FramePoseStruct where
  frameID : Int
  isRegisteredToGraph : Bool
  deriving DecidableEq, Repr

/-- The members of `Frame` read or written by the modelled code. -/
structure Frame where
  id : Int
  pose : PosePtr
  hasIDepthBeenSet : Bool
  depthHasBeenUpdatedFlag : Bool
  idxInKeyframes : Int
  numPoints : Int
  numMappedOnThisTotal : Int
  meanIdepth : ℚ
  deriving DecidableEq

/-- The options of `Configuration` consulted by the modelled code. -/
structure Configuration where
  doMapping : Bool
  SLAMEnabled : Bool
  doKFReActivation : Bool
  continuousPCOutput : Bool
  deriving DecidableEq, Repr

/-- The compile-time constants of `util/settings.h` used by the modelled code; that header
is not among the sources, so the constants are parameters of the system. -/
structure Settings where
  INITIALIZATION_PHASE_COUNT : Nat
  MIN_NUM_MAPPED : Int
  KFDistWeight : ℚ
  KFUsageWeight : ℚ
  MIN_GOODPERGOODBAD_PIXEL : ℚ
  deriving DecidableEq

/-- Modelled from the spec: the tracking reference (`Tracking/TrackingReference.h` is not
among the sources), "the keyframe-derived cached structure used as the fixed side of
per-frame SE(3) estimation", with "the cached tracking-reference's id". -/
structure TrackingReference where
  frameID : Int
  keyframe : Option FramePtr
  deriving DecidableEq, Repr

/-- Fields the SE(3) tracker leaves behind after `SE3Tracker::trackFrame`, together with the
translation part of the pose it returns. -/
structure TrackerResult where
  translation : ℚ × ℚ × ℚ
  diverged : Bool
  trackingWasGood : Bool
  pointUsage : ℚ
  lastResidual : ℚ
  lastGoodCount : ℚ
  lastBadCount : ℚ
  deriving DecidableEq

/-- The `RelocalizerResult` of `Tracking/Relocalizer.h` (the SE(3) initial pose it carries is
only handed on to the tracker and is left out). -/
structure RelocalizerResult where
  keyframe : FramePtr
  successfulFrame : FramePtr
  successfulFrameID : Int
  deriving DecidableEq, Repr

/-- Calls made into collaborators, in program order. -/
inductive Call where
  | gtDepthInit (frame : FramePtr)
  | randomInit (frame : FramePtr)
  | publishKeyframe (frame : FramePtr)
  | findRePositionCandidate (frame : FramePtr) (maxScore : ℚ)
  | setFromExistingKF (frame : FramePtr)
  | createKeyFrame (frame : FramePtr)
  | setPermaRef (frame : FramePtr)
  | constraintNewKeyFrame (frame : FramePtr)
  | relocalizerUpdateCurrentFrame (frame : FramePtr)
  | se3TrackFrame (referenceID : Int) (frame : FramePtr)
  | publishTrackedFrame (frame : FramePtr)
  | publishPose (frame : FramePtr)
  | mapTrackedFrame (frame : FramePtr) (blockUntilMapped : Bool)
  | addTimingSamples
  deriving DecidableEq

/-- Ways in which an operation fails to return. -/
inductive SlamError where
  | fatalLog
  | nullDereference
  | emptyRegistry
  | missingKey
  deriving DecidableEq, Repr

/-- State of `TrackingThread` used by the modelled code, together with the flag
`manualTrackingLossIndicated` it reads and clears (the flag is declared outside the
sources). -/
structure TrackingThread where
  trackingReference : TrackingReference
  trackingReferenceFrameSharedPT : Option FramePtr
  trackingIsGood : Bool
  manualTrackingLossIndicated : Bool
  tracking_lastResidual : ℚ
  tracking_lastUsage : ℚ
  lastTrackingClosenessScore : FloatVal
  deriving DecidableEq

/-- Members of `SlamSystem` (with the two counters of its `KeyFrameGraph`), the two heaps
and the record of collaborator calls. -/
structure SlamSystem where
  conf : Configuration
  settings : Settings
  frames : FramePtr → Frame
  poses : PosePtr → FramePoseStruct
  keyframesAll : List FramePtr
  idToKeyFrame : List (Int × FramePtr)
  currentKeyFrame : Option FramePtr
  allFramePoses : List PosePtr
  initialized : Bool
  totalPoints : Int
  totalVertices : Int
  mappingTrackingReference : TrackingReference
  trackingThread : TrackingThread
  calls : List Call

/-! ## Small helpers -/

/-- Append one collaborator call to the record. -/
def SlamSystem.record (sys : SlamSystem) (c : Call) : SlamSystem :=
  { sys with calls := sys.calls ++ [c] }

/-- Value of `std::unordered_map::find(key)`: `none` stands for `end()`. -/
def mapFind (m : List (Int × FramePtr)) (key : Int) : Option FramePtr :=
  match m with
  | [] => none
  | (k, v) :: rest => if k = key then some v else mapFind rest key

/-- Result of `std::unordered_map::insert(make_pair(key, value))`: a key that is already
present keeps its old value and nothing is added. -/
def mapInsert (m : List (Int × FramePtr)) (key : Int) (value : FramePtr) :
    List (Int × FramePtr) :=
  match mapFind m key with
  | some _ => m
  | none => m ++ [(key, value)]

/-- Modelled from the spec: `TrackingReference::importFrame` (source absent) caches the
keyframe and its id. -/
def TrackingReference.importFrame (frames : FramePtr → Frame) (keyframe : FramePtr) :
    TrackingReference :=
  { frameID := (frames keyframe).id, keyframe := some keyframe }

/-- Modelled from the spec: `TrackingReference::invalidate` (source absent) drops the cached
keyframe. -/
def TrackingReference.invalidate (r : TrackingReference) : TrackingReference :=
  { r with keyframe := none }

/-- Modelled from the spec: `TrackingThread::setTrackingIsBad` (declared in
`SlamSystem/TrackingThread.h`, not among the sources) "marks tracking bad". -/
def setTrackingIsBad (sys : SlamSystem) : SlamSystem :=
  { sys with trackingThread := { sys.trackingThread with trackingIsGood := false } }

/-- Modelled from the spec: `TrackingThread::setTrackingIsGood` (declared in
`SlamSystem/TrackingThread.h`, not among the sources) "restores `trackingGood=true`". -/
def setTrackingIsGood (sys : SlamSystem) : SlamSystem :=
  { sys with trackingThread := { sys.trackingThread with trackingIsGood := true } }

/-- State right after the constructors `SlamSystem::SlamSystem` and
`TrackingThread::TrackingThread` have run, over given heaps.  A new tracking reference has no
keyframe and the cached id -1; the manual-loss flag is clear until it is raised from
outside. -/
def SlamSystem.create (conf : Configuration) (settings : Settings)
    (frames : FramePtr → Frame) (poses : PosePtr → FramePoseStruct) : SlamSystem :=
  { conf := conf
    settings := settings
    frames := frames
    poses := poses
    keyframesAll := []
    idToKeyFrame := []
    currentKeyFrame := none
    allFramePoses := []
    initialized := false
    totalPoints := 0
    totalVertices := 0
    mappingTrackingReference := { frameID := -1, keyframe := none }
    trackingThread :=
      { trackingReference := { frameID := -1, keyframe := none }
        trackingReferenceFrameSharedPT := none
        trackingIsGood := true
        manualTrackingLossIndicated := false
        tracking_lastResidual := 0
        tracking_lastUsage := 0
        lastTrackingClosenessScore := .finite 0 }
    calls := [] }

/-! ## `SlamSystem.cpp` -/

/-- Embedding of `SlamSystem::storePose`. -/
def storePose (sys : SlamSystem) (frame : FramePtr) : SlamSystem :=
  let p := (sys.frames frame).pose
  { sys with
    poses := Function.update sys.poses p { sys.poses p with isRegisteredToGraph := true }
    allFramePoses := sys.allFramePoses ++ [p] }

/-- Embedding of `SlamSystem::initialize`. -/
def initializeSystem (sys : SlamSystem) (frame : FramePtr) : Except SlamError SlamSystem :=
  if !sys.conf.doMapping then .error .fatalLog
  else
    let s1 := if (sys.frames frame).hasIDepthBeenSet then sys.record (.gtDepthInit frame)
              else sys.record (.randomInit frame)
    let s2 := storePose s1 frame
    let s3 := if s2.conf.SLAMEnabled then
                { s2 with idToKeyFrame := mapInsert s2.idToKeyFrame (s2.frames frame).id frame }
              else s2
    let s4 := { s3 with currentKeyFrame := some frame }
    let s5 := if s4.conf.continuousPCOutput then s4.record (.publishKeyframe frame) else s4
    .ok { s5 with initialized := true }

/-- Embedding of `SlamSystem::loadNewCurrentKeyframe`. -/
def loadNewCurrentKeyframe (sys : SlamSystem) (keyframeToLoad : FramePtr) :
    Except SlamError SlamSystem :=
  let s1 := sys.record (.setFromExistingKF keyframeToLoad)
  match mapFind s1.idToKeyFrame (s1.frames keyframeToLoad).id with
  | none => .error .missingKey
  | some kf =>
    .ok { s1 with
          currentKeyFrame := some kf
          frames := Function.update s1.frames kf
            { s1.frames kf with depthHasBeenUpdatedFlag := false } }

/-- Embedding of `SlamSystem::createNewCurrentKeyframe`. -/
def createNewCurrentKeyframe (sys : SlamSystem) (newKeyframe : FramePtr) : SlamSystem :=
  let s1 := if sys.conf.SLAMEnabled then
              { sys with
                idToKeyFrame := mapInsert sys.idToKeyFrame (sys.frames newKeyframe).id newKeyframe }
            else sys
  let s2 := s1.record (.createKeyFrame newKeyframe)
  let s3 := { s2 with currentKeyFrame := some newKeyframe }
  let s4 :=
    if s3.conf.SLAMEnabled then
      let a := { s3 with
                 mappingTrackingReference :=
                   TrackingReference.importFrame s3.frames newKeyframe }
      let b := a.record (.setPermaRef newKeyframe)
      let c := { b with mappingTrackingReference := b.mappingTrackingReference.invalidate }
      if (c.frames newKeyframe).idxInKeyframes < 0 then
        let d := { c with
                   frames := Function.update c.frames newKeyframe
                     { c.frames newKeyframe with idxInKeyframes := (c.keyframesAll.length : Int) } }
        let e := { d with keyframesAll := d.keyframesAll ++ [newKeyframe] }
        let f := { e with totalPoints := e.totalPoints + (e.frames newKeyframe).numPoints }
        let g := { f with totalVertices := f.totalVertices + 1 }
        g.record (.constraintNewKeyFrame newKeyframe)
      else c
    else s3
  s4.record (.publishKeyframe newKeyframe)

/-- The first block of `SlamSystem::changeKeyframe`: the value of `newReferenceKF`.
`found` is what `findRePositionCandidate(candidate, maxScore)` returns when it is called. -/
def newReferenceKF (sys : SlamSystem) (found : Option FramePtr) : Option FramePtr :=
  if sys.conf.doKFReActivation && sys.conf.SLAMEnabled then found else none

/-- Embedding of `SlamSystem::changeKeyframe`.  `found` is what the search
`findRePositionCandidate(candidate, maxScore)` returns when it is called. -/
def changeKeyframe (sys : SlamSystem) (found : Option FramePtr) (candidate : FramePtr)
    (noCreate force : Bool) (maxScore : ℚ) : Except SlamError SlamSystem :=
  let s1 := if sys.conf.doKFReActivation && sys.conf.SLAMEnabled then
              sys.record (.findRePositionCandidate candidate maxScore)
            else sys
  match newReferenceKF sys found with
  | some kf => loadNewCurrentKeyframe s1 kf
  | none =>
    if force then
      if noCreate then .ok (setTrackingIsBad s1)
      else .ok (createNewCurrentKeyframe s1 candidate)
    else .ok s1

/-- Embedding of `SlamSystem::getCurrentPoseEstimate`.  `FramePoseStruct::getCamToWorld`,
`se3FromSim3` and the default-constructed `Sophus::SE3()` belong to headers that are not
among the sources and are parameters. -/
def getCurrentPoseEstimate {S E : Type} (getCamToWorld : PosePtr → S) (se3FromSim3 : S → E)
    (identity : E) (sys : SlamSystem) : E :=
  if h : 0 < sys.allFramePoses.length then
    se3FromSim3 (getCamToWorld (sys.allFramePoses.getLast (List.ne_nil_of_length_pos h)))
  else identity

/-! ## `TrackableKeyFrameSearch.h` -/

/-- Embedding of `TrackableKeyFrameSearch::getRefFrameScore`: parameters and result are
`float`, as are the two weights (globals of `util/settings.h`), and
`distanceSquared*KFDistWeight*KFDistWeight + (1-usage)*(1-usage) * KFUsageWeight *
KFUsageWeight` is evaluated from the left, each operation rounding to `float`; the integer
`1` is converted to `float`. -/
def getRefFrameScore (st : Settings) (distanceSquared usage : FloatVal) : FloatVal :=
  binary32.add
    (binary32.mul (binary32.mul distanceSquared (.finite st.KFDistWeight))
      (.finite st.KFDistWeight))
    (binary32.mul
      (binary32.mul
        (binary32.mul (binary32.sub (.finite 1) usage) (binary32.sub (.finite 1) usage))
        (.finite st.KFUsageWeight))
      (.finite st.KFUsageWeight))

/-! ## `TrackingThread.cpp` -/

/-- Value of the C++ float comparison `a / b < c`: with `b = 0` the quotient is NaN or an
infinity carrying the sign of `a`, so the comparison holds only for a negative `a`. -/
def floatDivLt (a b c : ℚ) : Bool :=
  if b = 0 then decide (a < 0) else decide (a / b < c)

/-- The test of `TrackingThread::trackFrame` that declares tracking lost. -/
def trackingLost (sys : SlamSystem) (tr : TrackerResult) : Bool :=
  sys.trackingThread.manualTrackingLossIndicated || tr.diverged ||
    (decide (sys.keyframesAll.length > sys.settings.INITIALIZATION_PHASE_COUNT) &&
      !tr.trackingWasGood)

/-- Line 262 of `TrackingThread::trackFrame`, for `n = keyframesAll.size()`: the value
`fmin(0.2f + n * 0.8f / INITIALIZATION_PHASE_COUNT, 1.0f)`.  The two integers are converted
to `float` and the product, the quotient and the sum are `float` operations. -/
def minValBase (st : Settings) (n : Nat) : FloatVal :=
  fmin
    (binary32.add (binary32.round (2 / 10))
      (binary32.div (binary32.mul (binary32.round (n : ℚ)) (binary32.round (8 / 10)))
        (binary32.round (st.INITIALIZATION_PHASE_COUNT : ℚ))))
    (.finite 1)

/-- The threshold `minVal` of the keyframe selection in `TrackingThread::trackFrame` (lines
262-264), for `n = keyframesAll.size()`: in the initialization phase `minVal *= 0.7`
multiplies by the `double` constant in `double` and converts the product back to `float`. -/
def minVal (st : Settings) (n : Nat) : FloatVal :=
  if n < st.INITIALIZATION_PHASE_COUNT then
    binary32.convert (binary64.mul (minValBase st n) (binary64.round (7 / 10)))
  else minValBase st n

/-- The product of a `Vector3d` with a scalar, as in `translation() * meanIdepth` (line
261): three `double` products (a `float` scalar is promoted to `double` without change). -/
def vec3Scale (v : ℚ × ℚ × ℚ) (c : ℚ) : FloatVal × FloatVal × FloatVal :=
  (binary64.mul (.finite v.1) (.finite c), binary64.mul (.finite v.2.1) (.finite c),
    binary64.mul (.finite v.2.2) (.finite c))

/-- The scalar product of two `Vector3d` (Eigen `dot`) in `double`.  The order in which the
three products are summed belongs to Eigen; they are summed from the left. -/
def vec3Dot (v w : FloatVal × FloatVal × FloatVal) : FloatVal :=
  binary64.add (binary64.add (binary64.mul v.1 w.1) (binary64.mul v.2.1 w.2.1))
    (binary64.mul v.2.2 w.2.2)

/-- The value `d2 = dist.dot(dist)` with `dist = translation * meanIdepth` (lines 261 and
266), a `double`. -/
def distSquared (translation : ℚ × ℚ × ℚ) (meanIdepth : ℚ) : FloatVal :=
  vec3Dot (vec3Scale translation meanIdepth) (vec3Scale translation meanIdepth)

/-- Lines 155-161 of `TrackingThread::trackFrame`: re-import the tracking reference when its
cached id differs from the current keyframe's id or the keyframe's depth was updated. -/
def refreshTrackingReference (sys : SlamSystem) (keyframe : FramePtr) : SlamSystem :=
  if sys.trackingThread.trackingReference.frameID ≠ (sys.frames keyframe).id
      ∨ (sys.frames keyframe).depthHasBeenUpdatedFlag = true then
    { sys with
      trackingThread :=
        { sys.trackingThread with
          trackingReference := TrackingReference.importFrame sys.frames keyframe
          trackingReferenceFrameSharedPT := some keyframe }
      frames := Function.update sys.frames keyframe
        { sys.frames keyframe with depthHasBeenUpdatedFlag := false } }
  else sys

/-- Lines 178-186 of `TrackingThread::trackFrame`: the SE(3) tracker is invoked on `newFrame`
and its residual and point usage are stored. -/
def invokeTracker (sys : SlamSystem) (tr : TrackerResult) (newFrame : FramePtr) : SlamSystem :=
  let s := sys.record (.se3TrackFrame sys.trackingThread.trackingReference.frameID newFrame)
  { s with
    trackingThread :=
      { s.trackingThread with
        tracking_lastResidual := tr.lastResidual
        tracking_lastUsage := tr.pointUsage } }

/-- Lines 202-216 of `TrackingThread::trackFrame`: the tracking-lost path. -/
def declareTrackingLost (sys : SlamSystem) : SlamSystem :=
  let s4 := { sys with
              trackingThread :=
                { sys.trackingThread with
                  trackingReference := sys.trackingThread.trackingReference.invalidate } }
  let s5 := setTrackingIsBad s4
  { s5 with
    trackingThread := { s5.trackingThread with manualTrackingLossIndicated := false } }

/-- Lines 237-253 of `TrackingThread::trackFrame`: the pose is stored, the tracked frame and
pose are published and the frame is forwarded to mapping. -/
def acceptTrackedFrame (sys : SlamSystem) (newFrame : FramePtr) (blockUntilMapped : Bool) :
    SlamSystem :=
  let s4 := storePose sys newFrame
  let s5 := (s4.record (.publishTrackedFrame newFrame)).record (.publishPose newFrame)
  s5.record (.mapTrackedFrame newFrame blockUntilMapped)

/-- Lines 259-296 of `TrackingThread::trackFrame`: the keyframe selection.  The `double`
`d2` and the tracker's point usage are converted to the `float` parameters of
`getRefFrameScore`; score and threshold are compared as `float`s. -/
def keyframeSelection (sys : SlamSystem) (tr : TrackerResult) (found : Option FramePtr)
    (newFrame : FramePtr) : Except SlamError SlamSystem :=
  match sys.currentKeyFrame with
  | none => .error .nullDereference
  | some current =>
    if (sys.frames current).numMappedOnThisTotal > sys.settings.MIN_NUM_MAPPED then
      let d2 := distSquared tr.translation (sys.frames current).meanIdepth
      let threshold := minVal sys.settings sys.keyframesAll.length
      let score :=
        getRefFrameScore sys.settings (binary32.convert d2) (binary32.round tr.pointUsage)
      let s7 := { sys with
                  trackingThread :=
                    { sys.trackingThread with lastTrackingClosenessScore := score } }
      if score > threshold then changeKeyframe s7 found newFrame false true 1
      else .ok s7
    else .ok sys

/-- Embedding of `TrackingThread::trackFrame`.  `tr` holds what the SE(3) tracker leaves
behind if it is invoked, `found` what `findRePositionCandidate` returns if it is called. -/
def TrackingThread.trackFrame (sys : SlamSystem) (tr : TrackerResult)
    (found : Option FramePtr) (newFrame : FramePtr) (blockUntilMapped : Bool) :
    Except SlamError SlamSystem :=
  if !sys.trackingThread.trackingIsGood then
    .ok (sys.record (.relocalizerUpdateCurrentFrame newFrame))
  else
    match sys.currentKeyFrame with
    | none => .error .nullDereference
    | some keyframe =>
      let s1 := refreshTrackingReference sys keyframe
      match s1.trackingThread.trackingReference.keyframe with
      | none => .error .nullDereference
      | some _ =>
        match s1.allFramePoses.getLast? with
        | none => .error .emptyRegistry
        | some _ =>
          let s3 := invokeTracker s1 tr newFrame
          if trackingLost s3 tr then .ok (declareTrackingLost s3)
          else keyframeSelection (acceptTrackedFrame s3 newFrame blockUntilMapped) tr found
            newFrame

/-- The test of `TrackingThread::takeRelocalizeResult` that discards the result; as written
in the source, the quotient is `lastGoodCount() / lastGoodCount()`. -/
def relocalizationRejected (st : Settings) (tr : TrackerResult) : Bool :=
  !tr.trackingWasGood ||
    floatDivLt tr.lastGoodCount tr.lastGoodCount
      (1 - (75 : ℚ) / 100 * (1 - st.MIN_GOODPERGOODBAD_PIXEL))

/-- Embedding of `TrackingThread::takeRelocalizeResult`.  `tr` holds what the SE(3) tracker
leaves behind after the re-track. -/
def TrackingThread.takeRelocalizeResult (sys : SlamSystem) (tr : TrackerResult)
    (result : RelocalizerResult) : Except SlamError SlamSystem :=
  match sys.currentKeyFrame with
  | none => .error .nullDereference
  | some keyframe =>
    let s1 := { sys with
                trackingThread :=
                  { sys.trackingThread with
                    trackingReference := TrackingReference.importFrame sys.frames keyframe
                    trackingReferenceFrameSharedPT := some keyframe } }
    let s2 := s1.record
      (.se3TrackFrame s1.trackingThread.trackingReference.frameID result.successfulFrame)
    if relocalizationRejected s2.settings tr then
      .ok { s2 with
            trackingThread :=
              { s2.trackingThread with
                trackingReference := s2.trackingThread.trackingReference.invalidate } }
    else
      let s3 := storePose s2 result.successfulFrame
      let s4 := s3.record (.mapTrackedFrame result.successfulFrame true)
      .ok (setTrackingIsGood s4)

/-- Embedding of `SlamSystem::trackFrame` (the `SharedPtr` overload). -/
def SlamSystem.trackFrame (sys : SlamSystem) (tr : TrackerResult) (found : Option FramePtr)
    (newFrame : FramePtr) (blockUntilMapped : Bool) : Except SlamError SlamSystem :=
  match (if !sys.initialized then initializeSystem sys newFrame else .ok sys) with
  | .error e => .error e
  | .ok s1 =>
    match TrackingThread.trackFrame s1 tr found newFrame blockUntilMapped with
    | .error e => .error e
    | .ok s2 => .ok (s2.record .addTimingSamples)

/-! ## Call sequences and state predicates -/

/-- One call made on the system from outside. -/
inductive Request where
  | init (frame : FramePtr)
  | trackFrame (tr : TrackerResult) (found : Option FramePtr) (frame : FramePtr)
      (blockUntilMapped : Bool)
  | takeRelocalizeResult (tr : TrackerResult) (result : RelocalizerResult)
  | changeKeyframe (found : Option FramePtr) (candidate : FramePtr) (noCreate force : Bool)
      (maxScore : ℚ)
  | createNewCurrentKeyframe (frame : FramePtr)
  | loadNewCurrentKeyframe (frame : FramePtr)
  | storePose (frame : FramePtr)
  | setTrackingIsBad
  | setTrackingIsGood
  | setManualTrackingLoss (flag : Bool)

/-- Effect of one request. -/
def step (sys : SlamSystem) : Request → Except SlamError SlamSystem
  | .init frame => initializeSystem sys frame
  | .trackFrame tr found frame b => SlamSystem.trackFrame sys tr found frame b
  | .takeRelocalizeResult tr result => TrackingThread.takeRelocalizeResult sys tr result
  | .changeKeyframe found candidate noCreate force maxScore =>
      changeKeyframe sys found candidate noCreate force maxScore
  | .createNewCurrentKeyframe frame => .ok (createNewCurrentKeyframe sys frame)
  | .loadNewCurrentKeyframe frame => loadNewCurrentKeyframe sys frame
  | .storePose frame => .ok (storePose sys frame)
  | .setTrackingIsBad => .ok (setTrackingIsBad sys)
  | .setTrackingIsGood => .ok (setTrackingIsGood sys)
  | .setManualTrackingLoss flag =>
      .ok { sys with
            trackingThread := { sys.trackingThread with manualTrackingLossIndicated := flag } }

/-- Effect of a sequence of requests, stopping at the first one that does not return. -/
def run (sys : SlamSystem) : List Request → Except SlamError SlamSystem
  | [] => .ok sys
  | r :: rest =>
    match step sys r with
    | .error e => .error e
    | .ok s1 => run s1 rest

/-- The id index is only ever filled under `SLAMEnabled`: with SLAM mode off it is empty. -/
def IdIndexGated (sys : SlamSystem) : Prop :=
  sys.conf.SLAMEnabled = false → sys.idToKeyFrame = []

/-- Frame ids of the registry entries, in registry order. -/
def registryIds (sys : SlamSystem) : List Int :=
  sys.allFramePoses.map (fun p => (sys.poses p).frameID)

/-- What every operation keeps of the state it starts from: the configuration, the
initialized mark, a filled current-keyframe cell, the gating of the id index, and the
registry as a prefix of the new registry. -/
def Evolves (sys s : SlamSystem) : Prop :=
  s.conf = sys.conf ∧
    (sys.initialized = true → s.initialized = true) ∧
    (sys.currentKeyFrame.isSome = true → s.currentKeyFrame.isSome = true) ∧
    (IdIndexGated sys → IdIndexGated s) ∧
    sys.allFramePoses <+: s.allFramePoses

/-- The call `TrackingThread::trackFrame` gets as far as invoking the SE(3) tracker: tracking
is good, the current-keyframe cell holds `keyframe`, the tracking reference has a keyframe
once lines 155-161 have run, and the registry has a last element. -/
def ReachesTracker (sys : SlamSystem) (keyframe : FramePtr) : Prop :=
  sys.trackingThread.trackingIsGood = true ∧ sys.currentKeyFrame = some keyframe ∧
    (refreshTrackingReference sys keyframe).trackingThread.trackingReference.keyframe ≠ none ∧
    sys.allFramePoses ≠ []

/-! ## Concrete data used to instantiate the results -/

/-- A frame heap in which the frame at address `p` has id `p` and owns the pose at `p`. -/
def sampleFrames : FramePtr → Frame := fun p =>
  { id := (p : Int)
    pose := p
    hasIDepthBeenSet := false
    depthHasBeenUpdatedFlag := false
    idxInKeyframes := -1
    numPoints := 100
    numMappedOnThisTotal := 0
    meanIdepth := 1 }

/-- A pose heap in which the pose at address `p` belongs to the frame with id `p`. -/
def samplePoses : PosePtr → FramePoseStruct := fun p =>
  { frameID := (p : Int), isRegisteredToGraph := false }

/-- Mapping, SLAM mode and keyframe re-activation enabled. -/
def sampleConf : Configuration :=
  { doMapping := true, SLAMEnabled := true, doKFReActivation := true,
    continuousPCOutput := false }

/-- Constants used by the sample systems. -/
def sampleSettings : Settings :=
  { INITIALIZATION_PHASE_COUNT := 5
    MIN_NUM_MAPPED := 5
    KFDistWeight := 4
    KFUsageWeight := 3
    MIN_GOODPERGOODBAD_PIXEL := 1 / 2 }

/-- A freshly constructed system. -/
def freshSystem : SlamSystem :=
  SlamSystem.create sampleConf sampleSettings sampleFrames samplePoses

/-- A running system: keyframes 0 and 10 exist, keyframe 0 is current, frames 0 to 3 have
been tracked. -/
def runningSystem : SlamSystem :=
  { freshSystem with
    keyframesAll := [10]
    idToKeyFrame := [(0, 0), (10, 10)]
    currentKeyFrame := some 0
    allFramePoses := [0, 1, 2, 3]
    initialized := true
    totalPoints := 100
    totalVertices := 1 }

/-- The running system with the manual tracking-loss flag raised. -/
def manualLossSystem : SlamSystem :=
  { runningSystem with
    trackingThread := { runningSystem.trackingThread with manualTrackingLossIndicated := true } }

/-- A stand-in for `FramePoseStruct::getCamToWorld` on the sample heaps: the pose at address
`p` reads as the number `p`. -/
def sampleCamToWorld : PosePtr → Int := fun p => (p : Int)

/-- A tracker outcome: converged, good, small motion. -/
def goodTrack : TrackerResult :=
  { translation := (0, 0, 0)
    diverged := false
    trackingWasGood := true
    pointUsage := 1
    lastResidual := 0
    lastGoodCount := 90
    lastBadCount := 10 }

/-- A tracker outcome: diverged. -/
def divergedTrack : TrackerResult :=
  { goodTrack with diverged := true, trackingWasGood := false }

/-! ## `ThreadMutexObject.h` -/

/-- Embedding of the class template `MutexObject<T, M>`: the stored object and the state of
its mutex (`true` while some `LockGuard` holds it). -/
structure MutexObject (T : Type) where
  _object : T
  _mutex : Bool

/-- Embedding of `MutexObject::set`: the `LockGuard` takes the mutex, the object is assigned,
the guard releases the mutex on return.  On a mutex that is held the call does not return
(`none`). -/
def MutexObject.set {T : Type} (m : MutexObject T) : T → Option (MutexObject T) := fun newValue =>
  if m._mutex then none else some { _object := newValue, _mutex := false }

/-- Embedding of `MutexObject::get`: under a `LockGuard`, a copy of the object is returned.
The result pairs the returned copy with the cell after the call. -/
def MutexObject.get {T : Type} (m : MutexObject T) : Option (T × MutexObject T) :=
  if m._mutex then none else some (m._object, { m with _mutex := false })

/-- Embedding of `MutexObject::const_ref` (and of `operator()`): the object, no locking. -/
def MutexObject.const_ref {T : Type} (m : MutexObject T) : T := m._object

/-- A call on the cell in a sequential execution. -/
inductive CellCall (T : Type) where
  | set (newValue : T)
  | get

/-- Effect of a sequence of calls on the cell; `none` when one of them does not return. -/
def MutexObject.runCalls {T : Type} (m : MutexObject T) : List (CellCall T) → Option (MutexObject T)
  | [] => some m
  | .set v :: rest =>
    match m.set v with
    | none => none
    | some m1 => m1.runCalls rest
  | .get :: rest =>
    match m.get with
    | none => none
    | some r => r.2.runCalls rest

/-- The value given to the last `set` of a sequence of calls, `init` when there is none. -/
def lastSetValue {T : Type} (init : T) : List (CellCall T) → T
  | [] => init
  | .set v :: rest => lastSetValue v rest
  | .get :: rest => lastSetValue init rest

/-! ## The initial guess of `TrackingThread::trackFrame` -/

/-- Lines 163-173 of `TrackingThread::trackFrame`: the value of
`frameToReference_initialEstimate` handed to the SE(3) tracker, read in the state reached
after lines 155-161.  The pose type with its product and inverse, `getCamToWorld` and
`se3FromSim3` belong to headers outside the sources and are parameters. -/
def frameToReference_initialEstimate {G E : Type} [Group G] (getCamToWorld : PosePtr → G)
    (se3FromSim3 : G → E) (sys : SlamSystem) : Except SlamError E :=
  match sys.trackingThread.trackingReference.keyframe with
  | none => .error .nullDereference
  | some referenceKF =>
    match sys.allFramePoses.getLast? with
    | none => .error .emptyRegistry
    | some last =>
      .ok (se3FromSim3
        ((getCamToWorld (sys.frames referenceKF).pose)⁻¹ * getCamToWorld last))

/-- The value `lastTrackingClosenessScore` computed by lines 261-267 of
`TrackingThread::trackFrame` against the current keyframe `current`. -/
def closenessScore (sys : SlamSystem) (tr : TrackerResult) (current : FramePtr) : FloatVal :=
  getRefFrameScore sys.settings
    (binary32.convert (distSquared tr.translation (sys.frames current).meanIdepth))
    (binary32.round tr.pointUsage)

/-- The state in which `TrackingThread::trackFrame` reaches the keyframe selection: the
reference has been refreshed, the tracker has run and the frame has been accepted. -/
def acceptedState (sys : SlamSystem) (kf : FramePtr) (tr : TrackerResult) (f : FramePtr)
    (b : Bool) : SlamSystem :=
  acceptTrackedFrame (invokeTracker (refreshTrackingReference sys kf) tr f) f b

/-- Line 267 of `TrackingThread::trackFrame`: the score is stored. -/
def storeClosenessScore (sys : SlamSystem) (score : FloatVal) : SlamSystem :=
  { sys with trackingThread := { sys.trackingThread with lastTrackingClosenessScore := score } }

/-- A tracker outcome flagged as not good. -/
def badTrack : TrackerResult :=
  { goodTrack with trackingWasGood := false }

/-- A tracker outcome flagged as good although only 10 of 100 pixels are good. -/
def poorTrack : TrackerResult :=
  { goodTrack with lastGoodCount := 10, lastBadCount := 90 }

/-- The relocalizer reports frame 6 against keyframe 0. -/
def sampleRelocalizerResult : RelocalizerResult :=
  { keyframe := 0, successfulFrame := 6, successfulFrameID := 6 }

/-- A stand-in for `getCamToWorld` with values in the additive group of the integers: the
pose at address `p` reads as the translation by `p + 1`. -/
def sampleCamToWorldGroup : PosePtr → Multiplicative ℤ := fun p =>
  Multiplicative.ofAdd ((p : ℤ) + 1)

/-- A running system whose current keyframe has had 10 frames mapped on it. -/
def busySystem : SlamSystem :=
  { runningSystem with
    frames := fun p => { sampleFrames p with numMappedOnThisTotal := 10 } }

/-! ## The keyframe graph -/

/-- An operation that leaves the keyframe stores alone: configuration, initialized mark,
ordered keyframe list, id index and current-keyframe cell are unchanged and no frame changes
its id or its `idxInKeyframes`. -/
def Quiet (sys s : SlamSystem) : Prop :=
  s.conf = sys.conf ∧ s.initialized = sys.initialized ∧
    s.keyframesAll = sys.keyframesAll ∧ s.idToKeyFrame = sys.idToKeyFrame ∧
    s.currentKeyFrame = sys.currentKeyFrame ∧
    (∀ p, (s.frames p).id = (sys.frames p).id) ∧
    (∀ p, (s.frames p).idxInKeyframes = (sys.frames p).idxInKeyframes)

/-- Consistency of the keyframe stores: each member of the ordered list carries its position
as `idxInKeyframes`; each entry of the id index is stored under the id of its frame; under
SLAM mode the ids of the listed keyframes and of the current keyframe are keys of the id
index; an initialized system has a current keyframe. -/
def GraphInv (sys : SlamSystem) : Prop :=
  (∀ (i : Nat) (k : FramePtr),
      sys.keyframesAll[i]? = some k → (sys.frames k).idxInKeyframes = (i : Int)) ∧
    (∀ key v, (key, v) ∈ sys.idToKeyFrame → (sys.frames v).id = key) ∧
    (sys.conf.SLAMEnabled = true →
      ∀ k ∈ sys.keyframesAll, (mapFind sys.idToKeyFrame (sys.frames k).id).isSome = true) ∧
    (sys.conf.SLAMEnabled = true →
      ∀ c, sys.currentKeyFrame = some c →
        (mapFind sys.idToKeyFrame (sys.frames c).id).isSome = true) ∧
    (sys.initialized = true → sys.currentKeyFrame.isSome = true)

/-- A property of the system kept by every quiet operation and by the three operations that
write the keyframe stores. -/
structure Preserved (P : SlamSystem → Prop) : Prop where
  quiet : ∀ sys s, Quiet sys s → P sys → P s
  init : ∀ sys f s, initializeSystem sys f = .ok s → P sys → P s
  load : ∀ sys k s, loadNewCurrentKeyframe sys k = .ok s → P sys → P s
  create : ∀ sys f, P sys → P (createNewCurrentKeyframe sys f)

/-- A call sequence on the fresh system: initialize with frame 0, make frames 10 and 25
keyframes, then switch with the search returning keyframe 10. -/
def sampleRequests : List Request :=
  [.init 0, .createNewCurrentKeyframe 10, .createNewCurrentKeyframe 25,
    .changeKeyframe (some 10) 30 false true 1]

/-- The state the sample call sequence ends in. -/
def sampleRunResult : SlamSystem :=
  match run freshSystem sampleRequests with
  | .ok s => s
  | .error _ => freshSystem

/-- The predicate on the keyframe stores under SLAM mode: every keyframe of the ordered list
has its id as a key of the id index, and there is a current keyframe whose id is a key of
the id index. -/
def KeyframesIndexed (sys : SlamSystem) : Prop :=
  (∀ k ∈ sys.keyframesAll, (mapFind sys.idToKeyFrame (sys.frames k).id).isSome = true) ∧
    ∃ c, sys.currentKeyFrame = some c ∧
      (mapFind sys.idToKeyFrame (sys.frames c).id).isSome = true

/-! ## Data and values of the keyframe selection -/

/-- A tracker outcome with a large motion: translation (1, 0, 0), half of the points used. -/
def farTrack : TrackerResult :=
  { goodTrack with translation := (1, 0, 0), pointUsage := 1 / 2 }

/-- A tracker outcome whose score meets the threshold: with the sample settings, mean
inverse depth 1 and one keyframe, score and threshold are both the `float`
8455717 / 33554432, although `16 * (67376765 / 536870912) ^ 2` exceeds `63 / 250`. -/
def edgeTrack : TrackerResult :=
  { goodTrack with translation := (67376765 / 536870912, 0, 0) }

/-- Settings with an initialization phase of 41 keyframes. -/
def longPhaseSettings : Settings :=
  { sampleSettings with INITIALIZATION_PHASE_COUNT := 41 }

/-- The `float` nearest to one tenth, `0.1f`. -/
def oneTenthFloat : ℚ := 13421773 / 134217728

/-- The number held by `minValBase` when neither count leaves the range of its integer
type. -/
def minValBaseQ (st : Settings) (n : Nat) : ℚ :=
  min
    (binary32.roundQ
      (binary32.roundQ (2 / 10)
        + binary32.roundQ
            (binary32.roundQ (binary32.roundQ (n : ℚ) * binary32.roundQ (8 / 10))
              / binary32.roundQ (st.INITIALIZATION_PHASE_COUNT : ℚ))))
    1

/-- The number held by `minVal` when neither count leaves the range of its integer type. -/
def minValQ (st : Settings) (n : Nat) : ℚ :=
  if n < st.INITIALIZATION_PHASE_COUNT then
    binary32.roundQ (binary64.roundQ (minValBaseQ st n * binary64.roundQ (7 / 10)))
  else minValBaseQ st n

/-- An initialized system has a non-empty registry. -/
def RegistryFilled (sys : SlamSystem) : Prop :=
  sys.initialized = true → sys.allFramePoses ≠ []

/-- The lazy-initialization guard of `SlamSystem::trackFrame` (line 210): the state in which
`TrackingThread::trackFrame` is then entered. -/
def lazyInitialized (sys : SlamSystem) (newFrame : FramePtr) : Except SlamError SlamSystem :=
  if !sys.initialized then initializeSystem sys newFrame else .ok sys

/-! ## Basic facts -/

theorem mapFind_nil (key : Int) : mapFind [] key = none := rfl

theorem newReferenceKF_some_iff (sys : SlamSystem) (found : Option FramePtr) (k : FramePtr) :
    newReferenceKF sys found = some k ↔
      sys.conf.doKFReActivation = true ∧ sys.conf.SLAMEnabled = true ∧ found = some k := by
  unfold newReferenceKF
  cases h1 : sys.conf.doKFReActivation <;> cases h2 : sys.conf.SLAMEnabled <;> simp

theorem createNewCurrentKeyframe_current (sys : SlamSystem) (f : FramePtr) :
    (createNewCurrentKeyframe sys f).currentKeyFrame = some f := by
  unfold createNewCurrentKeyframe
  simp only [SlamSystem.record]
  split_ifs <;> rfl

theorem createNewCurrentKeyframe_id (sys : SlamSystem) (f g : FramePtr) :
    ((createNewCurrentKeyframe sys f).frames g).id = (sys.frames g).id := by
  unfold createNewCurrentKeyframe
  simp only [SlamSystem.record]
  split_ifs <;> try rfl
  all_goals
    by_cases hg : g = f
    · subst hg; simp
    · simp [Function.update_noteq hg]

theorem runningSystem_gated : IdIndexGated runningSystem :=
  fun h => absurd h (by decide)

theorem Evolves.refl (sys : SlamSystem) : Evolves sys sys :=
  ⟨rfl, id, id, id, List.prefix_refl _⟩

theorem Evolves.trans {a b c : SlamSystem} (h1 : Evolves a b) (h2 : Evolves b c) :
    Evolves a c :=
  ⟨h2.1.trans h1.1, fun h => h2.2.1 (h1.2.1 h), fun h => h2.2.2.1 (h1.2.2.1 h),
    fun h => h2.2.2.2.1 (h1.2.2.2.1 h), h1.2.2.2.2.trans h2.2.2.2.2⟩

/-- A state that agrees with `sys` on the five observed components evolves from it. -/
theorem Evolves.of_eq {sys s : SlamSystem} (hc : s.conf = sys.conf)
    (hi : s.initialized = sys.initialized) (hk : s.currentKeyFrame = sys.currentKeyFrame)
    (hm : s.idToKeyFrame = sys.idToKeyFrame) (hr : s.allFramePoses = sys.allFramePoses) :
    Evolves sys s := by
  refine ⟨hc, fun h => hi ▸ h, fun h => hk ▸ h, fun hg h => ?_, hr ▸ List.prefix_refl _⟩
  rw [hm]
  exact hg (hc ▸ h)

theorem record_evolves (sys : SlamSystem) (c : Call) : Evolves sys (sys.record c) :=
  Evolves.of_eq rfl rfl rfl rfl rfl

theorem storePose_evolves (sys : SlamSystem) (f : FramePtr) : Evolves sys (storePose sys f) :=
  ⟨rfl, id, id, id, List.prefix_append _ _⟩

theorem setTrackingIsBad_evolves (sys : SlamSystem) : Evolves sys (setTrackingIsBad sys) :=
  Evolves.of_eq rfl rfl rfl rfl rfl

theorem setTrackingIsGood_evolves (sys : SlamSystem) : Evolves sys (setTrackingIsGood sys) :=
  Evolves.of_eq rfl rfl rfl rfl rfl

theorem initializeSystem_ok {sys s : SlamSystem} {f : FramePtr}
    (h : initializeSystem sys f = .ok s) :
    s.initialized = true ∧ s.currentKeyFrame = some f ∧ Evolves sys s := by
  rcases sys with ⟨⟨dm, se, ra, pc⟩, st, fr, po, ka, idx, ck, reg, ini, tp, tv, mtr, tt, cl⟩
  simp only [initializeSystem, SlamSystem.record, storePose] at h
  cases dm <;> cases se <;> cases pc <;> cases hd : (fr f).hasIDepthBeenSet <;>
    simp [hd] at h <;> subst h <;> simp [Evolves, IdIndexGated]

theorem loadNewCurrentKeyframe_ok {sys s : SlamSystem} {k : FramePtr}
    (h : loadNewCurrentKeyframe sys k = .ok s) : Evolves sys s := by
  simp only [loadNewCurrentKeyframe, SlamSystem.record] at h
  split at h
  · cases h
  · injection h with h
    subst h
    exact ⟨rfl, id, fun _ => rfl, id, List.prefix_refl _⟩

theorem createNewCurrentKeyframe_evolves (sys : SlamSystem) (f : FramePtr) :
    Evolves sys (createNewCurrentKeyframe sys f) := by
  rcases sys with ⟨⟨dm, se, ra, pc⟩, st, fr, po, ka, idx, ck, reg, ini, tp, tv, mtr, tt, cl⟩
  simp only [createNewCurrentKeyframe, SlamSystem.record]
  cases se <;> simp [Evolves, IdIndexGated]
  split_ifs <;> simp

theorem changeKeyframe_ok {sys s : SlamSystem} {found : Option FramePtr} {f : FramePtr}
    {noCreate force : Bool} {maxScore : ℚ}
    (h : changeKeyframe sys found f noCreate force maxScore = .ok s) : Evolves sys s := by
  simp only [changeKeyframe] at h
  have hrec : Evolves sys
      (if (sys.conf.doKFReActivation && sys.conf.SLAMEnabled) = true then
        sys.record (.findRePositionCandidate f maxScore) else sys) := by
    split_ifs
    · exact record_evolves _ _
    · exact Evolves.refl _
  generalize (if (sys.conf.doKFReActivation && sys.conf.SLAMEnabled) = true then
      sys.record (.findRePositionCandidate f maxScore) else sys) = s1 at h hrec
  split at h
  · exact hrec.trans (loadNewCurrentKeyframe_ok h)
  · cases force <;> cases noCreate <;> simp at h <;> subst h
    · exact hrec
    · exact hrec
    · exact hrec.trans (createNewCurrentKeyframe_evolves _ _)
    · exact hrec.trans (setTrackingIsBad_evolves _)

/-! ## Tracking -/

theorem refreshTrackingReference_registry (sys : SlamSystem) (kf : FramePtr) :
    (refreshTrackingReference sys kf).allFramePoses = sys.allFramePoses := by
  simp only [refreshTrackingReference]
  split_ifs <;> rfl

theorem trackingLost_invokeTracker_refresh (sys : SlamSystem) (kf f : FramePtr)
    (tr : TrackerResult) :
    trackingLost (invokeTracker (refreshTrackingReference sys kf) tr f) tr
      = trackingLost sys tr := by
  simp only [trackingLost, invokeTracker, SlamSystem.record, refreshTrackingReference]
  split_ifs <;> rfl

/-- Shape of `TrackingThread::trackFrame` in the tracking-bad state. -/
theorem trackFrame_of_bad {sys : SlamSystem} (h : sys.trackingThread.trackingIsGood = false)
    (tr : TrackerResult) (found : Option FramePtr) (f : FramePtr) (b : Bool) :
    TrackingThread.trackFrame sys tr found f b =
      .ok (sys.record (.relocalizerUpdateCurrentFrame f)) := by
  unfold TrackingThread.trackFrame
  simp only [h, Bool.not_false, if_true]

/-- Shape of `TrackingThread::trackFrame` once the tracker is reached. -/
theorem trackFrame_of_reaches {sys : SlamSystem} {kf : FramePtr} (h : ReachesTracker sys kf)
    (tr : TrackerResult) (found : Option FramePtr) (f : FramePtr) (b : Bool) :
    TrackingThread.trackFrame sys tr found f b =
      if trackingLost sys tr = true then
        .ok (declareTrackingLost (invokeTracker (refreshTrackingReference sys kf) tr f))
      else
        keyframeSelection
          (acceptTrackedFrame (invokeTracker (refreshTrackingReference sys kf) tr f) f b)
          tr found f := by
  obtain ⟨hgood, hkf, href, hreg⟩ := h
  obtain ⟨r, hr⟩ : ∃ r,
      (refreshTrackingReference sys kf).trackingThread.trackingReference.keyframe = some r :=
    Option.ne_none_iff_exists'.1 href
  obtain ⟨l, hl⟩ : ∃ l, (refreshTrackingReference sys kf).allFramePoses.getLast? = some l := by
    rw [refreshTrackingReference_registry]
    cases hq : sys.allFramePoses.getLast? with
    | none => exact absurd (List.getLast?_eq_none_iff.1 hq) hreg
    | some l => exact ⟨l, rfl⟩
  unfold TrackingThread.trackFrame
  simp only [hgood, hkf, hr, hl, Bool.not_true, Bool.false_eq_true, if_false,
    trackingLost_invokeTracker_refresh]

/-- Result of the tracking-lost path. -/
theorem declareTrackingLost_fields (sys : SlamSystem) (kf f : FramePtr) (tr : TrackerResult) :
    (declareTrackingLost (invokeTracker (refreshTrackingReference sys kf) tr f)).allFramePoses
        = sys.allFramePoses ∧
      (declareTrackingLost (invokeTracker (refreshTrackingReference sys kf) tr f)).poses
        = sys.poses ∧
      (declareTrackingLost (invokeTracker (refreshTrackingReference sys kf) tr f)).calls
        = sys.calls ++
          [.se3TrackFrame
            (refreshTrackingReference sys kf).trackingThread.trackingReference.frameID f] ∧
      (declareTrackingLost (invokeTracker (refreshTrackingReference sys kf) tr
        f)).trackingThread.trackingReference.keyframe = none ∧
      (declareTrackingLost (invokeTracker (refreshTrackingReference sys kf) tr
        f)).trackingThread.trackingIsGood = false ∧
      (declareTrackingLost (invokeTracker (refreshTrackingReference sys kf) tr
        f)).trackingThread.manualTrackingLossIndicated = false := by
  unfold refreshTrackingReference
  split_ifs <;> exact ⟨rfl, rfl, rfl, rfl, rfl, rfl⟩

theorem refreshTrackingReference_evolves (sys : SlamSystem) (kf : FramePtr) :
    Evolves sys (refreshTrackingReference sys kf) := by
  unfold refreshTrackingReference
  split_ifs
  · exact Evolves.of_eq rfl rfl rfl rfl rfl
  · exact Evolves.refl _

theorem invokeTracker_evolves (sys : SlamSystem) (tr : TrackerResult) (f : FramePtr) :
    Evolves sys (invokeTracker sys tr f) :=
  Evolves.of_eq rfl rfl rfl rfl rfl

theorem declareTrackingLost_evolves (sys : SlamSystem) :
    Evolves sys (declareTrackingLost sys) :=
  Evolves.of_eq rfl rfl rfl rfl rfl

theorem acceptTrackedFrame_evolves (sys : SlamSystem) (f : FramePtr) (b : Bool) :
    Evolves sys (acceptTrackedFrame sys f b) :=
  (storePose_evolves sys f).trans
    (((record_evolves _ _).trans (record_evolves _ _)).trans (record_evolves _ _))

theorem keyframeSelection_ok {sys s : SlamSystem} {tr : TrackerResult}
    {found : Option FramePtr} {f : FramePtr}
    (h : keyframeSelection sys tr found f = .ok s) : Evolves sys s := by
  unfold keyframeSelection at h
  split at h
  · cases h
  · dsimp only at h
    split_ifs at h
    · have e := changeKeyframe_ok h
      exact Evolves.trans (Evolves.of_eq rfl rfl rfl rfl rfl) e
    · injection h with h
      subst h
      exact Evolves.of_eq rfl rfl rfl rfl rfl
    · injection h with h
      subst h
      exact Evolves.refl _

theorem trackingThread_trackFrame_ok {sys s : SlamSystem} {tr : TrackerResult}
    {found : Option FramePtr} {f : FramePtr} {b : Bool}
    (h : TrackingThread.trackFrame sys tr found f b = .ok s) : Evolves sys s := by
  unfold TrackingThread.trackFrame at h
  split_ifs at h
  · injection h with h
    subst h
    exact record_evolves _ _
  · split at h
    · cases h
    · rename_i kf _
      dsimp only at h
      split at h
      · cases h
      · split at h
        · cases h
        · have h1 := (refreshTrackingReference_evolves sys kf).trans
            (invokeTracker_evolves (refreshTrackingReference sys kf) tr f)
          split_ifs at h
          · injection h with h
            subst h
            exact h1.trans (declareTrackingLost_evolves _)
          · exact (h1.trans (acceptTrackedFrame_evolves _ f b)).trans (keyframeSelection_ok h)

theorem takeRelocalizeResult_ok {sys s : SlamSystem} {tr : TrackerResult}
    {result : RelocalizerResult}
    (h : TrackingThread.takeRelocalizeResult sys tr result = .ok s) : Evolves sys s := by
  unfold TrackingThread.takeRelocalizeResult at h
  split at h
  · cases h
  · dsimp only at h
    split_ifs at h <;> injection h with h <;> subst h
    · exact Evolves.of_eq rfl rfl rfl rfl rfl
    · exact ⟨rfl, id, id, id, List.prefix_append _ _⟩

theorem slamSystem_trackFrame_ok {sys s : SlamSystem} {tr : TrackerResult}
    {found : Option FramePtr} {f : FramePtr} {b : Bool}
    (h : SlamSystem.trackFrame sys tr found f b = .ok s) :
    s.initialized = true ∧ Evolves sys s := by
  unfold SlamSystem.trackFrame at h
  split at h
  · cases h
  · rename_i s1 h1
    split at h
    · cases h
    · rename_i s2 h2
      injection h with h
      subst h
      have e2 := (trackingThread_trackFrame_ok h2).trans (record_evolves s2 .addTimingSamples)
      split_ifs at h1 with hinit
      · obtain ⟨hi, _, e1⟩ := initializeSystem_ok h1
        exact ⟨e2.2.1 hi, e1.trans e2⟩
      · injection h1 with h1
        subst h1
        have hi : sys.initialized = true := by simpa using hinit
        exact ⟨e2.2.1 hi, e2⟩

theorem step_ok {sys s : SlamSystem} {r : Request} (h : step sys r = .ok s) :
    Evolves sys s := by
  cases r <;> simp only [step] at h
  · exact (initializeSystem_ok h).2.2
  · exact (slamSystem_trackFrame_ok h).2
  · exact takeRelocalizeResult_ok h
  · exact changeKeyframe_ok h
  · injection h with h; subst h; exact createNewCurrentKeyframe_evolves _ _
  · exact loadNewCurrentKeyframe_ok h
  · injection h with h; subst h; exact storePose_evolves _ _
  · injection h with h; subst h; exact setTrackingIsBad_evolves _
  · injection h with h; subst h; exact setTrackingIsGood_evolves _
  · injection h with h; subst h; exact Evolves.of_eq rfl rfl rfl rfl rfl

theorem run_ok {sys s : SlamSystem} {rs : List Request} (h : run sys rs = .ok s) :
    Evolves sys s := by
  induction rs generalizing sys with
  | nil =>
    simp only [run] at h
    injection h with h
    subst h
    exact Evolves.refl _
  | cons r rest ih =>
    simp only [run] at h
    split at h
    · cases h
    · rename_i s1 h1
      exact (step_ok h1).trans (ih h)

theorem create_gated (conf : Configuration) (st : Settings) (frames : FramePtr → Frame)
    (poses : PosePtr → FramePoseStruct) :
    IdIndexGated (SlamSystem.create conf st frames poses) :=
  fun _ => rfl

theorem runningSystem_reaches : ReachesTracker runningSystem 0 :=
  ⟨rfl, rfl, by decide, by decide⟩

theorem manualLossSystem_reaches : ReachesTracker manualLossSystem 0 :=
  ⟨rfl, rfl, by decide, by decide⟩

/-- In a strictly increasing list every element is below a bound exactly when the last one
is. -/
theorem pairwise_lt_all_lt_iff_last (l : List Int) (n : Int) (hl : l.Pairwise (· < ·)) :
    (∀ a ∈ l, a < n) ↔ ∀ x, l.getLast? = some x → x < n := by
  constructor
  · intro h x hx
    exact h x (List.mem_of_getLast?_eq_some hx)
  · intro h a ha
    have hne : l ≠ [] := List.ne_nil_of_mem ha
    have hlast : l.getLast? = some (l.getLast hne) := List.getLast?_eq_getLast l hne
    have hx := h _ hlast
    rw [← List.dropLast_append_getLast hne] at hl ha
    rw [List.pairwise_append] at hl
    rcases List.mem_append.1 ha with hmem | hmem
    · exact lt_trans (hl.2.2 a hmem _ (List.mem_singleton_self _)) hx
    · rw [List.mem_singleton.1 hmem]
      exact hx

theorem storePose_frameID (sys : SlamSystem) (f : FramePtr) (p : PosePtr) :
    ((storePose sys f).poses p).frameID = (sys.poses p).frameID := by
  simp only [storePose]
  by_cases hp : p = (sys.frames f).pose
  · subst hp; simp
  · simp [Function.update_noteq hp]

theorem storePose_registryIds (sys : SlamSystem) (f : FramePtr) :
    registryIds (storePose sys f) =
      registryIds sys ++ [(sys.poses (sys.frames f).pose).frameID] := by
  have h : ∀ p, ((storePose sys f).poses p).frameID = (sys.poses p).frameID :=
    storePose_frameID sys f
  simp only [registryIds, h]
  simp [storePose]

theorem initializeSystem_returns (sys : SlamSystem) (f : FramePtr)
    (hmap : sys.conf.doMapping = true) : ∃ s, initializeSystem sys f = .ok s := by
  unfold initializeSystem
  simp only [hmap, Bool.not_true, Bool.false_eq_true, if_false]
  exact ⟨_, rfl⟩

theorem run_append (sys : SlamSystem) (rs qs : List Request) :
    run sys (rs ++ qs) =
      match run sys rs with
      | .error e => .error e
      | .ok s => run s qs := by
  induction rs generalizing sys with
  | nil => rfl
  | cons r rest ih =>
    simp only [List.cons_append, run]
    cases step sys r with
    | error e => rfl
    | ok s1 => exact ih s1

theorem goodTrack_accepted : relocalizationRejected runningSystem.settings goodTrack = false := by
  have h : runningSystem.settings = sampleSettings := rfl
  rw [h]
  simp only [relocalizationRejected, floatDivLt, goodTrack, sampleSettings]
  norm_num

/-- Every state reached from a freshly constructed system keeps the id index gated. -/
theorem run_create_gated (conf : Configuration) (st : Settings) (frames : FramePtr → Frame)
    (poses : PosePtr → FramePoseStruct) (rs : List Request) (s : SlamSystem)
    (h : run (SlamSystem.create conf st frames poses) rs = .ok s) : IdIndexGated s :=
  (run_ok h).2.2.2.1 (create_gated conf st frames poses)

/-! ## Keyframe switch -/

/-- C1: when `changeKeyframe(f, noCreate=false, force=true, maxScore)` runs and no
re-activation candidate is found (the search is skipped or returns none), it returns and the
current-keyframe cell then holds `f`, whose id is the id `f` had on entry. -/
theorem changeKeyframe_forced_creates_current (sys : SlamSystem) (found : Option FramePtr)
    (f : FramePtr) (maxScore : ℚ) (hnone : newReferenceKF sys found = none) :
    ∃ s, changeKeyframe sys found f false true maxScore = .ok s ∧
      s.currentKeyFrame = some f ∧ (s.frames f).id = (sys.frames f).id := by
  unfold changeKeyframe
  rw [hnone]
  refine ⟨_, rfl, createNewCurrentKeyframe_current _ _, ?_⟩
  rw [createNewCurrentKeyframe_id]
  split_ifs <;> rfl

/-- Instance of C1 on the running system with the search returning none. -/
theorem changeKeyframe_forced_creates_current_witness :
    newReferenceKF runningSystem none = none ∧
      ∃ s, changeKeyframe runningSystem none 25 false true 1 = .ok s ∧
        s.currentKeyFrame = some 25 ∧ (s.frames 25).id = (runningSystem.frames 25).id :=
  ⟨by simp [newReferenceKF],
    changeKeyframe_forced_creates_current runningSystem none 25 1 (by simp [newReferenceKF])⟩

/-- C2: with `doKFReActivation` enabled, if `findRePositionCandidate(f, maxScore)` yields a
keyframe `k` that exists in the id index (stored value `k1` under `k`s id), then
`changeKeyframe(f, noCreate, force=true, maxScore)` returns with the current-keyframe cell
holding the keyframe stored under that id, and creates nothing: the id index, the ordered
keyframe list and the vertex and point counters are unchanged. -/
theorem changeKeyframe_reactivates_found (sys : SlamSystem) (f k k1 : FramePtr)
    (noCreate : Bool) (maxScore : ℚ)
    (hre : sys.conf.doKFReActivation = true) (hgate : IdIndexGated sys)
    (hstored : mapFind sys.idToKeyFrame (sys.frames k).id = some k1) :
    ∃ s, changeKeyframe sys (some k) f noCreate true maxScore = .ok s ∧
      s.currentKeyFrame = some k1 ∧
      s.idToKeyFrame = sys.idToKeyFrame ∧ s.keyframesAll = sys.keyframesAll ∧
      s.totalVertices = sys.totalVertices ∧ s.totalPoints = sys.totalPoints := by
  have hslam : sys.conf.SLAMEnabled = true := by
    cases h : sys.conf.SLAMEnabled
    · rw [hgate h, mapFind_nil] at hstored
      cases hstored
    · rfl
  have hnew : newReferenceKF sys (some k) = some k :=
    (newReferenceKF_some_iff sys (some k) k).2 ⟨hre, hslam, rfl⟩
  unfold changeKeyframe
  rw [hnew]
  simp only [hre, hslam, Bool.and_self, if_true]
  unfold loadNewCurrentKeyframe
  simp only [SlamSystem.record]
  rw [hstored]
  exact ⟨_, rfl, rfl, rfl, rfl, rfl, rfl⟩

/-- Instance of C2: keyframes 0 and 10 exist, the search returns keyframe 10 for frame 25. -/
theorem changeKeyframe_reactivates_found_witness :
    runningSystem.conf.doKFReActivation = true ∧ IdIndexGated runningSystem ∧
      mapFind runningSystem.idToKeyFrame (runningSystem.frames 10).id = some 10 ∧
      ∃ s, changeKeyframe runningSystem (some 10) 25 false true 1 = .ok s ∧
        s.currentKeyFrame = some 10 ∧
        s.idToKeyFrame = runningSystem.idToKeyFrame ∧
        s.keyframesAll = runningSystem.keyframesAll ∧
        s.totalVertices = runningSystem.totalVertices ∧
        s.totalPoints = runningSystem.totalPoints :=
  ⟨rfl, runningSystem_gated, by decide,
    changeKeyframe_reactivates_found runningSystem 25 10 10 false 1 rfl
      runningSystem_gated (by decide)⟩

/-- C3: when `changeKeyframe(f, noCreate=true, force=true, maxScore)` finds no re-activation
candidate it returns with tracking marked bad and has created no keyframe: the current
keyframe, the id index, the ordered keyframe list, the counters and the frame heap are
unchanged. -/
theorem changeKeyframe_noCreate_marks_tracking_bad (sys : SlamSystem)
    (found : Option FramePtr) (f : FramePtr) (maxScore : ℚ)
    (hnone : newReferenceKF sys found = none) :
    ∃ s, changeKeyframe sys found f true true maxScore = .ok s ∧
      s.trackingThread.trackingIsGood = false ∧
      s.currentKeyFrame = sys.currentKeyFrame ∧
      s.idToKeyFrame = sys.idToKeyFrame ∧ s.keyframesAll = sys.keyframesAll ∧
      s.totalVertices = sys.totalVertices ∧ s.totalPoints = sys.totalPoints ∧
      s.frames = sys.frames := by
  unfold changeKeyframe
  rw [hnone]
  refine ⟨_, rfl, rfl, ?_⟩
  simp only [setTrackingIsBad, SlamSystem.record]
  split_ifs <;> exact ⟨rfl, rfl, rfl, rfl, rfl, rfl⟩

/-- Instance of C3 on the running system with the search returning none. -/
theorem changeKeyframe_noCreate_marks_tracking_bad_witness :
    newReferenceKF runningSystem none = none ∧
      ∃ s, changeKeyframe runningSystem none 25 true true 1 = .ok s ∧
        s.trackingThread.trackingIsGood = false ∧
        s.currentKeyFrame = runningSystem.currentKeyFrame ∧
        s.idToKeyFrame = runningSystem.idToKeyFrame ∧
        s.keyframesAll = runningSystem.keyframesAll ∧
        s.totalVertices = runningSystem.totalVertices ∧
        s.totalPoints = runningSystem.totalPoints ∧
        s.frames = runningSystem.frames :=
  ⟨by simp [newReferenceKF],
    changeKeyframe_noCreate_marks_tracking_bad runningSystem none 25 1
      (by simp [newReferenceKF])⟩

/-- C4: if a `TrackingThread::trackFrame` call starts with tracking good, reaches the SE(3)
tracker and the tracker reports `diverged`, the call returns, and the next `trackFrame` call
(whatever its frame) returns after only handing its frame to the relocalizer: the one call it
adds is `relocalizer.updateCurrentFrame`, so the SE(3) tracker is not invoked, and the pose
registry and the pose records are unchanged. -/
theorem diverged_then_next_frame_goes_to_relocalizer (sys : SlamSystem) (kf : FramePtr)
    (tr1 : TrackerResult) (found1 : Option FramePtr) (f1 : FramePtr) (b1 : Bool)
    (hreach : ReachesTracker sys kf) (hdiv : tr1.diverged = true) :
    ∃ s1, TrackingThread.trackFrame sys tr1 found1 f1 b1 = .ok s1 ∧
      ∀ (tr2 : TrackerResult) (found2 : Option FramePtr) (f2 : FramePtr) (b2 : Bool),
        ∃ s2, TrackingThread.trackFrame s1 tr2 found2 f2 b2 = .ok s2 ∧
          s2.calls = s1.calls ++ [.relocalizerUpdateCurrentFrame f2] ∧
          s2.allFramePoses = s1.allFramePoses ∧ s2.poses = s1.poses := by
  have hlost : trackingLost sys tr1 = true := by
    simp [trackingLost, hdiv]
  refine ⟨_, by rw [trackFrame_of_reaches hreach, if_pos hlost], ?_⟩
  intro tr2 found2 f2 b2
  have hbad := (declareTrackingLost_fields sys kf f1 tr1).2.2.2.2.1
  exact ⟨_, trackFrame_of_bad hbad tr2 found2 f2 b2, rfl, rfl, rfl⟩

/-- Instance of C4: the running system tracks frame 4, the tracker diverges, frame 5 follows. -/
theorem diverged_then_next_frame_goes_to_relocalizer_witness :
    ReachesTracker runningSystem 0 ∧ divergedTrack.diverged = true ∧
      ∃ s1, TrackingThread.trackFrame runningSystem divergedTrack none 4 false = .ok s1 ∧
        ∀ (tr2 : TrackerResult) (found2 : Option FramePtr) (f2 : FramePtr) (b2 : Bool),
          ∃ s2, TrackingThread.trackFrame s1 tr2 found2 f2 b2 = .ok s2 ∧
            s2.calls = s1.calls ++ [.relocalizerUpdateCurrentFrame f2] ∧
            s2.allFramePoses = s1.allFramePoses ∧ s2.poses = s1.poses :=
  ⟨runningSystem_reaches, rfl,
    diverged_then_next_frame_goes_to_relocalizer runningSystem 0 divergedTrack none 4 false
      runningSystem_reaches rfl⟩

/-- C5: a `TrackingThread::trackFrame` call that takes the tracking-lost path returns with the
pose registry and the pose records identical to those on entry; the only collaborator call it
made is the SE(3) tracker run, so the frame was not forwarded to mapping; the tracking
reference is invalidated, `trackingIsGood` is false and the manual-loss flag is false. -/
theorem trackingLost_path_discards_frame (sys : SlamSystem) (kf : FramePtr)
    (tr : TrackerResult) (found : Option FramePtr) (f : FramePtr) (b : Bool)
    (hreach : ReachesTracker sys kf) (hlost : trackingLost sys tr = true) :
    ∃ s, TrackingThread.trackFrame sys tr found f b = .ok s ∧
      s.allFramePoses = sys.allFramePoses ∧ s.poses = sys.poses ∧
      s.calls = sys.calls ++
        [.se3TrackFrame
          (refreshTrackingReference sys kf).trackingThread.trackingReference.frameID f] ∧
      (∀ g c, Call.mapTrackedFrame g c ∈ s.calls → Call.mapTrackedFrame g c ∈ sys.calls) ∧
      s.trackingThread.trackingReference.keyframe = none ∧
      s.trackingThread.trackingIsGood = false ∧
      s.trackingThread.manualTrackingLossIndicated = false := by
  obtain ⟨h1, h2, h3, h4, h5, h6⟩ := declareTrackingLost_fields sys kf f tr
  refine ⟨_, by rw [trackFrame_of_reaches hreach, if_pos hlost], h1, h2, h3, ?_, h4, h5, h6⟩
  intro g c hmem
  rw [h3] at hmem
  simpa using hmem

/-- Instance of C5: the manual tracking-loss flag is raised before frame 5 is tracked. -/
theorem trackingLost_path_discards_frame_witness :
    ReachesTracker manualLossSystem 0 ∧ trackingLost manualLossSystem goodTrack = true ∧
      ∃ s, TrackingThread.trackFrame manualLossSystem goodTrack none 5 false = .ok s ∧
        s.allFramePoses = manualLossSystem.allFramePoses ∧ s.poses = manualLossSystem.poses ∧
        s.calls = manualLossSystem.calls ++
          [.se3TrackFrame
            (refreshTrackingReference manualLossSystem
              0).trackingThread.trackingReference.frameID 5] ∧
        (∀ g c, Call.mapTrackedFrame g c ∈ s.calls →
          Call.mapTrackedFrame g c ∈ manualLossSystem.calls) ∧
        s.trackingThread.trackingReference.keyframe = none ∧
        s.trackingThread.trackingIsGood = false ∧
        s.trackingThread.manualTrackingLossIndicated = false :=
  ⟨manualLossSystem_reaches, rfl,
    trackingLost_path_discards_frame manualLossSystem 0 goodTrack none 5 false
      manualLossSystem_reaches rfl⟩

/-! ## Pose registry -/

/-- C6: on a freshly constructed system the first `SlamSystem::trackFrame(frame 0)` call with
a converged tracker returns, and the registry then holds the pose of frame 0 twice: once stored
by the lazy `initialize`, once by the tracking of that same frame. -/
theorem lazy_init_stores_pose_twice :
    ∃ s, SlamSystem.trackFrame freshSystem goodTrack none 0 false = .ok s ∧
      s.allFramePoses = [(freshSystem.frames 0).pose, (freshSystem.frames 0).pose] ∧
      s.allFramePoses.count (freshSystem.frames 0).pose = 2 := by
  refine ⟨_, rfl, ?_, ?_⟩ <;> rfl

/-- C7, the claim fails: the registry of the running system is strictly increasing by frame id
(ids 0, 1, 2, 3); `storePose` of frame 2, whose id is not greater than the last id 3, neither
fails nor skips the append, and the registry is no longer strictly increasing. -/
theorem storePose_accepts_out_of_order :
    (registryIds runningSystem).Pairwise (· < ·) ∧
      (storePose runningSystem 2).allFramePoses = [0, 1, 2, 3, 2] ∧
      registryIds (storePose runningSystem 2) = [0, 1, 2, 3, 2] ∧
      ¬ (registryIds (storePose runningSystem 2)).Pairwise (· < ·) := by
  have h : registryIds (storePose runningSystem 2) = [0, 1, 2, 3, 2] := by
    rw [storePose_registryIds]; rfl
  refine ⟨by decide, rfl, h, ?_⟩
  rw [h]
  decide

/-- C7, amended: `storePose(frame)` checks nothing and always returns; it marks the frame's
pose as registered, changes the frame id of no pose and appends the pose as the last registry
entry.  The registry is strictly increasing by frame id after the call exactly when it was so
before and the id of the stored pose is greater than the id of the previous last entry. -/
theorem storePose_appends_unchecked (sys : SlamSystem) (frame : FramePtr) :
    (storePose sys frame).allFramePoses = sys.allFramePoses ++ [(sys.frames frame).pose] ∧
      ((storePose sys frame).poses (sys.frames frame).pose).isRegisteredToGraph = true ∧
      (∀ p, ((storePose sys frame).poses p).frameID = (sys.poses p).frameID) ∧
      ((registryIds (storePose sys frame)).Pairwise (· < ·) ↔
        (registryIds sys).Pairwise (· < ·) ∧
          ∀ x, (registryIds sys).getLast? = some x →
            x < (sys.poses (sys.frames frame).pose).frameID) := by
  refine ⟨rfl, by simp [storePose], storePose_frameID sys frame, ?_⟩
  rw [storePose_registryIds, List.pairwise_append]
  constructor
  · rintro ⟨h1, _, h3⟩
    refine ⟨h1, (pairwise_lt_all_lt_iff_last _ _ h1).1 fun a ha => ?_⟩
    exact h3 a ha _ (List.mem_singleton_self _)
  · rintro ⟨h1, h2⟩
    refine ⟨h1, List.pairwise_singleton _ _, fun a ha b hb => ?_⟩
    rw [List.mem_singleton.1 hb]
    exact (pairwise_lt_all_lt_iff_last _ _ h1).2 h2 a ha

/-- C8, the claim fails: on a freshly constructed system the registry is empty, yet
`getCurrentPoseEstimate` returns a pose (the default one), which is the registry pose of no
frame. -/
theorem getCurrentPoseEstimate_empty_registry :
    freshSystem.allFramePoses = [] ∧
      getCurrentPoseEstimate sampleCamToWorld id 0 freshSystem = 0 ∧
      ¬ ∃ p ∈ freshSystem.allFramePoses,
          getCurrentPoseEstimate sampleCamToWorld id 0 freshSystem = id (sampleCamToWorld p) := by
  refine ⟨rfl, rfl, ?_⟩
  rintro ⟨p, hp, _⟩
  exact absurd hp (List.not_mem_nil p)

/-- C8, amended: while the registry is non-empty `getCurrentPoseEstimate` returns the SE(3)
part of the pose of the last registry entry, which is a registry member; when the registry is
empty it returns the default-constructed pose. -/
theorem getCurrentPoseEstimate_last_or_default {S E : Type} (getCamToWorld : PosePtr → S)
    (se3FromSim3 : S → E) (identity : E) (sys : SlamSystem) :
    (∀ p, sys.allFramePoses.getLast? = some p →
        p ∈ sys.allFramePoses ∧
          getCurrentPoseEstimate getCamToWorld se3FromSim3 identity sys
            = se3FromSim3 (getCamToWorld p)) ∧
      (sys.allFramePoses = [] →
        getCurrentPoseEstimate getCamToWorld se3FromSim3 identity sys = identity) := by
  constructor
  · intro p hp
    have hmem := List.mem_of_getLast?_eq_some hp
    have hne : sys.allFramePoses ≠ [] := List.ne_nil_of_mem hmem
    have hpos : 0 < sys.allFramePoses.length := List.length_pos.2 hne
    refine ⟨hmem, ?_⟩
    unfold getCurrentPoseEstimate
    rw [dif_pos hpos]
    have hlast := List.getLast?_eq_getLast sys.allFramePoses hne
    rw [hp] at hlast
    rw [← Option.some.inj hlast]
  · intro hnil
    unfold getCurrentPoseEstimate
    rw [dif_neg (by simp [hnil])]

/-- Instance of the amended C8: on the running system the estimate is the pose of frame 3, the
last registry entry. -/
theorem getCurrentPoseEstimate_last_or_default_witness :
    runningSystem.allFramePoses.getLast? = some 3 ∧
      3 ∈ runningSystem.allFramePoses ∧
      getCurrentPoseEstimate sampleCamToWorld id 0 runningSystem = id (sampleCamToWorld 3) :=
  ⟨rfl,
    (getCurrentPoseEstimate_last_or_default sampleCamToWorld id 0 runningSystem).1 3 rfl⟩

/-! ## Initialization and relocalization -/

/-- C9: `SlamSystem::trackFrame` on a system that is not yet initialized (mapping enabled)
first runs `initialize` on that frame, which returns with the system marked initialized and
the current-keyframe cell holding the frame, and then tracks the frame.  From there on, after
any sequence of calls that return, the system is still initialized and the cell is non-empty;
`createNewCurrentKeyframe` and a returning `loadNewCurrentKeyframe` always leave a keyframe in
the cell. -/
theorem lazy_initialize_fills_current_keyframe (sys : SlamSystem) (tr : TrackerResult)
    (found : Option FramePtr) (f : FramePtr) (b : Bool)
    (hinit : sys.initialized = false) (hmap : sys.conf.doMapping = true) :
    ∃ s1, initializeSystem sys f = .ok s1 ∧
      s1.initialized = true ∧ s1.currentKeyFrame = some f ∧
      SlamSystem.trackFrame sys tr found f b =
        (match TrackingThread.trackFrame s1 tr found f b with
          | .error e => .error e
          | .ok s2 => .ok (s2.record .addTimingSamples)) ∧
      (∀ rs s, run s1 rs = .ok s → s.initialized = true ∧ s.currentKeyFrame.isSome = true) ∧
      (∀ s g, (createNewCurrentKeyframe s g).currentKeyFrame = some g) ∧
      (∀ s g s2, loadNewCurrentKeyframe s g = .ok s2 → s2.currentKeyFrame.isSome = true) := by
  obtain ⟨s1, h1⟩ := initializeSystem_returns sys f hmap
  obtain ⟨hi, hk, _⟩ := initializeSystem_ok h1
  refine ⟨s1, h1, hi, hk, ?_, ?_, createNewCurrentKeyframe_current, ?_⟩
  · unfold SlamSystem.trackFrame
    simp only [hinit, Bool.not_false, if_true, h1]
  · intro rs s hrun
    have e := run_ok hrun
    exact ⟨e.2.1 hi, e.2.2.1 (by rw [hk]; rfl)⟩
  · intro s g s2 hload
    simp only [loadNewCurrentKeyframe, SlamSystem.record] at hload
    split at hload
    · cases hload
    · injection hload with hload
      subst hload
      rfl

/-- Instance of C9: the first frame submitted to a freshly constructed system. -/
theorem lazy_initialize_fills_current_keyframe_witness :
    freshSystem.initialized = false ∧ freshSystem.conf.doMapping = true ∧
      ∃ s1, initializeSystem freshSystem 0 = .ok s1 ∧
        s1.initialized = true ∧ s1.currentKeyFrame = some 0 ∧
        SlamSystem.trackFrame freshSystem goodTrack none 0 false =
          (match TrackingThread.trackFrame s1 goodTrack none 0 false with
            | .error e => .error e
            | .ok s2 => .ok (s2.record .addTimingSamples)) ∧
        (∀ rs s, run s1 rs = .ok s → s.initialized = true ∧ s.currentKeyFrame.isSome = true) ∧
        (∀ s g, (createNewCurrentKeyframe s g).currentKeyFrame = some g) ∧
        (∀ s g s2, loadNewCurrentKeyframe s g = .ok s2 → s2.currentKeyFrame.isSome = true) :=
  ⟨rfl, rfl, lazy_initialize_fills_current_keyframe freshSystem goodTrack none 0 false rfl rfl⟩

/-- C10: from a state whose current-keyframe cell is filled, `setTrackingIsBad()` followed by
a `takeRelocalizeResult(result)` whose re-track is accepted returns with `trackingIsGood` true
and with the pose of the successful frame appended as the last entry of the registry. -/
theorem relocalization_success_restores_tracking (sys : SlamSystem) (kf : FramePtr)
    (tr : TrackerResult) (result : RelocalizerResult)
    (hkf : sys.currentKeyFrame = some kf)
    (hacc : relocalizationRejected sys.settings tr = false) :
    ∃ s, TrackingThread.takeRelocalizeResult (setTrackingIsBad sys) tr result = .ok s ∧
      s.trackingThread.trackingIsGood = true ∧
      s.allFramePoses = sys.allFramePoses ++ [(sys.frames result.successfulFrame).pose] ∧
      s.allFramePoses.getLast? = some (sys.frames result.successfulFrame).pose := by
  have hkf2 : (setTrackingIsBad sys).currentKeyFrame = some kf := hkf
  have hacc2 : relocalizationRejected (setTrackingIsBad sys).settings tr = false := hacc
  unfold TrackingThread.takeRelocalizeResult
  simp only [hkf2, SlamSystem.record, hacc2, Bool.false_eq_true, if_false]
  refine ⟨_, rfl, rfl, rfl, ?_⟩
  simp [setTrackingIsGood, storePose, setTrackingIsBad]

/-- Instance of C10: tracking was lost on the running system and the relocalizer succeeds on
frame 6 against keyframe 0. -/
theorem relocalization_success_restores_tracking_witness :
    runningSystem.currentKeyFrame = some 0 ∧
      relocalizationRejected runningSystem.settings goodTrack = false ∧
      ∃ s, TrackingThread.takeRelocalizeResult (setTrackingIsBad runningSystem) goodTrack
            { keyframe := 0, successfulFrame := 6, successfulFrameID := 6 } = .ok s ∧
        s.trackingThread.trackingIsGood = true ∧
        s.allFramePoses = runningSystem.allFramePoses ++
          [(runningSystem.frames
            (RelocalizerResult.mk 0 6 6).successfulFrame).pose] ∧
        s.allFramePoses.getLast? =
          some (runningSystem.frames (RelocalizerResult.mk 0 6 6).successfulFrame).pose :=
  ⟨rfl, goodTrack_accepted,
    relocalization_success_restores_tracking runningSystem 0 goodTrack
      { keyframe := 0, successfulFrame := 6, successfulFrameID := 6 } rfl goodTrack_accepted⟩

/-- With no re-activation candidate a forced `changeKeyframe` that may create returns. -/
theorem changeKeyframe_create_returns (sys : SlamSystem) (found : Option FramePtr)
    (f : FramePtr) (maxScore : ℚ) (hnone : newReferenceKF sys found = none) :
    ∃ s, changeKeyframe sys found f false true maxScore = .ok s ∧
      s.currentKeyFrame = some f := by
  unfold changeKeyframe
  rw [hnone]
  exact ⟨_, rfl, createNewCurrentKeyframe_current _ _⟩

/-! ## Relocalization results -/

/-- C11: when `takeRelocalizeResult` judges the re-track to be of low quality the call returns
with the result discarded: pose registry and pose records unchanged, the only collaborator
call made is the SE(3) tracker run (so nothing is forwarded to mapping), the tracking
reference is invalidated, and `trackingIsGood` keeps the value it had on entry. -/
theorem relocalization_rejected_discards_result (sys : SlamSystem) (kf : FramePtr)
    (tr : TrackerResult) (result : RelocalizerResult)
    (hkf : sys.currentKeyFrame = some kf)
    (hrej : relocalizationRejected sys.settings tr = true) :
    ∃ s, TrackingThread.takeRelocalizeResult sys tr result = .ok s ∧
      s.allFramePoses = sys.allFramePoses ∧ s.poses = sys.poses ∧
      s.calls = sys.calls ++ [.se3TrackFrame (sys.frames kf).id result.successfulFrame] ∧
      (∀ g c, Call.mapTrackedFrame g c ∈ s.calls → Call.mapTrackedFrame g c ∈ sys.calls) ∧
      s.trackingThread.trackingReference.keyframe = none ∧
      s.trackingThread.trackingIsGood = sys.trackingThread.trackingIsGood := by
  unfold TrackingThread.takeRelocalizeResult
  simp only [hkf, SlamSystem.record, hrej, if_true]
  refine ⟨_, rfl, rfl, rfl, rfl, ?_, rfl, rfl⟩
  intro g c hmem
  simpa [TrackingReference.importFrame] using hmem

/-- Instance of C11: in the tracking-bad state the re-track on frame 6 is flagged not good. -/
theorem relocalization_rejected_discards_result_witness :
    (setTrackingIsBad runningSystem).currentKeyFrame = some 0 ∧
      relocalizationRejected (setTrackingIsBad runningSystem).settings badTrack = true ∧
      ∃ s, TrackingThread.takeRelocalizeResult (setTrackingIsBad runningSystem) badTrack
            sampleRelocalizerResult = .ok s ∧
        s.allFramePoses = (setTrackingIsBad runningSystem).allFramePoses ∧
        s.poses = (setTrackingIsBad runningSystem).poses ∧
        s.calls = (setTrackingIsBad runningSystem).calls ++
          [.se3TrackFrame ((setTrackingIsBad runningSystem).frames 0).id
            sampleRelocalizerResult.successfulFrame] ∧
        (∀ g c, Call.mapTrackedFrame g c ∈ s.calls →
          Call.mapTrackedFrame g c ∈ (setTrackingIsBad runningSystem).calls) ∧
        s.trackingThread.trackingReference.keyframe = none ∧
        s.trackingThread.trackingIsGood =
          (setTrackingIsBad runningSystem).trackingThread.trackingIsGood :=
  ⟨rfl, rfl,
    relocalization_rejected_discards_result (setTrackingIsBad runningSystem) 0 badTrack
      sampleRelocalizerResult rfl rfl⟩

/-- With `MIN_GOODPERGOODBAD_PIXEL` at most 1 the test of `takeRelocalizeResult` rejects
exactly the results whose `trackingWasGood` flag is clear: the bad count plays no part. -/
theorem relocalizationRejected_iff_not_good (st : Settings) (tr : TrackerResult)
    (hmin : st.MIN_GOODPERGOODBAD_PIXEL ≤ 1) :
    relocalizationRejected st tr = !tr.trackingWasGood := by
  have hdiv : floatDivLt tr.lastGoodCount tr.lastGoodCount
      (1 - (75 : ℚ) / 100 * (1 - st.MIN_GOODPERGOODBAD_PIXEL)) = false := by
    unfold floatDivLt
    by_cases h0 : tr.lastGoodCount = 0
    · simp [h0]
    · rw [if_neg h0, div_self h0]
      simp only [decide_eq_false_iff_not, not_lt]
      nlinarith
  simp [relocalizationRejected, hdiv]

/-- C18: a re-track flagged good with 10 good and 90 bad pixels has the ratio
good/(good+bad) = 1/10, below the bound 1 - 0.75*(1 - 0.5) = 5/8, yet the test of
`takeRelocalizeResult` does not reject it: the call stores the pose and sets
`trackingIsGood`. -/
theorem relocalization_accepts_low_ratio :
    poorTrack.trackingWasGood = true ∧
      poorTrack.lastGoodCount / (poorTrack.lastGoodCount + poorTrack.lastBadCount)
        < 1 - (75 : ℚ) / 100 * (1 - sampleSettings.MIN_GOODPERGOODBAD_PIXEL) ∧
      relocalizationRejected sampleSettings poorTrack = false ∧
      ∃ s, TrackingThread.takeRelocalizeResult (setTrackingIsBad runningSystem) poorTrack
            sampleRelocalizerResult = .ok s ∧
        s.trackingThread.trackingIsGood = true ∧
        s.allFramePoses = [0, 1, 2, 3, 6] := by
  have hacc : relocalizationRejected sampleSettings poorTrack = false := by
    rw [relocalizationRejected_iff_not_good _ _ (by norm_num [sampleSettings])]
    rfl
  refine ⟨rfl, by norm_num [poorTrack, goodTrack, sampleSettings], hacc, ?_⟩
  have hacc2 : relocalizationRejected (setTrackingIsBad runningSystem).settings poorTrack
      = false := hacc
  unfold TrackingThread.takeRelocalizeResult
  have hkf : (setTrackingIsBad runningSystem).currentKeyFrame = some 0 := rfl
  simp only [hkf, SlamSystem.record, hacc2, Bool.false_eq_true, if_false]
  exact ⟨_, rfl, rfl, rfl⟩

/-! ## Duplicate keyframe ids -/

/-- What `initialize` leaves in the fields of the system when it returns. -/
theorem initializeSystem_fields {sys s : SlamSystem} {f : FramePtr}
    (h : initializeSystem sys f = .ok s) :
    s.conf = sys.conf ∧ s.settings = sys.settings ∧ s.frames = sys.frames ∧
      s.keyframesAll = sys.keyframesAll ∧
      s.idToKeyFrame = (if sys.conf.SLAMEnabled = true then
        mapInsert sys.idToKeyFrame (sys.frames f).id f else sys.idToKeyFrame) ∧
      s.currentKeyFrame = some f ∧ s.initialized = true ∧
      s.allFramePoses = sys.allFramePoses ++ [(sys.frames f).pose] := by
  rcases sys with ⟨⟨dm, se, ra, pc⟩, st, fr, po, ka, idx, ck, reg, ini, tp, tv, mtr, tt, cl⟩
  simp only [initializeSystem, SlamSystem.record, storePose] at h
  cases dm <;> cases se <;> cases pc <;> cases hd : (fr f).hasIDepthBeenSet <;>
    simp [hd] at h <;> subst h <;> simp

theorem mapInsert_of_present (m : List (Int × FramePtr)) (key : Int) (v w : FramePtr)
    (h : mapFind m key = some w) : mapInsert m key v = m := by
  simp [mapInsert, h]

/-- C14, the claim fails: keyframe 10 is in the id index of the running system; creating the
current keyframe from frame 10 again, or initializing with keyframe 0 again, returns without
any error, the index being left as it was. -/
theorem duplicate_keyframe_is_silently_ignored :
    mapFind runningSystem.idToKeyFrame (runningSystem.frames 10).id = some 10 ∧
      (createNewCurrentKeyframe runningSystem 10).idToKeyFrame = [(0, 0), (10, 10)] ∧
      (createNewCurrentKeyframe runningSystem 10).currentKeyFrame = some 10 ∧
      mapFind runningSystem.idToKeyFrame (runningSystem.frames 0).id = some 0 ∧
      ∃ s, initializeSystem runningSystem 0 = .ok s ∧
        s.idToKeyFrame = [(0, 0), (10, 10)] ∧ s.currentKeyFrame = some 0 := by
  refine ⟨by decide, ?_, createNewCurrentKeyframe_current _ _, by decide, _, rfl, ?_, rfl⟩
  · rfl
  · rfl

/-- C14, amended: inserting a keyframe whose id is already present in the id index, through
`createNewCurrentKeyframe` or `initialize`, raises no error: the insert is silently ignored
(the index, with the entry already stored under that id, is unchanged), the operation goes on
and the frame becomes the current keyframe. -/
theorem duplicate_insert_keeps_index (sys : SlamSystem) (f w : FramePtr)
    (hpresent : mapFind sys.idToKeyFrame (sys.frames f).id = some w) :
    (createNewCurrentKeyframe sys f).idToKeyFrame = sys.idToKeyFrame ∧
      (createNewCurrentKeyframe sys f).currentKeyFrame = some f ∧
      (sys.conf.doMapping = true →
        ∃ s, initializeSystem sys f = .ok s ∧
          s.idToKeyFrame = sys.idToKeyFrame ∧ s.currentKeyFrame = some f) := by
  refine ⟨?_, createNewCurrentKeyframe_current _ _, ?_⟩
  · unfold createNewCurrentKeyframe
    simp only [SlamSystem.record, mapInsert_of_present _ _ _ _ hpresent]
    split_ifs <;> rfl
  · intro hmap
    obtain ⟨s, hs⟩ := initializeSystem_returns sys f hmap
    have hf := initializeSystem_fields hs
    refine ⟨s, hs, ?_, hf.2.2.2.2.2.1⟩
    rw [hf.2.2.2.2.1, mapInsert_of_present _ _ _ _ hpresent]
    split_ifs <;> rfl

/-- Instance of the amended C14 on the running system and its keyframe 10. -/
theorem duplicate_insert_keeps_index_witness :
    mapFind runningSystem.idToKeyFrame (runningSystem.frames 10).id = some 10 ∧
      (createNewCurrentKeyframe runningSystem 10).idToKeyFrame = runningSystem.idToKeyFrame ∧
      (createNewCurrentKeyframe runningSystem 10).currentKeyFrame = some 10 ∧
      (runningSystem.conf.doMapping = true →
        ∃ s, initializeSystem runningSystem 10 = .ok s ∧
          s.idToKeyFrame = runningSystem.idToKeyFrame ∧ s.currentKeyFrame = some 10) :=
  ⟨by decide, duplicate_insert_keeps_index runningSystem 10 10 (by decide)⟩

/-! ## The current-keyframe cell -/

theorem MutexObject.get_of_free {T : Type} (m : MutexObject T) (h : m._mutex = false) :
    m.get = some (m._object, m) := by
  cases m with
  | mk o l =>
    simp only at h
    subst h
    rfl

theorem MutexObject.runCalls_of_free {T : Type} (calls : List (CellCall T)) (m : MutexObject T)
    (h : m._mutex = false) :
    ∃ m2, m.runCalls calls = some m2 ∧ m2._mutex = false ∧
      m2._object = lastSetValue m._object calls := by
  induction calls generalizing m with
  | nil => exact ⟨m, rfl, h, rfl⟩
  | cons c rest ih =>
    cases c with
    | set v =>
      obtain ⟨m2, h1, h2, h3⟩ := ih { _object := v, _mutex := false } rfl
      refine ⟨m2, ?_, h2, h3⟩
      simp only [MutexObject.runCalls, MutexObject.set, h, Bool.false_eq_true, if_false]
      exact h1
    | get =>
      obtain ⟨m2, h1, h2, h3⟩ := ih m h
      refine ⟨m2, ?_, h2, h3⟩
      simp only [MutexObject.runCalls, MutexObject.get_of_free m h]
      exact h1

/-- C16: on a cell whose mutex is free (as it is between the calls of a sequential
execution), `set(v)` returns and a following `get()` returns `v` and leaves the cell as it
is; a `get()` that returns never changes the cell and returns the stored object; and after
any sequence of `set` and `get` calls `get()` returns the value of the most recent `set`
(the initial object when there was none). -/
theorem mutexObject_get_returns_last_set {T : Type} (m : MutexObject T) (v : T)
    (calls : List (CellCall T)) (hfree : m._mutex = false) :
    (∃ m1, m.set v = some m1 ∧ m1.get = some (v, m1)) ∧
      (∀ r, m.get = some r → r.1 = m._object ∧ r.2 = m) ∧
      (∃ m2, m.runCalls calls = some m2 ∧
        m2.get = some (lastSetValue m._object calls, m2)) := by
  refine ⟨⟨{ _object := v, _mutex := false }, by simp [MutexObject.set, hfree], rfl⟩, ?_, ?_⟩
  · intro r hr
    rw [MutexObject.get_of_free m hfree] at hr
    cases hr
    exact ⟨rfl, rfl⟩
  · obtain ⟨m2, h1, h2, h3⟩ := MutexObject.runCalls_of_free calls m hfree
    exact ⟨m2, h1, by rw [MutexObject.get_of_free m2 h2, h3]⟩

/-- Instance of C16: the cell holds keyframe 0; keyframe 10 is set; keyframe 25 is set and read
twice. -/
theorem mutexObject_get_returns_last_set_witness :
    (MutexObject.mk (some 0 : Option FramePtr) false)._mutex = false ∧
      (∃ m1, (MutexObject.mk (some 0 : Option FramePtr) false).set (some 10) = some m1 ∧
        m1.get = some (some 10, m1)) ∧
      (∀ r, (MutexObject.mk (some 0 : Option FramePtr) false).get = some r →
        r.1 = (MutexObject.mk (some 0 : Option FramePtr) false)._object ∧
          r.2 = MutexObject.mk (some 0 : Option FramePtr) false) ∧
      (∃ m2, (MutexObject.mk (some 0 : Option FramePtr) false).runCalls
            [.set (some 25), .get, .get] = some m2 ∧
        m2.get = some (lastSetValue (MutexObject.mk (some 0 : Option FramePtr) false)._object
          [.set (some 25), .get, .get], m2)) :=
  ⟨rfl,
    mutexObject_get_returns_last_set (MutexObject.mk (some 0 : Option FramePtr) false)
      (some 10) [.set (some 25), .get, .get] rfl⟩

/-! ## Initial guess -/

theorem refreshTrackingReference_pose (sys : SlamSystem) (kf p : FramePtr) :
    ((refreshTrackingReference sys kf).frames p).pose = (sys.frames p).pose := by
  simp only [refreshTrackingReference]
  split_ifs
  · by_cases hp : p = kf
    · subst hp; simp
    · simp [Function.update_noteq hp]
  · rfl

/-- C19, the claim fails: on the running system the reference keyframe is frame 0 (pose
`+1`) and the last registry entry is frame 3 (pose `+4`); the initial guess of the code is
`(+1)⁻¹ * (+4) = +3`, while `lastPose⁻¹ * referencePose⁻¹ * lastPose` is `-1`. -/
theorem initial_estimate_is_not_conjugate :
    (refreshTrackingReference runningSystem 0).trackingThread.trackingReference.keyframe
        = some 0 ∧
      runningSystem.allFramePoses.getLast? = some 3 ∧
      frameToReference_initialEstimate sampleCamToWorldGroup id
          (refreshTrackingReference runningSystem 0) = .ok (Multiplicative.ofAdd 3) ∧
      (sampleCamToWorldGroup 3)⁻¹ * (sampleCamToWorldGroup (runningSystem.frames 0).pose)⁻¹
          * sampleCamToWorldGroup 3 = Multiplicative.ofAdd (-1) ∧
      frameToReference_initialEstimate sampleCamToWorldGroup id
          (refreshTrackingReference runningSystem 0) ≠
        .ok (id ((sampleCamToWorldGroup 3)⁻¹
          * (sampleCamToWorldGroup (runningSystem.frames 0).pose)⁻¹
          * sampleCamToWorldGroup 3)) := by
  have h1 : frameToReference_initialEstimate sampleCamToWorldGroup id
      (refreshTrackingReference runningSystem 0) = .ok (Multiplicative.ofAdd 3) := by
    rfl
  have h2 : (sampleCamToWorldGroup 3)⁻¹
      * (sampleCamToWorldGroup (runningSystem.frames 0).pose)⁻¹
      * sampleCamToWorldGroup 3 = Multiplicative.ofAdd (-1) := by
    decide
  refine ⟨by decide, rfl, h1, h2, ?_⟩
  rw [h1, h2]
  intro h
  injection h with h
  revert h
  decide

/-- C19, amended: whenever `trackFrame` reaches the tracker, the initial guess handed to it
is `se3FromSim3(referencePose⁻¹ * lastPose)`, with `referencePose` the camera-to-world pose
of the tracking reference keyframe and `lastPose` that of the last registry entry; this is
the value `lastPose⁻¹ * referencePose⁻¹ * lastPose` only when `lastPose` is the identity. -/
theorem initial_estimate_is_reference_inverse_times_last {G E : Type} [Group G]
    (getCamToWorld : PosePtr → G) (se3FromSim3 : G → E) (sys : SlamSystem) (kf : FramePtr)
    (hreach : ReachesTracker sys kf) :
    ∃ r last,
      (refreshTrackingReference sys kf).trackingThread.trackingReference.keyframe = some r ∧
      sys.allFramePoses.getLast? = some last ∧
      frameToReference_initialEstimate getCamToWorld se3FromSim3
          (refreshTrackingReference sys kf)
        = .ok (se3FromSim3 ((getCamToWorld (sys.frames r).pose)⁻¹ * getCamToWorld last)) ∧
      ((getCamToWorld last)⁻¹ * (getCamToWorld (sys.frames r).pose)⁻¹ * getCamToWorld last
          = (getCamToWorld (sys.frames r).pose)⁻¹ * getCamToWorld last
        ↔ getCamToWorld last = 1) := by
  obtain ⟨_, _, href, hreg⟩ := hreach
  obtain ⟨r, hr⟩ := Option.ne_none_iff_exists'.1 href
  obtain ⟨last, hl⟩ : ∃ l, sys.allFramePoses.getLast? = some l := by
    cases hq : sys.allFramePoses.getLast? with
    | none => exact absurd (List.getLast?_eq_none_iff.1 hq) hreg
    | some l => exact ⟨l, rfl⟩
  refine ⟨r, last, hr, hl, ?_, ?_⟩
  · unfold frameToReference_initialEstimate
    rw [hr, refreshTrackingReference_registry, hl]
    simp only [refreshTrackingReference_pose]
  · rw [mul_assoc, mul_left_eq_self, inv_eq_one]

/-- Instance of the amended C19 on the running system. -/
theorem initial_estimate_is_reference_inverse_times_last_witness :
    ReachesTracker runningSystem 0 ∧
      ∃ r last,
        (refreshTrackingReference runningSystem 0).trackingThread.trackingReference.keyframe
          = some r ∧
        runningSystem.allFramePoses.getLast? = some last ∧
        frameToReference_initialEstimate sampleCamToWorldGroup id
            (refreshTrackingReference runningSystem 0)
          = .ok (id ((sampleCamToWorldGroup (runningSystem.frames r).pose)⁻¹
              * sampleCamToWorldGroup last)) ∧
        ((sampleCamToWorldGroup last)⁻¹
            * (sampleCamToWorldGroup (runningSystem.frames r).pose)⁻¹
            * sampleCamToWorldGroup last
            = (sampleCamToWorldGroup (runningSystem.frames r).pose)⁻¹
              * sampleCamToWorldGroup last
          ↔ sampleCamToWorldGroup last = 1) :=
  ⟨runningSystem_reaches,
    initial_estimate_is_reference_inverse_times_last sampleCamToWorldGroup id runningSystem 0
      runningSystem_reaches⟩

/-! ## The accepted path of `trackFrame` -/

theorem refreshTrackingReference_frame (sys : SlamSystem) (kf p : FramePtr) :
    ((refreshTrackingReference sys kf).frames p).numMappedOnThisTotal
        = (sys.frames p).numMappedOnThisTotal ∧
      ((refreshTrackingReference sys kf).frames p).meanIdepth = (sys.frames p).meanIdepth ∧
      ((refreshTrackingReference sys kf).frames p).id = (sys.frames p).id ∧
      ((refreshTrackingReference sys kf).frames p).idxInKeyframes
        = (sys.frames p).idxInKeyframes := by
  simp only [refreshTrackingReference]
  split_ifs
  · by_cases hp : p = kf
    · subst hp; simp
    · simp [Function.update_noteq hp]
  · exact ⟨rfl, rfl, rfl, rfl⟩

/-- The state in which the keyframe selection starts, in terms of the state on entry. -/
theorem acceptedState_fields (sys : SlamSystem) (kf : FramePtr) (tr : TrackerResult)
    (f : FramePtr) (b : Bool) :
    (acceptedState sys kf tr f b).currentKeyFrame = sys.currentKeyFrame ∧
      (acceptedState sys kf tr f b).settings = sys.settings ∧
      (acceptedState sys kf tr f b).conf = sys.conf ∧
      (acceptedState sys kf tr f b).keyframesAll = sys.keyframesAll ∧
      (acceptedState sys kf tr f b).idToKeyFrame = sys.idToKeyFrame ∧
      (acceptedState sys kf tr f b).allFramePoses
        = sys.allFramePoses ++ [(sys.frames f).pose] ∧
      (acceptedState sys kf tr f b).calls = sys.calls ++
        [.se3TrackFrame
            (refreshTrackingReference sys kf).trackingThread.trackingReference.frameID f,
          .publishTrackedFrame f, .publishPose f, .mapTrackedFrame f b] ∧
      (acceptedState sys kf tr f b).trackingThread.trackingIsGood
        = sys.trackingThread.trackingIsGood ∧
      (acceptedState sys kf tr f b).frames = (refreshTrackingReference sys kf).frames := by
  have hp := refreshTrackingReference_pose sys kf f
  simp only [acceptedState, acceptTrackedFrame, invokeTracker, SlamSystem.record, storePose,
    hp]
  unfold refreshTrackingReference
  split_ifs <;> simp

theorem keyframeSelection_of_cell (s : SlamSystem) (tr : TrackerResult)
    (found : Option FramePtr) (f current : FramePtr) (h : s.currentKeyFrame = some current) :
    keyframeSelection s tr found f =
      if (s.frames current).numMappedOnThisTotal > s.settings.MIN_NUM_MAPPED then
        if closenessScore s tr current > minVal s.settings s.keyframesAll.length then
          changeKeyframe (storeClosenessScore s (closenessScore s tr current)) found f
            false true 1
        else .ok (storeClosenessScore s (closenessScore s tr current))
      else .ok s := by
  unfold keyframeSelection
  split
  · rename_i heq
    rw [h] at heq
    cases heq
  · rename_i c heq
    rw [h] at heq
    injection heq with heq
    subst heq
    rfl

/-- Shape of `TrackingThread::trackFrame` when the tracker is reached and tracking is not
declared lost. -/
theorem trackFrame_of_accepted {sys : SlamSystem} {kf : FramePtr} (hreach : ReachesTracker sys kf)
    (tr : TrackerResult) (found : Option FramePtr) (f : FramePtr) (b : Bool)
    (hnl : trackingLost sys tr = false) :
    TrackingThread.trackFrame sys tr found f b =
      if (sys.frames kf).numMappedOnThisTotal > sys.settings.MIN_NUM_MAPPED then
        if closenessScore sys tr kf > minVal sys.settings sys.keyframesAll.length then
          changeKeyframe
            (storeClosenessScore (acceptedState sys kf tr f b) (closenessScore sys tr kf))
            found f false true 1
        else .ok (storeClosenessScore (acceptedState sys kf tr f b) (closenessScore sys tr kf))
      else .ok (acceptedState sys kf tr f b) := by
  have hf := acceptedState_fields sys kf tr f b
  have hcell : (acceptedState sys kf tr f b).currentKeyFrame = some kf := by
    rw [hf.1]; exact hreach.2.1
  have hfr := refreshTrackingReference_frame sys kf kf
  have hscore : closenessScore (acceptedState sys kf tr f b) tr kf = closenessScore sys tr kf := by
    simp only [closenessScore, hf.2.1, hf.2.2.2.2.2.2.2.2, hfr.2.1]
  rw [trackFrame_of_reaches hreach, hnl]
  simp only [Bool.false_eq_true, if_false]
  change keyframeSelection (acceptedState sys kf tr f b) tr found f = _
  rw [keyframeSelection_of_cell _ _ _ _ _ hcell, hscore, hf.2.1, hf.2.2.2.1,
    hf.2.2.2.2.2.2.2.2, hfr.1]

/-- What a forced `changeKeyframe` that may create (`noCreate=false`) leaves untouched when it
returns, and that it always makes at least one more collaborator call. -/
theorem changeKeyframe_create_fields {s s1 : SlamSystem} {found : Option FramePtr}
    {f : FramePtr} {maxScore : ℚ}
    (h : changeKeyframe s found f false true maxScore = .ok s1) :
    s1.allFramePoses = s.allFramePoses ∧ s1.poses = s.poses ∧
      s1.trackingThread.trackingIsGood = s.trackingThread.trackingIsGood ∧
      s.calls.length < s1.calls.length := by
  rcases s with ⟨⟨dm, se, ra, pc⟩, st, fr, po, ka, idx, ck, reg, ini, tp, tv, mtr, tt, cl⟩
  simp only [changeKeyframe, newReferenceKF, loadNewCurrentKeyframe,
    createNewCurrentKeyframe, SlamSystem.record] at h
  cases ra <;> cases se <;> simp at h
  · subst h; simp
  · subst h
    split_ifs <;> simp
  · subst h; simp
  · cases found with
    | none =>
      simp at h
      subst h
      split_ifs <;> simp
    | some k =>
      simp only at h
      split at h
      · cases h
      · injection h with h
        subst h
        simp

/-! ## Keyframe selection and the tracking-lost test -/

/-- C17: a `trackFrame` call that reaches the tracker declares tracking lost (returns with
`trackingIsGood` false and the registry as on entry) if and only if the manual-loss flag is
set, or the tracker diverged, or there are strictly more than `INITIALIZATION_PHASE_COUNT`
keyframes and the tracker's `trackingWasGood` flag is false.  In particular, with at most
`INITIALIZATION_PHASE_COUNT` keyframes, no divergence and no manual loss, the frame is
accepted whatever `trackingWasGood` is: every state the call returns has tracking good and the
frame's pose appended to the registry, and the call does return when no re-activation
candidate is found. -/
theorem tracking_lost_iff (sys : SlamSystem) (kf : FramePtr) (tr : TrackerResult)
    (found : Option FramePtr) (f : FramePtr) (b : Bool) (hreach : ReachesTracker sys kf) :
    ((sys.trackingThread.manualTrackingLossIndicated = true ∨ tr.diverged = true ∨
          (sys.keyframesAll.length > sys.settings.INITIALIZATION_PHASE_COUNT ∧
            tr.trackingWasGood = false))
        ↔ ∃ s, TrackingThread.trackFrame sys tr found f b = .ok s ∧
            s.trackingThread.trackingIsGood = false ∧
            s.allFramePoses = sys.allFramePoses) ∧
      (sys.trackingThread.manualTrackingLossIndicated = false → tr.diverged = false →
        sys.keyframesAll.length ≤ sys.settings.INITIALIZATION_PHASE_COUNT →
        (∀ s, TrackingThread.trackFrame sys tr found f b = .ok s →
            s.trackingThread.trackingIsGood = true ∧
            s.allFramePoses = sys.allFramePoses ++ [(sys.frames f).pose]) ∧
        (newReferenceKF sys found = none →
          ∃ s, TrackingThread.trackFrame sys tr found f b = .ok s)) := by
  have hgood : sys.trackingThread.trackingIsGood = true := hreach.1
  have hf := acceptedState_fields sys kf tr f b
  have hlostiff : trackingLost sys tr = true ↔
      (sys.trackingThread.manualTrackingLossIndicated = true ∨ tr.diverged = true ∨
        (sys.keyframesAll.length > sys.settings.INITIALIZATION_PHASE_COUNT ∧
          tr.trackingWasGood = false)) := by
    simp [trackingLost, or_assoc]
  -- every state returned on the accepted path has tracking good and the pose appended
  have hacc : trackingLost sys tr = false → ∀ s,
      TrackingThread.trackFrame sys tr found f b = .ok s →
        s.trackingThread.trackingIsGood = true ∧
        s.allFramePoses = sys.allFramePoses ++ [(sys.frames f).pose] := by
    intro hnl s hs
    rw [trackFrame_of_accepted hreach tr found f b hnl] at hs
    have hbase : (acceptedState sys kf tr f b).trackingThread.trackingIsGood = true := by
      rw [hf.2.2.2.2.2.2.2.1]; exact hgood
    split_ifs at hs
    · obtain ⟨h1, _, h3, _⟩ := changeKeyframe_create_fields hs
      exact ⟨h3.trans hbase, h1.trans hf.2.2.2.2.2.1⟩
    · injection hs with hs
      subst hs
      exact ⟨hbase, hf.2.2.2.2.2.1⟩
    · injection hs with hs
      subst hs
      exact ⟨hbase, hf.2.2.2.2.2.1⟩
  refine ⟨⟨?_, ?_⟩, ?_⟩
  · intro hcond
    have hlost := hlostiff.2 hcond
    obtain ⟨h1, _, _, _, h5, _⟩ := declareTrackingLost_fields sys kf f tr
    exact ⟨_, by rw [trackFrame_of_reaches hreach, if_pos hlost], h5, h1⟩
  · rintro ⟨s, hs, hbad, _⟩
    by_contra hcond
    have hnl : trackingLost sys tr = false := by
      cases h : trackingLost sys tr
      · rfl
      · exact absurd (hlostiff.1 h) hcond
    rw [(hacc hnl s hs).1] at hbad
    cases hbad
  · intro hman hdiv hlen
    have hnl : trackingLost sys tr = false := by
      cases h : trackingLost sys tr
      · rfl
      · rcases hlostiff.1 h with h1 | h1 | h1
        · rw [hman] at h1; cases h1
        · rw [hdiv] at h1; cases h1
        · exact absurd h1.1 (not_lt.2 hlen)
    refine ⟨hacc hnl, fun hnone => ?_⟩
    rw [trackFrame_of_accepted hreach tr found f b hnl]
    have hnone2 : newReferenceKF
        (storeClosenessScore (acceptedState sys kf tr f b) (closenessScore sys tr kf)) found
        = none := by
      simp only [newReferenceKF, storeClosenessScore, hf.2.2.1]
      exact hnone
    split_ifs
    · obtain ⟨s, hs, _⟩ := changeKeyframe_create_returns _ found f 1 hnone2
      exact ⟨s, hs⟩
    · exact ⟨_, rfl⟩
    · exact ⟨_, rfl⟩

/-- Instance of C17: a track flagged not good on the running system, which has one keyframe
in its list. -/
theorem tracking_lost_iff_witness :
    ReachesTracker runningSystem 0 ∧
      ((runningSystem.trackingThread.manualTrackingLossIndicated = true ∨
            badTrack.diverged = true ∨
            (runningSystem.keyframesAll.length
                > runningSystem.settings.INITIALIZATION_PHASE_COUNT ∧
              badTrack.trackingWasGood = false))
          ↔ ∃ s, TrackingThread.trackFrame runningSystem badTrack none 4 false = .ok s ∧
              s.trackingThread.trackingIsGood = false ∧
              s.allFramePoses = runningSystem.allFramePoses) ∧
        (runningSystem.trackingThread.manualTrackingLossIndicated = false →
          badTrack.diverged = false →
          runningSystem.keyframesAll.length
            ≤ runningSystem.settings.INITIALIZATION_PHASE_COUNT →
          (∀ s, TrackingThread.trackFrame runningSystem badTrack none 4 false = .ok s →
              s.trackingThread.trackingIsGood = true ∧
              s.allFramePoses = runningSystem.allFramePoses ++ [(runningSystem.frames 4).pose]) ∧
          (newReferenceKF runningSystem none = none →
            ∃ s, TrackingThread.trackFrame runningSystem badTrack none 4 false = .ok s)) :=
  ⟨runningSystem_reaches,
    tracking_lost_iff runningSystem 0 badTrack none 4 false runningSystem_reaches⟩

theorem busySystem_reaches : ReachesTracker busySystem 0 :=
  ⟨rfl, rfl, by decide, by decide⟩

/-! ## Keyframe stores: preservation -/

theorem quiet_refl (sys : SlamSystem) : Quiet sys sys :=
  ⟨rfl, rfl, rfl, rfl, rfl, fun _ => rfl, fun _ => rfl⟩

theorem quiet_trans {a b c : SlamSystem} (h1 : Quiet a b) (h2 : Quiet b c) : Quiet a c :=
  ⟨h2.1.trans h1.1, h2.2.1.trans h1.2.1, h2.2.2.1.trans h1.2.2.1,
    h2.2.2.2.1.trans h1.2.2.2.1, h2.2.2.2.2.1.trans h1.2.2.2.2.1,
    fun p => (h2.2.2.2.2.2.1 p).trans (h1.2.2.2.2.2.1 p),
    fun p => (h2.2.2.2.2.2.2 p).trans (h1.2.2.2.2.2.2 p)⟩

/-- A state that agrees with `sys` on the six observed components is quiet. -/
theorem quiet_of_eq {sys s : SlamSystem} (hc : s.conf = sys.conf)
    (hi : s.initialized = sys.initialized) (hl : s.keyframesAll = sys.keyframesAll)
    (hm : s.idToKeyFrame = sys.idToKeyFrame) (hk : s.currentKeyFrame = sys.currentKeyFrame)
    (hf : s.frames = sys.frames) : Quiet sys s :=
  ⟨hc, hi, hl, hm, hk, fun p => by rw [hf], fun p => by rw [hf]⟩

theorem record_quiet (sys : SlamSystem) (c : Call) : Quiet sys (sys.record c) :=
  quiet_of_eq rfl rfl rfl rfl rfl rfl

theorem storePose_quiet (sys : SlamSystem) (f : FramePtr) : Quiet sys (storePose sys f) :=
  quiet_of_eq rfl rfl rfl rfl rfl rfl

theorem refreshTrackingReference_quiet (sys : SlamSystem) (kf : FramePtr) :
    Quiet sys (refreshTrackingReference sys kf) := by
  have hf := refreshTrackingReference_frame sys kf
  have h5 : (refreshTrackingReference sys kf).conf = sys.conf ∧
      (refreshTrackingReference sys kf).initialized = sys.initialized ∧
      (refreshTrackingReference sys kf).keyframesAll = sys.keyframesAll ∧
      (refreshTrackingReference sys kf).idToKeyFrame = sys.idToKeyFrame ∧
      (refreshTrackingReference sys kf).currentKeyFrame = sys.currentKeyFrame := by
    unfold refreshTrackingReference
    split_ifs <;> exact ⟨rfl, rfl, rfl, rfl, rfl⟩
  exact ⟨h5.1, h5.2.1, h5.2.2.1, h5.2.2.2.1, h5.2.2.2.2, fun p => (hf p).2.2.1,
    fun p => (hf p).2.2.2⟩

theorem invokeTracker_quiet (sys : SlamSystem) (tr : TrackerResult) (f : FramePtr) :
    Quiet sys (invokeTracker sys tr f) :=
  quiet_of_eq rfl rfl rfl rfl rfl rfl

theorem declareTrackingLost_quiet (sys : SlamSystem) : Quiet sys (declareTrackingLost sys) :=
  quiet_of_eq rfl rfl rfl rfl rfl rfl

theorem acceptTrackedFrame_quiet (sys : SlamSystem) (f : FramePtr) (b : Bool) :
    Quiet sys (acceptTrackedFrame sys f b) :=
  quiet_of_eq rfl rfl rfl rfl rfl rfl

theorem acceptedState_quiet (sys : SlamSystem) (kf : FramePtr) (tr : TrackerResult)
    (f : FramePtr) (b : Bool) : Quiet sys (acceptedState sys kf tr f b) :=
  quiet_trans (quiet_trans (refreshTrackingReference_quiet sys kf) (invokeTracker_quiet _ tr f))
    (acceptTrackedFrame_quiet _ f b)

theorem lostState_quiet (sys : SlamSystem) (kf : FramePtr) (tr : TrackerResult)
    (f : FramePtr) :
    Quiet sys (declareTrackingLost (invokeTracker (refreshTrackingReference sys kf) tr f)) :=
  quiet_trans (quiet_trans (refreshTrackingReference_quiet sys kf) (invokeTracker_quiet _ tr f))
    (declareTrackingLost_quiet _)

/-- A preserved property passes along a quiet operation. -/
theorem Preserved.of_quiet {P : SlamSystem → Prop} (hP : Preserved P) {sys s : SlamSystem}
    (hp : P sys) (hq : Quiet sys s) : P s :=
  hP.quiet sys s hq hp

theorem Preserved.changeKeyframe {P : SlamSystem → Prop} (hP : Preserved P)
    {sys s : SlamSystem} {found : Option FramePtr} {f : FramePtr} {noCreate force : Bool}
    {maxScore : ℚ} (h : changeKeyframe sys found f noCreate force maxScore = .ok s)
    (hp : P sys) : P s := by
  simp only [LsdSlam.changeKeyframe] at h
  have hrec : P (if (sys.conf.doKFReActivation && sys.conf.SLAMEnabled) = true then
      sys.record (.findRePositionCandidate f maxScore) else sys) := by
    split_ifs
    · exact hP.of_quiet hp (record_quiet _ _)
    · exact hp
  generalize (if (sys.conf.doKFReActivation && sys.conf.SLAMEnabled) = true then
      sys.record (.findRePositionCandidate f maxScore) else sys) = s1 at h hrec
  split at h
  · exact hP.load _ _ _ h hrec
  · cases force <;> cases noCreate <;> simp at h <;> subst h
    · exact hrec
    · exact hrec
    · exact hP.create _ _ hrec
    · exact hP.of_quiet hrec (quiet_of_eq rfl rfl rfl rfl rfl rfl)

theorem Preserved.keyframeSelection {P : SlamSystem → Prop} (hP : Preserved P)
    {sys s : SlamSystem} {tr : TrackerResult} {found : Option FramePtr} {f : FramePtr}
    (h : keyframeSelection sys tr found f = .ok s) (hp : P sys) : P s := by
  unfold LsdSlam.keyframeSelection at h
  split at h
  · cases h
  · dsimp only at h
    split_ifs at h
    · exact hP.changeKeyframe h (hP.of_quiet hp (quiet_of_eq rfl rfl rfl rfl rfl rfl))
    · injection h with h
      subst h
      exact hP.of_quiet hp (quiet_of_eq rfl rfl rfl rfl rfl rfl)
    · injection h with h
      subst h
      exact hp

theorem Preserved.trackingThread_trackFrame {P : SlamSystem → Prop} (hP : Preserved P)
    {sys s : SlamSystem} {tr : TrackerResult} {found : Option FramePtr} {f : FramePtr}
    {b : Bool} (h : TrackingThread.trackFrame sys tr found f b = .ok s) (hp : P sys) :
    P s := by
  unfold TrackingThread.trackFrame at h
  split_ifs at h
  · injection h with h
    subst h
    exact hP.of_quiet hp (record_quiet _ _)
  · split at h
    · cases h
    · rename_i kf _
      dsimp only at h
      split at h
      · cases h
      · split at h
        · cases h
        · split_ifs at h
          · injection h with h
            subst h
            exact hP.of_quiet hp (lostState_quiet sys kf tr f)
          · exact hP.keyframeSelection h (hP.of_quiet hp (acceptedState_quiet sys kf tr f b))

theorem Preserved.takeRelocalizeResult {P : SlamSystem → Prop} (hP : Preserved P)
    {sys s : SlamSystem} {tr : TrackerResult} {result : RelocalizerResult}
    (h : TrackingThread.takeRelocalizeResult sys tr result = .ok s) (hp : P sys) : P s := by
  unfold TrackingThread.takeRelocalizeResult at h
  split at h
  · cases h
  · dsimp only at h
    split_ifs at h <;> injection h with h <;> subst h <;>
      exact hP.of_quiet hp (quiet_of_eq rfl rfl rfl rfl rfl rfl)

theorem Preserved.slamSystem_trackFrame {P : SlamSystem → Prop} (hP : Preserved P)
    {sys s : SlamSystem} {tr : TrackerResult} {found : Option FramePtr} {f : FramePtr}
    {b : Bool} (h : SlamSystem.trackFrame sys tr found f b = .ok s) (hp : P sys) : P s := by
  unfold SlamSystem.trackFrame at h
  split at h
  · cases h
  · rename_i s1 h1
    split at h
    · cases h
    · rename_i s2 h2
      injection h with h
      subst h
      have hp1 : P s1 := by
        split_ifs at h1
        · exact hP.init _ _ _ h1 hp
        · injection h1 with h1
          subst h1
          exact hp
      exact hP.of_quiet (hP.trackingThread_trackFrame h2 hp1) (record_quiet _ _)

theorem Preserved.step {P : SlamSystem → Prop} (hP : Preserved P) {sys s : SlamSystem}
    {r : Request} (h : step sys r = .ok s) (hp : P sys) : P s := by
  cases r <;> simp only [LsdSlam.step] at h
  · exact hP.init _ _ _ h hp
  · exact hP.slamSystem_trackFrame h hp
  · exact hP.takeRelocalizeResult h hp
  · exact hP.changeKeyframe h hp
  · injection h with h; subst h; exact hP.create _ _ hp
  · exact hP.load _ _ _ h hp
  · injection h with h; subst h; exact hP.of_quiet hp (storePose_quiet _ _)
  · injection h with h; subst h
    exact hP.of_quiet hp (quiet_of_eq rfl rfl rfl rfl rfl rfl)
  · injection h with h; subst h
    exact hP.of_quiet hp (quiet_of_eq rfl rfl rfl rfl rfl rfl)
  · injection h with h; subst h
    exact hP.of_quiet hp (quiet_of_eq rfl rfl rfl rfl rfl rfl)

theorem Preserved.run {P : SlamSystem → Prop} (hP : Preserved P) {sys s : SlamSystem}
    {rs : List Request} (h : run sys rs = .ok s) (hp : P sys) : P s := by
  induction rs generalizing sys with
  | nil =>
    simp only [LsdSlam.run] at h
    injection h with h
    subst h
    exact hp
  | cons r rest ih =>
    simp only [LsdSlam.run] at h
    split at h
    · cases h
    · rename_i s1 h1
      exact ih h (hP.step h1 hp)

/-! ## Keyframe stores: the id index -/

theorem mapFind_some_mem (m : List (Int × FramePtr)) (key : Int) (v : FramePtr)
    (h : mapFind m key = some v) : (key, v) ∈ m := by
  induction m with
  | nil => cases h
  | cons e rest ih =>
    obtain ⟨k, w⟩ := e
    simp only [mapFind] at h
    split_ifs at h with hk
    · injection h with h
      subst h
      subst hk
      exact List.mem_cons_self _ _
    · exact List.mem_cons_of_mem _ (ih h)

theorem mapFind_append_isSome (m : List (Int × FramePtr)) (e : Int × FramePtr) (key : Int)
    (h : (mapFind m key).isSome = true) : (mapFind (m ++ [e]) key).isSome = true := by
  induction m with
  | nil => cases h
  | cons a rest ih =>
    obtain ⟨k, w⟩ := a
    simp only [List.cons_append, mapFind] at h ⊢
    split_ifs at h ⊢ with hk
    · rfl
    · exact ih h

theorem mapFind_append_self (m : List (Int × FramePtr)) (key : Int) (v : FramePtr) :
    (mapFind (m ++ [(key, v)]) key).isSome = true := by
  induction m with
  | nil => simp [mapFind]
  | cons a rest ih =>
    obtain ⟨k, w⟩ := a
    simp only [List.cons_append, mapFind]
    split_ifs
    · rfl
    · exact ih

theorem mapFind_mapInsert_isSome (m : List (Int × FramePtr)) (k key : Int) (v : FramePtr)
    (h : (mapFind m key).isSome = true) : (mapFind (mapInsert m k v) key).isSome = true := by
  unfold mapInsert
  split
  · exact h
  · exact mapFind_append_isSome m _ key h

theorem mapFind_mapInsert_self (m : List (Int × FramePtr)) (k : Int) (v : FramePtr) :
    (mapFind (mapInsert m k v) k).isSome = true := by
  unfold mapInsert
  split
  · rename_i w hw
    rw [hw]; rfl
  · exact mapFind_append_self m k v

theorem mem_mapInsert (m : List (Int × FramePtr)) (k key : Int) (v w : FramePtr)
    (h : (key, w) ∈ mapInsert m k v) : (key, w) ∈ m ∨ (key = k ∧ w = v) := by
  unfold mapInsert at h
  split at h
  · exact Or.inl h
  · rcases List.mem_append.1 h with h1 | h1
    · exact Or.inl h1
    · rw [List.mem_singleton] at h1
      injection h1 with h2 h3
      exact Or.inr ⟨h2, h3⟩

/-- What a returning `loadNewCurrentKeyframe` leaves in the fields of the system. -/
theorem loadNewCurrentKeyframe_fields {sys s : SlamSystem} {k : FramePtr}
    (h : loadNewCurrentKeyframe sys k = .ok s) :
    ∃ kf, mapFind sys.idToKeyFrame (sys.frames k).id = some kf ∧
      s.currentKeyFrame = some kf ∧ s.conf = sys.conf ∧ s.initialized = sys.initialized ∧
      s.keyframesAll = sys.keyframesAll ∧ s.idToKeyFrame = sys.idToKeyFrame ∧
      (∀ p, (s.frames p).id = (sys.frames p).id) ∧
      (∀ p, (s.frames p).idxInKeyframes = (sys.frames p).idxInKeyframes) := by
  simp only [loadNewCurrentKeyframe, SlamSystem.record] at h
  split at h
  · cases h
  · rename_i kf hkf
    injection h with h
    subst h
    refine ⟨kf, hkf, rfl, rfl, rfl, rfl, rfl, ?_, ?_⟩ <;>
    · intro p
      by_cases hp : p = kf
      · subst hp; simp
      · simp [Function.update_noteq hp]

/-- What `createNewCurrentKeyframe` leaves in the fields of the system. -/
theorem createNewCurrentKeyframe_fields (sys : SlamSystem) (f : FramePtr) :
    (createNewCurrentKeyframe sys f).conf = sys.conf ∧
      (createNewCurrentKeyframe sys f).initialized = sys.initialized ∧
      (createNewCurrentKeyframe sys f).idToKeyFrame = (if sys.conf.SLAMEnabled = true then
        mapInsert sys.idToKeyFrame (sys.frames f).id f else sys.idToKeyFrame) ∧
      (∀ p, ((createNewCurrentKeyframe sys f).frames p).id = (sys.frames p).id) ∧
      (sys.conf.SLAMEnabled = true ∧ (sys.frames f).idxInKeyframes < 0 →
        (createNewCurrentKeyframe sys f).keyframesAll = sys.keyframesAll ++ [f] ∧
        ((createNewCurrentKeyframe sys f).frames f).idxInKeyframes
          = (sys.keyframesAll.length : Int) ∧
        ∀ p, p ≠ f → ((createNewCurrentKeyframe sys f).frames p).idxInKeyframes
          = (sys.frames p).idxInKeyframes) ∧
      (¬ (sys.conf.SLAMEnabled = true ∧ (sys.frames f).idxInKeyframes < 0) →
        (createNewCurrentKeyframe sys f).keyframesAll = sys.keyframesAll ∧
        ∀ p, ((createNewCurrentKeyframe sys f).frames p).idxInKeyframes
          = (sys.frames p).idxInKeyframes) := by
  rcases sys with ⟨⟨dm, se, ra, pc⟩, st, fr, po, ka, idx, ck, reg, ini, tp, tv, mtr, tt, cl⟩
  simp only [createNewCurrentKeyframe, SlamSystem.record]
  cases se
  · simp
  · by_cases hneg : (fr f).idxInKeyframes < 0
    · simp only [hneg, if_true, and_self, true_implies, not_true_eq_false, false_implies,
        and_true]
      refine ⟨trivial, trivial, trivial, ?_, trivial, by simp, ?_⟩
      · intro p
        by_cases hp : p = f
        · subst hp; simp
        · simp [Function.update_noteq hp]
      · intro p hp
        simp [Function.update_noteq hp]
    · simp [hneg]

/-- The consistency of the keyframe stores depends only on what a quiet operation keeps. -/
theorem graphInv_of_quiet (sys s : SlamSystem) (hq : Quiet sys s) (h : GraphInv sys) :
    GraphInv s := by
  obtain ⟨hc, hi, hl, hm, hk, hid, hidx⟩ := hq
  obtain ⟨h1, h2, h3, h4, h5⟩ := h
  refine ⟨?_, ?_, ?_, ?_, ?_⟩
  · intro i k hik
    rw [hidx]
    exact h1 i k (hl ▸ hik)
  · intro key v hmem
    rw [hid]
    exact h2 key v (hm ▸ hmem)
  · intro hs k hmem
    rw [hid, hm]
    exact h3 (hc ▸ hs) k (hl ▸ hmem)
  · intro hs c hcell
    rw [hid, hm]
    exact h4 (hc ▸ hs) c (hk ▸ hcell)
  · intro hinit
    rw [hk]
    exact h5 (hi ▸ hinit)

theorem graphInv_init (sys : SlamSystem) (f : FramePtr) (s : SlamSystem)
    (hs : initializeSystem sys f = .ok s) (h : GraphInv sys) : GraphInv s := by
  obtain ⟨hc, _, hfr, hl, hm, hk, _, _⟩ := initializeSystem_fields hs
  obtain ⟨h1, h2, h3, h4, _⟩ := h
  refine ⟨?_, ?_, ?_, ?_, ?_⟩
  · intro i k hik
    rw [hfr]
    exact h1 i k (hl ▸ hik)
  · intro key v hmem
    rw [hfr]
    rw [hm] at hmem
    split_ifs at hmem
    · rcases mem_mapInsert _ _ _ _ _ hmem with h0 | ⟨h0, h0v⟩
      · exact h2 key v h0
      · rw [h0, h0v]
    · exact h2 key v hmem
  · intro hslam k hmem
    rw [hc] at hslam
    rw [hfr, hm, if_pos hslam]
    exact mapFind_mapInsert_isSome _ _ _ _ (h3 hslam k (hl ▸ hmem))
  · intro hslam c hcell
    rw [hc] at hslam
    rw [hk] at hcell
    injection hcell with hcell
    subst hcell
    rw [hfr, hm, if_pos hslam]
    exact mapFind_mapInsert_self _ _ _
  · intro _
    rw [hk]; rfl

theorem graphInv_load (sys : SlamSystem) (k : FramePtr) (s : SlamSystem)
    (hs : loadNewCurrentKeyframe sys k = .ok s) (h : GraphInv sys) : GraphInv s := by
  obtain ⟨kf, hfind, hk, hc, _, hl, hm, hid, hidx⟩ := loadNewCurrentKeyframe_fields hs
  obtain ⟨h1, h2, h3, _, _⟩ := h
  refine ⟨?_, ?_, ?_, ?_, ?_⟩
  · intro i x hix
    rw [hidx]
    exact h1 i x (hl ▸ hix)
  · intro key v hmem
    rw [hid]
    exact h2 key v (hm ▸ hmem)
  · intro hslam x hmem
    rw [hid, hm]
    exact h3 (hc ▸ hslam) x (hl ▸ hmem)
  · intro _ c hcell
    rw [hk] at hcell
    injection hcell with hcell
    subst hcell
    rw [hid, hm, h2 _ _ (mapFind_some_mem _ _ _ hfind), hfind]
    rfl
  · intro _
    rw [hk]; rfl

theorem graphInv_create (sys : SlamSystem) (f : FramePtr) (h : GraphInv sys) :
    GraphInv (createNewCurrentKeyframe sys f) := by
  obtain ⟨hc, _, hm, hid, happ, hkeep⟩ := createNewCurrentKeyframe_fields sys f
  have hk := createNewCurrentKeyframe_current sys f
  obtain ⟨h1, h2, h3, _, _⟩ := h
  refine ⟨?_, ?_, ?_, ?_, ?_⟩
  · intro i k hik
    by_cases hcase : sys.conf.SLAMEnabled = true ∧ (sys.frames f).idxInKeyframes < 0
    · obtain ⟨hl, hnew, hold⟩ := happ hcase
      rw [hl] at hik
      by_cases hi : i < sys.keyframesAll.length
      · rw [List.getElem?_append_left hi] at hik
        have hidx := h1 i k hik
        have hne : k ≠ f := by
          intro hkf
          rw [hkf] at hidx
          have := hcase.2
          rw [hidx] at this
          exact absurd this (by omega)
        rw [hold k hne]
        exact hidx
      · rw [List.getElem?_append_right (not_lt.1 hi)] at hik
        have hi0 : i - sys.keyframesAll.length = 0 := by
          by_contra hne
          rw [List.getElem?_eq_none (by simp; omega)] at hik
          cases hik
        rw [hi0] at hik
        simp only [List.getElem?_cons_zero, Option.some.injEq] at hik
        subst hik
        rw [hnew]
        have : i = sys.keyframesAll.length := by omega
        rw [this]
    · obtain ⟨hl, hold⟩ := hkeep hcase
      rw [hold]
      exact h1 i k (hl ▸ hik)
  · intro key v hmem
    rw [hid]
    rw [hm] at hmem
    split_ifs at hmem
    · rcases mem_mapInsert _ _ _ _ _ hmem with h0 | ⟨h0, h0v⟩
      · exact h2 key v h0
      · rw [h0, h0v]
    · exact h2 key v hmem
  · intro hslam k hmem
    rw [hc] at hslam
    rw [hid, hm, if_pos hslam]
    by_cases hcase : sys.conf.SLAMEnabled = true ∧ (sys.frames f).idxInKeyframes < 0
    · rw [(happ hcase).1] at hmem
      rcases List.mem_append.1 hmem with h0 | h0
      · exact mapFind_mapInsert_isSome _ _ _ _ (h3 hslam k h0)
      · rw [List.mem_singleton.1 h0]
        exact mapFind_mapInsert_self _ _ _
    · rw [(hkeep hcase).1] at hmem
      exact mapFind_mapInsert_isSome _ _ _ _ (h3 hslam k hmem)
  · intro hslam c hcell
    rw [hc] at hslam
    rw [hk] at hcell
    injection hcell with hcell
    subst hcell
    rw [hid, hm, if_pos hslam]
    exact mapFind_mapInsert_self _ _ _
  · intro _
    rw [hk]; rfl

/-- The consistency of the keyframe stores is kept by every operation. -/
theorem graphInv_preserved : Preserved GraphInv :=
  ⟨graphInv_of_quiet, graphInv_init, graphInv_load, graphInv_create⟩

theorem create_graphInv (conf : Configuration) (st : Settings) (frames : FramePtr → Frame)
    (poses : PosePtr → FramePoseStruct) : GraphInv (SlamSystem.create conf st frames poses) := by
  refine ⟨?_, ?_, ?_, ?_, ?_⟩
  · intro i k h
    simp [SlamSystem.create] at h
  · intro key v h
    simp [SlamSystem.create] at h
  · intro _ k h
    simp [SlamSystem.create] at h
  · intro _ c h
    simp [SlamSystem.create] at h
  · intro h
    simp [SlamSystem.create] at h

/-- Every state reached from a freshly constructed system has consistent keyframe stores. -/
theorem run_create_graphInv (conf : Configuration) (st : Settings) (frames : FramePtr → Frame)
    (poses : PosePtr → FramePoseStruct) (rs : List Request) (s : SlamSystem)
    (h : run (SlamSystem.create conf st frames poses) rs = .ok s) : GraphInv s :=
  graphInv_preserved.run h (create_graphInv conf st frames poses)

/-! ## Keyframe stores: results -/

theorem keyframesIndexed_of_graphInv {s : SlamSystem} (h : GraphInv s)
    (hslam : s.conf.SLAMEnabled = true) (hcell : s.currentKeyFrame.isSome = true) :
    KeyframesIndexed s := by
  obtain ⟨c, hc⟩ := Option.isSome_iff_exists.1 hcell
  exact ⟨h.2.2.1 hslam, c, hc, h.2.2.2.1 hslam c hc⟩

/-- C13: in every state reached from a freshly constructed system, each keyframe of the
ordered list carries as `idxInKeyframes` the position at which it stands (was inserted), so
`keyframesAll[k.idxInKeyframes] = k` for every member, and the indices read along the list
are 0, 1, 2, ... without gaps; and `createNewCurrentKeyframe`, when it appends a keyframe
(SLAM mode, `idxInKeyframes < 0`), appends it at the end and assigns it the length the list
had before. -/
theorem keyframe_index_is_insertion_position (conf : Configuration) (st : Settings)
    (frames : FramePtr → Frame) (poses : PosePtr → FramePoseStruct) (rs : List Request)
    (s : SlamSystem) (hrun : run (SlamSystem.create conf st frames poses) rs = .ok s) :
    (∀ (i : Nat) (k : FramePtr),
        s.keyframesAll[i]? = some k → (s.frames k).idxInKeyframes = (i : Int)) ∧
      (∀ k ∈ s.keyframesAll,
        s.keyframesAll[((s.frames k).idxInKeyframes).toNat]? = some k) ∧
      s.keyframesAll.map (fun k => (s.frames k).idxInKeyframes)
        = (List.range s.keyframesAll.length).map (fun (i : Nat) => (i : Int)) ∧
      (∀ f, s.conf.SLAMEnabled = true → (s.frames f).idxInKeyframes < 0 →
        (createNewCurrentKeyframe s f).keyframesAll = s.keyframesAll ++ [f] ∧
        ((createNewCurrentKeyframe s f).frames f).idxInKeyframes
          = (s.keyframesAll.length : Int)) := by
  have hinv := run_create_graphInv conf st frames poses rs s hrun
  have h1 := hinv.1
  refine ⟨h1, ?_, ?_, ?_⟩
  · intro k hk
    obtain ⟨i, hi⟩ := List.mem_iff_getElem?.1 hk
    rw [h1 i k hi]
    simpa using hi
  · apply List.ext_getElem?
    intro i
    rw [List.getElem?_map, List.getElem?_map]
    by_cases hi : i < s.keyframesAll.length
    · rw [List.getElem?_eq_getElem hi, List.getElem?_range hi]
      simp only [Option.map_some']
      rw [h1 i _ (List.getElem?_eq_getElem hi)]
    · rw [List.getElem?_eq_none (not_lt.1 hi),
        List.getElem?_eq_none (by simpa using not_lt.1 hi)]
      rfl
  · intro f hslam hneg
    obtain ⟨hl, hnew, _⟩ := (createNewCurrentKeyframe_fields s f).2.2.2.2.1 ⟨hslam, hneg⟩
    exact ⟨hl, hnew⟩

theorem sampleRunResult_run :
    run (SlamSystem.create sampleConf sampleSettings sampleFrames samplePoses) sampleRequests
      = .ok sampleRunResult :=
  rfl

/-- Instance of C13: after the sample call sequence the list holds keyframes 10 and 25 with
indices 0 and 1. -/
theorem keyframe_index_is_insertion_position_witness :
    run (SlamSystem.create sampleConf sampleSettings sampleFrames samplePoses) sampleRequests
        = .ok sampleRunResult ∧
      sampleRunResult.keyframesAll = [10, 25] ∧
      (∀ (i : Nat) (k : FramePtr),
          sampleRunResult.keyframesAll[i]? = some k →
            (sampleRunResult.frames k).idxInKeyframes = (i : Int)) ∧
      (∀ k ∈ sampleRunResult.keyframesAll,
        sampleRunResult.keyframesAll[((sampleRunResult.frames k).idxInKeyframes).toNat]?
          = some k) ∧
      sampleRunResult.keyframesAll.map (fun k => (sampleRunResult.frames k).idxInKeyframes)
        = (List.range sampleRunResult.keyframesAll.length).map (fun (i : Nat) => (i : Int)) ∧
      (∀ f, sampleRunResult.conf.SLAMEnabled = true →
        (sampleRunResult.frames f).idxInKeyframes < 0 →
        (createNewCurrentKeyframe sampleRunResult f).keyframesAll
          = sampleRunResult.keyframesAll ++ [f] ∧
        ((createNewCurrentKeyframe sampleRunResult f).frames f).idxInKeyframes
          = (sampleRunResult.keyframesAll.length : Int)) :=
  ⟨sampleRunResult_run, rfl,
    keyframe_index_is_insertion_position sampleConf sampleSettings sampleFrames samplePoses
      sampleRequests sampleRunResult sampleRunResult_run⟩

/-- C15: with SLAM mode enabled, in every state reached from a freshly constructed system
every keyframe of the ordered list has its id as a key of the id index and the id of the
current keyframe, if there is one, is a key too; once the system is initialized the whole
predicate holds, it holds after `initialize` returns, after `createNewCurrentKeyframe` and
after a returning `loadNewCurrentKeyframe`, and a returning `changeKeyframe` keeps it. -/
theorem slam_keyframes_are_indexed (conf : Configuration) (st : Settings)
    (frames : FramePtr → Frame) (poses : PosePtr → FramePoseStruct) (rs : List Request)
    (s : SlamSystem) (hslam : conf.SLAMEnabled = true)
    (hrun : run (SlamSystem.create conf st frames poses) rs = .ok s) :
    (∀ k ∈ s.keyframesAll, (mapFind s.idToKeyFrame (s.frames k).id).isSome = true) ∧
      (∀ c, s.currentKeyFrame = some c →
        (mapFind s.idToKeyFrame (s.frames c).id).isSome = true) ∧
      (s.initialized = true → KeyframesIndexed s) ∧
      (∀ f s1, initializeSystem s f = .ok s1 → KeyframesIndexed s1) ∧
      (∀ f, KeyframesIndexed (createNewCurrentKeyframe s f)) ∧
      (∀ k s1, loadNewCurrentKeyframe s k = .ok s1 → KeyframesIndexed s1) ∧
      (∀ found f noCreate force maxScore s1,
        changeKeyframe s found f noCreate force maxScore = .ok s1 →
          KeyframesIndexed s → KeyframesIndexed s1) := by
  have hinv := run_create_graphInv conf st frames poses rs s hrun
  have hconf : s.conf.SLAMEnabled = true := by
    rw [(run_ok hrun).1]; exact hslam
  refine ⟨hinv.2.2.1 hconf, hinv.2.2.2.1 hconf, ?_, ?_, ?_, ?_, ?_⟩
  · intro hinit
    exact keyframesIndexed_of_graphInv hinv hconf (hinv.2.2.2.2 hinit)
  · intro f s1 h1
    have hf := initializeSystem_fields h1
    exact keyframesIndexed_of_graphInv (graphInv_init s f s1 h1 hinv)
      (by rw [hf.1]; exact hconf) (by rw [hf.2.2.2.2.2.1]; rfl)
  · intro f
    exact keyframesIndexed_of_graphInv (graphInv_create s f hinv)
      (by rw [(createNewCurrentKeyframe_fields s f).1]; exact hconf)
      (by rw [createNewCurrentKeyframe_current]; rfl)
  · intro k s1 h1
    obtain ⟨kf, _, hk, hc, _⟩ := loadNewCurrentKeyframe_fields h1
    exact keyframesIndexed_of_graphInv (graphInv_load s k s1 h1 hinv)
      (by rw [hc]; exact hconf) (by rw [hk]; rfl)
  · intro found f noCreate force maxScore s1 h1 hP
    have e := changeKeyframe_ok h1
    obtain ⟨_, c, hc, _⟩ := hP
    exact keyframesIndexed_of_graphInv (graphInv_preserved.changeKeyframe h1 hinv)
      (by rw [e.1]; exact hconf) (e.2.2.1 (by rw [hc]; rfl))

/-- Instance of C15 on the state the sample call sequence ends in. -/
theorem slam_keyframes_are_indexed_witness :
    sampleConf.SLAMEnabled = true ∧
      run (SlamSystem.create sampleConf sampleSettings sampleFrames samplePoses)
        sampleRequests = .ok sampleRunResult ∧
      sampleRunResult.idToKeyFrame = [(0, 0), (10, 10), (25, 25)] ∧
      sampleRunResult.currentKeyFrame = some 10 ∧
      (∀ k ∈ sampleRunResult.keyframesAll,
        (mapFind sampleRunResult.idToKeyFrame (sampleRunResult.frames k).id).isSome = true) ∧
      (∀ c, sampleRunResult.currentKeyFrame = some c →
        (mapFind sampleRunResult.idToKeyFrame (sampleRunResult.frames c).id).isSome = true) ∧
      (sampleRunResult.initialized = true → KeyframesIndexed sampleRunResult) ∧
      (∀ f s1, initializeSystem sampleRunResult f = .ok s1 → KeyframesIndexed s1) ∧
      (∀ f, KeyframesIndexed (createNewCurrentKeyframe sampleRunResult f)) ∧
      (∀ k s1, loadNewCurrentKeyframe sampleRunResult k = .ok s1 → KeyframesIndexed s1) ∧
      (∀ found f noCreate force maxScore s1,
        changeKeyframe sampleRunResult found f noCreate force maxScore = .ok s1 →
          KeyframesIndexed sampleRunResult → KeyframesIndexed s1) :=
  ⟨rfl, sampleRunResult_run, rfl, rfl,
    slam_keyframes_are_indexed sampleConf sampleSettings sampleFrames samplePoses
      sampleRequests sampleRunResult rfl sampleRunResult_run⟩

/-! ## The registry when tracking is entered -/

theorem changeKeyframe_initialized {sys s : SlamSystem} {found : Option FramePtr}
    {f : FramePtr} {noCreate force : Bool} {maxScore : ℚ}
    (h : changeKeyframe sys found f noCreate force maxScore = .ok s) :
    s.initialized = sys.initialized := by
  simp only [changeKeyframe] at h
  have hrec : (if (sys.conf.doKFReActivation && sys.conf.SLAMEnabled) = true then
      sys.record (.findRePositionCandidate f maxScore) else sys).initialized
        = sys.initialized := by
    split_ifs <;> rfl
  generalize (if (sys.conf.doKFReActivation && sys.conf.SLAMEnabled) = true then
      sys.record (.findRePositionCandidate f maxScore) else sys) = s1 at h hrec
  split at h
  · obtain ⟨_, _, _, _, hi, _⟩ := loadNewCurrentKeyframe_fields h
    exact hi.trans hrec
  · cases force <;> cases noCreate <;> simp at h <;> subst h
    · exact hrec
    · exact hrec
    · exact ((createNewCurrentKeyframe_fields s1 f).2.1).trans hrec
    · exact hrec

theorem changeKeyframe_error {sys : SlamSystem} {found : Option FramePtr} {f : FramePtr}
    {noCreate force : Bool} {maxScore : ℚ} {e : SlamError}
    (h : changeKeyframe sys found f noCreate force maxScore = .error e) :
    e = .missingKey := by
  simp only [changeKeyframe, loadNewCurrentKeyframe] at h
  split at h
  · split at h
    · injection h with h
      exact h.symm
    · cases h
  · cases force <;> cases noCreate <;> simp at h

/-- `TrackingThread::trackFrame` fails on `back()` only when the registry is empty. -/
theorem trackFrame_emptyRegistry {sys : SlamSystem} {tr : TrackerResult}
    {found : Option FramePtr} {f : FramePtr} {b : Bool}
    (h : TrackingThread.trackFrame sys tr found f b = .error .emptyRegistry) :
    sys.allFramePoses = [] := by
  unfold TrackingThread.trackFrame at h
  split_ifs at h
  · split at h
    · cases h
    · rename_i kf _
      dsimp only at h
      split at h
      · cases h
      · split at h
        · rename_i hlast
          rw [refreshTrackingReference_registry] at hlast
          exact List.getLast?_eq_none_iff.1 hlast
        · split_ifs at h
          unfold keyframeSelection at h
          split at h
          · cases h
          · dsimp only at h
            split_ifs at h
            cases changeKeyframe_error h

theorem prefix_ne_nil {α : Type} {l1 l2 : List α} (h : l1 <+: l2) (hne : l1 ≠ []) :
    l2 ≠ [] := by
  intro h2
  rw [h2] at h
  exact hne (List.prefix_nil.1 h)

theorem takeRelocalizeResult_initialized {sys s : SlamSystem} {tr : TrackerResult}
    {result : RelocalizerResult}
    (h : TrackingThread.takeRelocalizeResult sys tr result = .ok s) :
    s.initialized = sys.initialized := by
  unfold TrackingThread.takeRelocalizeResult at h
  split at h
  · cases h
  · dsimp only at h
    split_ifs at h <;> injection h with h <;> subst h <;> rfl

/-- After the lazy-initialization guard the registry is non-empty. -/
theorem lazyInitialized_registry {sys s1 : SlamSystem} {f : FramePtr}
    (h : lazyInitialized sys f = .ok s1) (hfilled : RegistryFilled sys) :
    s1.allFramePoses ≠ [] ∧ s1.initialized = true := by
  unfold lazyInitialized at h
  split_ifs at h with hinit
  · have hf := initializeSystem_fields h
    exact ⟨by rw [hf.2.2.2.2.2.2.2]; simp, hf.2.2.2.2.2.2.1⟩
  · injection h with h
    subst h
    have hi : sys.initialized = true := by simpa using hinit
    exact ⟨hfilled hi, hi⟩

theorem slamSystem_trackFrame_eq (sys : SlamSystem) (tr : TrackerResult)
    (found : Option FramePtr) (f : FramePtr) (b : Bool) :
    SlamSystem.trackFrame sys tr found f b =
      match lazyInitialized sys f with
      | .error e => .error e
      | .ok s1 =>
        match TrackingThread.trackFrame s1 tr found f b with
        | .error e => .error e
        | .ok s2 => .ok (s2.record .addTimingSamples) :=
  rfl

theorem step_registryFilled {sys s : SlamSystem} {r : Request} (h : step sys r = .ok s)
    (hfilled : RegistryFilled sys) : RegistryFilled s := by
  intro hinit
  have e := step_ok h
  have hkeep : s.initialized = sys.initialized → s.allFramePoses ≠ [] := fun heq =>
    prefix_ne_nil e.2.2.2.2 (hfilled (heq ▸ hinit))
  cases r <;> simp only [step] at h
  · rw [(initializeSystem_fields h).2.2.2.2.2.2.2]
    simp
  · rw [slamSystem_trackFrame_eq] at h
    split at h
    · cases h
    · rename_i s1 h1
      split at h
      · cases h
      · rename_i s2 h2
        injection h with h
        subst h
        exact prefix_ne_nil (trackingThread_trackFrame_ok h2).2.2.2.2
          (lazyInitialized_registry h1 hfilled).1
  · exact hkeep (takeRelocalizeResult_initialized h)
  · exact hkeep (changeKeyframe_initialized h)
  · injection h with h; subst h
    exact hkeep (createNewCurrentKeyframe_fields sys _).2.1
  · obtain ⟨_, _, _, _, hi, _⟩ := loadNewCurrentKeyframe_fields h
    exact hkeep hi
  · injection h with h; subst h; exact hkeep rfl
  · injection h with h; subst h; exact hkeep rfl
  · injection h with h; subst h; exact hkeep rfl
  · injection h with h; subst h; exact hkeep rfl

theorem run_registryFilled {sys s : SlamSystem} {rs : List Request}
    (h : run sys rs = .ok s) (hfilled : RegistryFilled sys) : RegistryFilled s := by
  induction rs generalizing sys with
  | nil =>
    simp only [run] at h
    injection h with h
    subst h
    exact hfilled
  | cons r rest ih =>
    simp only [run] at h
    split at h
    · cases h
    · rename_i s1 h1
      exact ih h (step_registryFilled h1 hfilled)

/-- C23: in every state reached from a freshly constructed system, an initialized system has
a non-empty registry; so when `SlamSystem::trackFrame` hands over to
`TrackingThread::trackFrame`, after its lazy-initialization guard, the registry is non-empty
and the call never fails on `back()` of an empty registry.  This rests on: `initialize`
appends one pose, `storePose` only appends, and no operation removes registry entries. -/
theorem registry_nonempty_when_tracking (conf : Configuration) (st : Settings)
    (frames : FramePtr → Frame) (poses : PosePtr → FramePoseStruct) (rs : List Request)
    (s : SlamSystem) (hrun : run (SlamSystem.create conf st frames poses) rs = .ok s) :
    (s.initialized = true → s.allFramePoses ≠ []) ∧
      (∀ f s1, lazyInitialized s f = .ok s1 → s1.allFramePoses ≠ []) ∧
      (∀ tr found f b, SlamSystem.trackFrame s tr found f b ≠ .error .emptyRegistry) ∧
      (∀ f s1, initializeSystem s f = .ok s1 →
        s1.allFramePoses = s.allFramePoses ++ [(s.frames f).pose]) ∧
      (∀ f, (storePose s f).allFramePoses = s.allFramePoses ++ [(s.frames f).pose]) ∧
      (∀ r s1, step s r = .ok s1 → s.allFramePoses <+: s1.allFramePoses) := by
  have hfilled : RegistryFilled s :=
    run_registryFilled hrun (fun h => by cases h)
  refine ⟨hfilled, fun f s1 h1 => (lazyInitialized_registry h1 hfilled).1, ?_,
    fun f s1 h1 => (initializeSystem_fields h1).2.2.2.2.2.2.2, fun f => rfl,
    fun r s1 h1 => (step_ok h1).2.2.2.2⟩
  intro tr found f b herr
  rw [slamSystem_trackFrame_eq] at herr
  split at herr
  · rename_i e he
    injection herr with herr
    subst herr
    unfold lazyInitialized at he
    split_ifs at he
    unfold initializeSystem at he
    split_ifs at he
    cases he
  · rename_i s1 h1
    split at herr
    · rename_i e he
      injection herr with herr
      subst herr
      exact (lazyInitialized_registry h1 hfilled).1 (trackFrame_emptyRegistry he)
    · cases herr

/-- Instance of C23 on the state the sample call sequence ends in. -/
theorem registry_nonempty_when_tracking_witness :
    run (SlamSystem.create sampleConf sampleSettings sampleFrames samplePoses) sampleRequests
        = .ok sampleRunResult ∧
      sampleRunResult.allFramePoses = [0] ∧
      (sampleRunResult.initialized = true → sampleRunResult.allFramePoses ≠ []) ∧
      (∀ f s1, lazyInitialized sampleRunResult f = .ok s1 → s1.allFramePoses ≠ []) ∧
      (∀ tr found f b,
        SlamSystem.trackFrame sampleRunResult tr found f b ≠ .error .emptyRegistry) ∧
      (∀ f s1, initializeSystem sampleRunResult f = .ok s1 →
        s1.allFramePoses = sampleRunResult.allFramePoses ++ [(sampleRunResult.frames f).pose]) ∧
      (∀ f, (storePose sampleRunResult f).allFramePoses
        = sampleRunResult.allFramePoses ++ [(sampleRunResult.frames f).pose]) ∧
      (∀ r s1, step sampleRunResult r = .ok s1 →
        sampleRunResult.allFramePoses <+: s1.allFramePoses) :=
  ⟨sampleRunResult_run, rfl,
    registry_nonempty_when_tracking sampleConf sampleSettings sampleFrames samplePoses
      sampleRequests sampleRunResult sampleRunResult_run⟩

/-! ## `changeKeyframe` and the tracking state -/

/-- A returning `changeKeyframe` with `noCreate=false` leaves the state of the tracking thread
as it was. -/
theorem changeKeyframe_create_trackingThread {sys s : SlamSystem} {found : Option FramePtr}
    {f : FramePtr} {force : Bool} {maxScore : ℚ}
    (h : changeKeyframe sys found f false force maxScore = .ok s) :
    s.trackingThread = sys.trackingThread := by
  rcases sys with ⟨⟨dm, se, ra, pc⟩, st, fr, po, ka, idx, ck, reg, ini, tp, tv, mtr, tt, cl⟩
  simp only [changeKeyframe, newReferenceKF, loadNewCurrentKeyframe,
    createNewCurrentKeyframe, SlamSystem.record] at h
  cases force <;> cases ra <;> cases se <;> simp at h
  · subst h; rfl
  · subst h; rfl
  · subst h; rfl
  · cases found with
    | none =>
      simp at h
      subst h
      rfl
    | some k =>
      simp only at h
      split at h
      · cases h
      · injection h with h
        subst h
        rfl
  · subst h; simp
  · subst h
    split_ifs <;> simp
  · subst h; simp
  · cases found with
    | none =>
      simp at h
      subst h
      split_ifs <;> simp
    | some k =>
      simp only at h
      split at h
      · cases h
      · injection h with h
        subst h
        rfl

/-- C24: a returning `changeKeyframe` with `noCreate=false` never marks tracking as bad,
whatever `force`, `maxScore` and the search result are: the state of the tracking thread, with
`trackingIsGood`, is unchanged.  Hence a `trackFrame` call that reaches the tracker and does
not declare tracking lost returns, keyframe switch included, with tracking still good.  And
`changeKeyframe` with `force=false` and no candidate returns with the current keyframe, the
keyframe list, the id index, the counters and the frames unchanged. -/
theorem changeKeyframe_never_marks_bad (sys : SlamSystem) (found : Option FramePtr)
    (f : FramePtr) (maxScore : ℚ) :
    (∀ force s, changeKeyframe sys found f false force maxScore = .ok s →
        s.trackingThread = sys.trackingThread ∧
        s.trackingThread.trackingIsGood = sys.trackingThread.trackingIsGood) ∧
      (∀ kf tr b s, ReachesTracker sys kf → trackingLost sys tr = false →
        TrackingThread.trackFrame sys tr found f b = .ok s →
          s.trackingThread.trackingIsGood = true) ∧
      (∀ noCreate, newReferenceKF sys found = none →
        ∃ s, changeKeyframe sys found f noCreate false maxScore = .ok s ∧
          s.currentKeyFrame = sys.currentKeyFrame ∧ s.keyframesAll = sys.keyframesAll ∧
          s.idToKeyFrame = sys.idToKeyFrame ∧ s.frames = sys.frames ∧
          s.totalVertices = sys.totalVertices ∧ s.totalPoints = sys.totalPoints ∧
          s.trackingThread = sys.trackingThread) := by
  refine ⟨?_, ?_, ?_⟩
  · intro force s h
    have ht := changeKeyframe_create_trackingThread h
    exact ⟨ht, by rw [ht]⟩
  · intro kf tr b s hreach hnl hs
    have hf := acceptedState_fields sys kf tr f b
    have hbase : (acceptedState sys kf tr f b).trackingThread.trackingIsGood = true := by
      rw [hf.2.2.2.2.2.2.2.1]; exact hreach.1
    rw [trackFrame_of_accepted hreach tr found f b hnl] at hs
    split_ifs at hs
    · have ht := changeKeyframe_create_trackingThread hs
      rw [ht]
      exact hbase
    · injection hs with hs
      subst hs
      exact hbase
    · injection hs with hs
      subst hs
      exact hbase
  · intro noCreate hnone
    unfold changeKeyframe
    rw [hnone]
    simp only [Bool.false_eq_true, if_false]
    refine ⟨_, rfl, ?_⟩
    simp only [SlamSystem.record]
    split_ifs <;> exact ⟨rfl, rfl, rfl, rfl, rfl, rfl, rfl⟩

/-- Instance of C24 on the running system with the search returning keyframe 10. -/
theorem changeKeyframe_never_marks_bad_witness :
    (∃ s, changeKeyframe runningSystem (some 10) 25 false true 1 = .ok s ∧
        s.currentKeyFrame = some 10 ∧ s.trackingThread.trackingIsGood = true) ∧
      (∃ s, changeKeyframe runningSystem none 25 false false 1 = .ok s ∧
        s.currentKeyFrame = some 0 ∧ s.trackingThread.trackingIsGood = true) ∧
      (∀ force s, changeKeyframe runningSystem (some 10) 25 false force 1 = .ok s →
        s.trackingThread = runningSystem.trackingThread ∧
        s.trackingThread.trackingIsGood = runningSystem.trackingThread.trackingIsGood) ∧
      (∀ kf tr b s, ReachesTracker runningSystem kf → trackingLost runningSystem tr = false →
        TrackingThread.trackFrame runningSystem tr (some 10) 25 b = .ok s →
          s.trackingThread.trackingIsGood = true) ∧
      (∀ noCreate, newReferenceKF runningSystem (some 10) = none →
        ∃ s, changeKeyframe runningSystem (some 10) 25 noCreate false 1 = .ok s ∧
          s.currentKeyFrame = runningSystem.currentKeyFrame ∧
          s.keyframesAll = runningSystem.keyframesAll ∧
          s.idToKeyFrame = runningSystem.idToKeyFrame ∧ s.frames = runningSystem.frames ∧
          s.totalVertices = runningSystem.totalVertices ∧
          s.totalPoints = runningSystem.totalPoints ∧
          s.trackingThread = runningSystem.trackingThread) :=
  ⟨⟨_, rfl, rfl, rfl⟩, ⟨_, rfl, rfl, rfl⟩,
    changeKeyframe_never_marks_bad runningSystem (some 10) 25 1⟩

/-! ## Machine arithmetic: rounding -/

theorem halvings_spec (fuel n : Nat) (h : n ≤ fuel) (hn : 0 < n) :
    2 ^ halvings fuel n ≤ n ∧ n < 2 ^ (halvings fuel n + 1) := by
  induction fuel generalizing n with
  | zero => omega
  | succ k ih =>
    unfold halvings
    split_ifs with h2
    · simp only [pow_zero, zero_add, pow_one]
      omega
    · have h3 := ih (n / 2) (by omega) (by omega)
      have h4 : 2 ^ (halvings k (n / 2) + 1) = 2 * 2 ^ halvings k (n / 2) := by ring
      have h5 : 2 ^ (halvings k (n / 2) + 1 + 1) = 2 * 2 ^ (halvings k (n / 2) + 1) := by ring
      rw [h5, h4]
      rw [h4] at h3
      omega

theorem two_zpow_pos (e : ℤ) : (0 : ℚ) < 2 ^ e := zpow_pos (by norm_num) e

theorem abs_eq_natAbs_div_den (q : ℚ) : |q| = (q.num.natAbs : ℚ) / (q.den : ℚ) := by
  have h := Rat.num_div_den q
  have hd : (0 : ℚ) < q.den := by exact_mod_cast q.den_pos
  conv_lhs => rw [← h]
  rw [abs_div, abs_of_pos hd, Nat.cast_natAbs, Int.cast_abs]

theorem binade_spec {q : ℚ} (hq : q ≠ 0) :
    (2 : ℚ) ^ binade q ≤ |q| ∧ |q| < (2 : ℚ) ^ (binade q + 1) := by
  have ha : 0 < q.num.natAbs := Int.natAbs_pos.2 (Rat.num_ne_zero.2 hq)
  have hb : 0 < q.den := q.den_pos
  obtain ⟨a1, a2⟩ := halvings_spec _ _ (le_refl q.num.natAbs) ha
  obtain ⟨b1, b2⟩ := halvings_spec _ _ (le_refl q.den) hb
  have a1q : (2 : ℚ) ^ (halvings q.num.natAbs q.num.natAbs : ℤ) ≤ (q.num.natAbs : ℚ) := by
    rw [zpow_natCast]; exact_mod_cast a1
  have a2q : (q.num.natAbs : ℚ) < (2 : ℚ) ^ ((halvings q.num.natAbs q.num.natAbs : ℤ) + 1) := by
    have : ((halvings q.num.natAbs q.num.natAbs : ℤ) + 1)
        = ((halvings q.num.natAbs q.num.natAbs + 1 : ℕ) : ℤ) := by push_cast; rfl
    rw [this, zpow_natCast]; exact_mod_cast a2
  have b1q : (2 : ℚ) ^ (halvings q.den q.den : ℤ) ≤ (q.den : ℚ) := by
    rw [zpow_natCast]; exact_mod_cast b1
  have b2q : (q.den : ℚ) < (2 : ℚ) ^ ((halvings q.den q.den : ℤ) + 1) := by
    have : ((halvings q.den q.den : ℤ) + 1) = ((halvings q.den q.den + 1 : ℕ) : ℤ) := by
      push_cast; rfl
    rw [this, zpow_natCast]; exact_mod_cast b2
  have hd : (0 : ℚ) < q.den := by exact_mod_cast hb
  have hn : (0 : ℚ) < q.num.natAbs := by exact_mod_cast ha
  have habs := abs_eq_natAbs_div_den q
  unfold binade
  generalize (halvings q.num.natAbs q.num.natAbs : ℤ) = la at *
  generalize (halvings q.den q.den : ℤ) = lb at *
  have hlow : (2 : ℚ) ^ (la - lb - 1) < |q| := by
    rw [habs, lt_div_iff₀ hd]
    calc (2 : ℚ) ^ (la - lb - 1) * q.den
        < (2 : ℚ) ^ (la - lb - 1) * (2 : ℚ) ^ (lb + 1) :=
          mul_lt_mul_of_pos_left b2q (two_zpow_pos _)
      _ = (2 : ℚ) ^ la := by rw [← zpow_add₀ (by norm_num)]; congr 1; ring
      _ ≤ q.num.natAbs := a1q
  have hhigh : |q| < (2 : ℚ) ^ (la - lb + 1) := by
    rw [habs, div_lt_iff₀ hd]
    calc (q.num.natAbs : ℚ) < (2 : ℚ) ^ (la + 1) := a2q
      _ = (2 : ℚ) ^ (la - lb + 1) * (2 : ℚ) ^ lb := by
          rw [← zpow_add₀ (by norm_num)]; congr 1; ring
      _ ≤ (2 : ℚ) ^ (la - lb + 1) * q.den :=
          mul_le_mul_of_nonneg_left b1q (two_zpow_pos _).le
  split_ifs with hc
  · exact ⟨hc, hhigh⟩
  · refine ⟨hlow.le, ?_⟩
    rw [sub_add_cancel]
    exact not_le.1 hc

theorem binade_unique {q : ℚ} {e : ℤ} (h1 : (2 : ℚ) ^ e ≤ |q|) (h2 : |q| < (2 : ℚ) ^ (e + 1)) :
    binade q = e := by
  have hq : q ≠ 0 := by
    rintro rfl
    rw [abs_zero] at h1
    exact absurd h1 (not_le.2 (two_zpow_pos e))
  obtain ⟨s1, s2⟩ := binade_spec hq
  have l1 : binade q < e + 1 :=
    (zpow_lt_zpow_iff_right₀ (by norm_num : (1 : ℚ) < 2)).1 (lt_of_le_of_lt s1 h2)
  have l2 : e < binade q + 1 :=
    (zpow_lt_zpow_iff_right₀ (by norm_num : (1 : ℚ) < 2)).1 (lt_of_le_of_lt h1 s2)
  omega

theorem binade_mono {x y : ℚ} (hx : x ≠ 0) (hxy : |x| ≤ |y|) : binade x ≤ binade y := by
  have hy : y ≠ 0 := by
    rintro rfl
    rw [abs_zero] at hxy
    exact hx (abs_eq_zero.1 (le_antisymm hxy (abs_nonneg x)))
  obtain ⟨s1, _⟩ := binade_spec hx
  obtain ⟨_, t2⟩ := binade_spec hy
  have l : binade x < binade y + 1 :=
    (zpow_lt_zpow_iff_right₀ (by norm_num : (1 : ℚ) < 2)).1
      (lt_of_le_of_lt s1 (lt_of_le_of_lt hxy t2))
  omega

/-! ### Rounding to the nearest integer -/

theorem roundHalfEven_cases (x : ℚ) :
    (roundHalfEven x = ⌊x⌋ ∧ x - ⌊x⌋ ≤ 1 / 2) ∨ (roundHalfEven x = ⌊x⌋ + 1 ∧ 1 / 2 ≤ x - ⌊x⌋) := by
  unfold roundHalfEven
  split_ifs with h1 h2 h3
  · exact Or.inl ⟨rfl, h1.le⟩
  · exact Or.inr ⟨rfl, h2.le⟩
  · exact Or.inl ⟨rfl, not_lt.1 h2⟩
  · exact Or.inr ⟨rfl, not_lt.1 h1⟩

theorem le_roundHalfEven {x : ℚ} {n : ℤ} (h : (n : ℚ) ≤ x) : n ≤ roundHalfEven x := by
  have hf : n ≤ ⌊x⌋ := Int.le_floor.2 h
  rcases roundHalfEven_cases x with ⟨e, _⟩ | ⟨e, _⟩ <;> rw [e] <;> omega

theorem roundHalfEven_le {x : ℚ} {n : ℤ} (h : x ≤ (n : ℚ)) : roundHalfEven x ≤ n := by
  rcases roundHalfEven_cases x with ⟨e, _⟩ | ⟨e, hr⟩
  · rw [e]
    exact Int.cast_le.1 (le_trans (Int.floor_le x) h)
  · rw [e]
    have h1 : (⌊x⌋ : ℚ) < n := by linarith
    have h2 : ⌊x⌋ < n := Int.cast_lt.1 h1
    omega

theorem roundHalfEven_intCast (n : ℤ) : roundHalfEven (n : ℚ) = n :=
  le_antisymm (roundHalfEven_le (le_refl _)) (le_roundHalfEven (le_refl _))

theorem roundHalfEven_mono {x y : ℚ} (h : x ≤ y) : roundHalfEven x ≤ roundHalfEven y := by
  have hfl : ⌊x⌋ ≤ ⌊y⌋ := Int.floor_mono h
  rcases lt_or_eq_of_le hfl with hlt | heq
  · have h1 : roundHalfEven x ≤ ⌊x⌋ + 1 := by
      rcases roundHalfEven_cases x with ⟨e, _⟩ | ⟨e, _⟩ <;> rw [e]
      omega
    have h2 : ⌊y⌋ ≤ roundHalfEven y := le_roundHalfEven (Int.floor_le y)
    omega
  · unfold roundHalfEven
    rw [← heq]
    split_ifs <;> first | omega | linarith

theorem sub_half_le_roundHalfEven (x : ℚ) : x - 1 / 2 ≤ (roundHalfEven x : ℚ) := by
  rcases roundHalfEven_cases x with ⟨e, hr⟩ | ⟨e, hr⟩
  · rw [e]; linarith
  · rw [e]; push_cast; linarith [Int.lt_floor_add_one x]

theorem roundHalfEven_le_add_half (x : ℚ) : (roundHalfEven x : ℚ) ≤ x + 1 / 2 := by
  rcases roundHalfEven_cases x with ⟨e, hr⟩ | ⟨e, hr⟩
  · rw [e]; linarith [Int.floor_le x]
  · rw [e]; push_cast; linarith

/-! ### Rounding to a format -/

theorem ulp_pos (F : FloatFormat) (q : ℚ) : 0 < F.ulp q := two_zpow_pos _

theorem roundQ_zero (F : FloatFormat) : F.roundQ 0 = 0 := by
  unfold FloatFormat.roundQ
  rw [zero_div]
  have h := roundHalfEven_intCast 0
  rw [Int.cast_zero] at h
  rw [h, Int.cast_zero, zero_mul]

theorem roundQ_nonneg (F : FloatFormat) {q : ℚ} (h : 0 ≤ q) : 0 ≤ F.roundQ q := by
  unfold FloatFormat.roundQ
  have h1 : (0 : ℤ) ≤ roundHalfEven (q / F.ulp q) :=
    le_roundHalfEven (by rw [Int.cast_zero]; exact div_nonneg h (ulp_pos F q).le)
  exact mul_nonneg (by exact_mod_cast h1) (ulp_pos F q).le

theorem roundQ_le_pow (F : FloatFormat) {q : ℚ} (h : 0 < q) :
    F.roundQ q ≤ (2 : ℚ) ^ (max (binade q) F.emin + 1) := by
  have hb := (binade_spec h.ne').2
  rw [abs_of_pos h] at hb
  have hq : q ≤ (2 : ℚ) ^ (max (binade q) F.emin + 1) :=
    le_trans hb.le (zpow_le_zpow_right₀ (by norm_num) (by omega))
  have hu : (2 : ℚ) ^ (max (binade q) F.emin + 1) = ((2 ^ F.prec : ℤ) : ℚ) * F.ulp q := by
    unfold FloatFormat.ulp
    rw [Int.cast_pow, Int.cast_ofNat, ← zpow_natCast, ← zpow_add₀ (by norm_num)]
    congr 1; ring
  unfold FloatFormat.roundQ
  rw [hu]
  have h1 : roundHalfEven (q / F.ulp q) ≤ (2 ^ F.prec : ℤ) := by
    apply roundHalfEven_le
    rw [div_le_iff₀ (ulp_pos F q), ← hu]
    exact hq
  exact mul_le_mul_of_nonneg_right (by exact_mod_cast h1) (ulp_pos F q).le

theorem pow_le_roundQ (F : FloatFormat) (hp : 1 ≤ F.prec) {q : ℚ} (h : 0 < q)
    (hn : F.emin ≤ binade q) : (2 : ℚ) ^ binade q ≤ F.roundQ q := by
  have hb := (binade_spec h.ne').1
  rw [abs_of_pos h] at hb
  have hu : (2 : ℚ) ^ binade q = ((2 ^ (F.prec - 1) : ℤ) : ℚ) * F.ulp q := by
    unfold FloatFormat.ulp
    rw [max_eq_left hn, Int.cast_pow, Int.cast_ofNat, ← zpow_natCast,
      ← zpow_add₀ (by norm_num)]
    congr 1
    rw [Nat.cast_sub hp]
    ring
  unfold FloatFormat.roundQ
  rw [hu]
  have h1 : (2 ^ (F.prec - 1) : ℤ) ≤ roundHalfEven (q / F.ulp q) := by
    apply le_roundHalfEven
    rw [le_div_iff₀ (ulp_pos F q), ← hu]
    exact hb
  exact mul_le_mul_of_nonneg_right (by exact_mod_cast h1) (ulp_pos F q).le

theorem roundQ_mono_pos (F : FloatFormat) (hp : 1 ≤ F.prec) {x y : ℚ} (hx : 0 < x)
    (hxy : x ≤ y) : F.roundQ x ≤ F.roundQ y := by
  have hy : 0 < y := lt_of_lt_of_le hx hxy
  have hbin : binade x ≤ binade y :=
    binade_mono hx.ne' (by rw [abs_of_pos hx, abs_of_pos hy]; exact hxy)
  rcases lt_or_eq_of_le (max_le_max hbin (le_refl F.emin)) with hlt | heq
  · have hn : F.emin ≤ binade y := by
      by_contra hc
      rw [max_eq_right (not_le.1 hc).le] at hlt
      exact absurd hlt (not_lt.2 (le_max_right _ _))
    have hE : max (binade x) F.emin + 1 ≤ binade y := by
      rw [max_eq_left hn] at hlt
      omega
    calc F.roundQ x ≤ (2 : ℚ) ^ (max (binade x) F.emin + 1) := roundQ_le_pow F hx
      _ ≤ (2 : ℚ) ^ binade y := zpow_le_zpow_right₀ (by norm_num) hE
      _ ≤ F.roundQ y := pow_le_roundQ F hp hy hn
  · have hu : F.ulp x = F.ulp y := by
      unfold FloatFormat.ulp
      rw [heq]
    unfold FloatFormat.roundQ
    rw [hu]
    have h1 : roundHalfEven (x / F.ulp y) ≤ roundHalfEven (y / F.ulp y) :=
      roundHalfEven_mono (div_le_div_of_nonneg_right hxy (ulp_pos F y).le)
    exact mul_le_mul_of_nonneg_right (by exact_mod_cast h1) (ulp_pos F y).le

theorem roundQ_mono (F : FloatFormat) (hp : 1 ≤ F.prec) {x y : ℚ} (hx : 0 ≤ x)
    (hxy : x ≤ y) : F.roundQ x ≤ F.roundQ y := by
  rcases lt_or_eq_of_le hx with h | h
  · exact roundQ_mono_pos F hp h hxy
  · rw [← h, roundQ_zero]
    exact roundQ_nonneg F (le_trans hx hxy)

theorem roundQ_ge (F : FloatFormat) {q : ℚ} (h : 0 < q) (hn : F.emin ≤ binade q) :
    q * (1 - (2 : ℚ) ^ (-(F.prec : ℤ))) ≤ F.roundQ q := by
  have hb := (binade_spec h.ne').1
  rw [abs_of_pos h] at hb
  have hu : F.ulp q = 2 * ((2 : ℚ) ^ binade q * (2 : ℚ) ^ (-(F.prec : ℤ))) := by
    unfold FloatFormat.ulp
    rw [max_eq_left hn, ← zpow_add₀ (by norm_num)]
    have : binade q - ((F.prec : ℤ) - 1) = 1 + (binade q + -(F.prec : ℤ)) := by ring
    rw [this, zpow_add₀ (by norm_num), zpow_one]
  have h1 := sub_half_le_roundHalfEven (q / F.ulp q)
  have h2 : (q / F.ulp q - 1 / 2) * F.ulp q ≤ (roundHalfEven (q / F.ulp q) : ℚ) * F.ulp q :=
    mul_le_mul_of_nonneg_right h1 (ulp_pos F q).le
  have h3 : (q / F.ulp q - 1 / 2) * F.ulp q = q - F.ulp q / 2 := by
    rw [sub_mul, div_mul_cancel₀ _ (ulp_pos F q).ne']
    ring
  have h4 : (2 : ℚ) ^ binade q * (2 : ℚ) ^ (-(F.prec : ℤ)) ≤ q * (2 : ℚ) ^ (-(F.prec : ℤ)) :=
    mul_le_mul_of_nonneg_right hb (two_zpow_pos _).le
  unfold FloatFormat.roundQ
  rw [h3] at h2
  have h5 : F.ulp q / 2 = (2 : ℚ) ^ binade q * (2 : ℚ) ^ (-(F.prec : ℤ)) := by
    rw [hu]; ring
  rw [h5] at h2
  linarith

theorem round_eq_finite (F : FloatFormat) (hp : 1 ≤ F.prec) {q B : ℚ} (hq : 0 ≤ q)
    (hB : q ≤ B) (hr : F.roundQ B < (2 : ℚ) ^ (F.emax + 1)) :
    F.round q = .finite (F.roundQ q) := by
  unfold FloatFormat.round
  rw [abs_of_nonneg (roundQ_nonneg F hq),
    if_neg (not_le.2 (lt_of_le_of_lt (roundQ_mono F hp hq hB) hr))]


/-! ### Operations on finite values -/

theorem floatVal_lt_irrefl (a : FloatVal) : ¬ a < a := by
  change ¬ FloatVal.lt a a = true
  cases a with
  | finite q => simp [FloatVal.lt]
  | inf s => cases s <;> simp [FloatVal.lt]
  | nan => simp [FloatVal.lt]

theorem fmin_finite (a b : ℚ) : fmin (.finite a) (.finite b) = .finite (min a b) := by
  unfold fmin
  change (if FloatVal.lt (.finite b) (.finite a) = true then FloatVal.finite b
    else FloatVal.finite a) = _
  simp only [FloatVal.lt, decide_eq_true_eq]
  split_ifs with h
  · rw [min_eq_right h.le]
  · rw [min_eq_left (not_lt.1 h)]

theorem binary32_prec : 1 ≤ binary32.prec := by decide

theorem binary64_prec : 1 ≤ binary64.prec := by decide

/-- Up to `2 ^ 65` a nonnegative exact result does not overflow a `float`. -/
theorem round32_eq_finite {q : ℚ} (h0 : 0 ≤ q) (h1 : q ≤ 2 ^ 65) :
    binary32.round q = .finite (binary32.roundQ q) :=
  round_eq_finite binary32 binary32_prec h0 h1 (by decide!)

theorem round64_eq_finite {q : ℚ} (h0 : 0 ≤ q) (h1 : q ≤ 2 ^ 65) :
    binary64.round q = .finite (binary64.roundQ q) :=
  round_eq_finite binary64 binary64_prec h0 h1 (by decide!)

theorem roundQ32_le_of_le {q : ℚ} (h0 : 0 ≤ q) {k : ℕ} (h1 : q ≤ 2 ^ k)
    (hk : binary32.roundQ (2 ^ k) = 2 ^ k) : binary32.roundQ q ≤ 2 ^ k := by
  rw [← hk]
  exact roundQ_mono binary32 binary32_prec h0 h1

/-! ## The threshold `minVal` as a number -/

theorem roundQ32_two_pow_64 : binary32.roundQ (2 ^ 64) = 2 ^ 64 := by decide!

theorem roundQ32_one : binary32.roundQ 1 = 1 := by decide!

theorem roundQ64_one : binary64.roundQ 1 = 1 := by decide!

theorem roundQ32_two_tenths : binary32.roundQ (2 / 10) = 13421773 / 67108864 := by decide!

theorem roundQ32_eight_tenths : binary32.roundQ (8 / 10) = 13421773 / 16777216 := by decide!

theorem roundQ64_seven_tenths :
    binary64.roundQ (7 / 10) = 3152519739159347 / 4503599627370496 := by decide!

theorem round32_two_tenths : binary32.round (2 / 10) = .finite (binary32.roundQ (2 / 10)) := by
  decide!

theorem round32_eight_tenths : binary32.round (8 / 10) = .finite (binary32.roundQ (8 / 10)) := by
  decide!

theorem round64_seven_tenths : binary64.round (7 / 10) = .finite (binary64.roundQ (7 / 10)) := by
  decide!

/-- The conversion of a keyframe count to `float`. -/
theorem countFloat_bounds {n : Nat} (h : n < 2 ^ 64) :
    0 ≤ binary32.roundQ (n : ℚ) ∧ binary32.roundQ (n : ℚ) ≤ 2 ^ 64 := by
  have h0 : (0 : ℚ) ≤ n := Nat.cast_nonneg n
  have h1 : (n : ℚ) ≤ 2 ^ 64 := by exact_mod_cast h.le
  exact ⟨roundQ_nonneg _ h0, roundQ32_le_of_le h0 h1 roundQ32_two_pow_64⟩

/-- The conversion of a positive count to `float` is at least 1. -/
theorem one_le_countFloat {n : Nat} (h : 0 < n) : 1 ≤ binary32.roundQ (n : ℚ) := by
  have h1 : (1 : ℚ) ≤ n := by exact_mod_cast h
  have h2 := roundQ_mono binary32 binary32_prec (by norm_num : (0 : ℚ) ≤ 1) h1
  rwa [roundQ32_one] at h2

/-- The chain of intermediate results of line 262, with their ranges. -/
theorem minValBase_chain (st : Settings) (n : Nat) (hpos : 0 < st.INITIALIZATION_PHASE_COUNT)
    (hn : n < 2 ^ 64) :
    (0 ≤ binary32.roundQ (n : ℚ) * binary32.roundQ (8 / 10) ∧
        binary32.roundQ (n : ℚ) * binary32.roundQ (8 / 10) ≤ 2 ^ 65) ∧
      (0 ≤ binary32.roundQ (binary32.roundQ (n : ℚ) * binary32.roundQ (8 / 10))
            / binary32.roundQ (st.INITIALIZATION_PHASE_COUNT : ℚ) ∧
        binary32.roundQ (binary32.roundQ (n : ℚ) * binary32.roundQ (8 / 10))
            / binary32.roundQ (st.INITIALIZATION_PHASE_COUNT : ℚ) ≤ 2 ^ 65) ∧
      (0 ≤ binary32.roundQ
            (binary32.roundQ (binary32.roundQ (n : ℚ) * binary32.roundQ (8 / 10))
              / binary32.roundQ (st.INITIALIZATION_PHASE_COUNT : ℚ)) ∧
        binary32.roundQ (2 / 10)
            + binary32.roundQ
              (binary32.roundQ (binary32.roundQ (n : ℚ) * binary32.roundQ (8 / 10))
                / binary32.roundQ (st.INITIALIZATION_PHASE_COUNT : ℚ)) ≤ 2 ^ 65) := by
  obtain ⟨n0, n1⟩ := countFloat_bounds hn
  have hI := one_le_countFloat hpos
  have hc : binary32.roundQ (8 / 10) = 13421773 / 16777216 := roundQ32_eight_tenths
  have hc2 : binary32.roundQ (2 / 10) = 13421773 / 67108864 := roundQ32_two_tenths
  generalize binary32.roundQ (n : ℚ) = nf at *
  generalize binary32.roundQ (st.INITIALIZATION_PHASE_COUNT : ℚ) = fI at *
  rw [hc, hc2]
  have a0 : 0 ≤ nf * (13421773 / 16777216) := mul_nonneg n0 (by norm_num)
  have a1 : nf * (13421773 / 16777216) ≤ 2 ^ 64 := by nlinarith
  have A0 := roundQ_nonneg binary32 a0
  have A1 := roundQ32_le_of_le a0 a1 roundQ32_two_pow_64
  generalize binary32.roundQ (nf * (13421773 / 16777216)) = A at *
  have fpos : 0 < fI := lt_of_lt_of_le one_pos hI
  have b0 : 0 ≤ A / fI := div_nonneg A0 fpos.le
  have b1 : A / fI ≤ 2 ^ 64 := le_trans (div_le_self A0 hI) A1
  have B0 := roundQ_nonneg binary32 b0
  have B1 := roundQ32_le_of_le b0 b1 roundQ32_two_pow_64
  generalize binary32.roundQ (A / fI) = B at *
  refine ⟨⟨a0, ?_⟩, ⟨b0, ?_⟩, B0, ?_⟩ <;> norm_num at * <;> linarith

theorem minValBase_eq_finite (st : Settings) (n : Nat)
    (hpos : 0 < st.INITIALIZATION_PHASE_COUNT) (hint : st.INITIALIZATION_PHASE_COUNT < 2 ^ 31)
    (hn : n < 2 ^ 64) :
    minValBase st n = .finite (minValBaseQ st n) := by
  obtain ⟨⟨a0, a1⟩, ⟨b0, b1⟩, B0, c1⟩ := minValBase_chain st n hpos hn
  have hI := one_le_countFloat hpos
  have hne : binary32.roundQ (st.INITIALIZATION_PHASE_COUNT : ℚ) ≠ 0 :=
    (lt_of_lt_of_le one_pos hI).ne'
  have hI1 : binary32.round (st.INITIALIZATION_PHASE_COUNT : ℚ)
      = .finite (binary32.roundQ (st.INITIALIZATION_PHASE_COUNT : ℚ)) :=
    round32_eq_finite (Nat.cast_nonneg _)
      (by
        have h : (st.INITIALIZATION_PHASE_COUNT : ℚ) ≤ 2 ^ 31 := by exact_mod_cast hint.le
        linarith [show (2 : ℚ) ^ 31 ≤ 2 ^ 65 by norm_num])
  have hn1 : binary32.round (n : ℚ) = .finite (binary32.roundQ (n : ℚ)) :=
    round32_eq_finite (Nat.cast_nonneg _)
      (by
        have h : (n : ℚ) ≤ 2 ^ 64 := by exact_mod_cast hn.le
        linarith [show (2 : ℚ) ^ 64 ≤ 2 ^ 65 by norm_num])
  have c0 : 0 ≤ binary32.roundQ (2 / 10)
      + binary32.roundQ
          (binary32.roundQ (binary32.roundQ (n : ℚ) * binary32.roundQ (8 / 10))
            / binary32.roundQ (st.INITIALIZATION_PHASE_COUNT : ℚ)) := by
    rw [roundQ32_two_tenths]
    exact add_nonneg (by norm_num) B0
  unfold minValBase minValBaseQ
  rw [hn1, hI1, round32_eight_tenths, round32_two_tenths]
  simp only [FloatFormat.mul, FloatFormat.div, FloatFormat.add]
  rw [round32_eq_finite a0 a1]
  simp only [FloatFormat.div]
  rw [if_neg hne, round32_eq_finite b0 b1]
  simp only [FloatFormat.add]
  rw [round32_eq_finite c0 c1, fmin_finite]

theorem minValBaseQ_range (st : Settings) (n : Nat)
    (hpos : 0 < st.INITIALIZATION_PHASE_COUNT) (hn : n < 2 ^ 64) :
    13421773 / 67108864 ≤ minValBaseQ st n ∧ minValBaseQ st n ≤ 1 := by
  obtain ⟨_, _, B0, _⟩ := minValBase_chain st n hpos hn
  unfold minValBaseQ
  refine ⟨le_min ?_ (by norm_num), min_le_right _ _⟩
  have h1 : binary32.roundQ (13421773 / 67108864) = 13421773 / 67108864 := by decide!
  rw [roundQ32_two_tenths]
  have h2 := roundQ_mono binary32 binary32_prec (by norm_num : (0 : ℚ) ≤ 13421773 / 67108864)
    (le_add_of_nonneg_right B0)
  rwa [h1] at h2

theorem minVal_eq_finite (st : Settings) (n : Nat)
    (hpos : 0 < st.INITIALIZATION_PHASE_COUNT) (hint : st.INITIALIZATION_PHASE_COUNT < 2 ^ 31)
    (hn : n < 2 ^ 64) :
    minVal st n = .finite (minValQ st n) := by
  obtain ⟨r0, r1⟩ := minValBaseQ_range st n hpos hn
  have r00 : 0 ≤ minValBaseQ st n := le_trans (by norm_num) r0
  unfold minVal minValQ
  rw [minValBase_eq_finite st n hpos hint hn, round64_seven_tenths]
  split_ifs with h
  · have d0 : 0 ≤ minValBaseQ st n * binary64.roundQ (7 / 10) := by
      rw [roundQ64_seven_tenths]
      exact mul_nonneg r00 (by norm_num)
    have d1 : minValBaseQ st n * binary64.roundQ (7 / 10) ≤ 1 := by
      rw [roundQ64_seven_tenths]
      nlinarith
    have e0 := roundQ_nonneg binary64 d0
    have e1 := roundQ_mono binary64 binary64_prec d0 d1
    rw [roundQ64_one] at e1
    simp only [FloatFormat.mul]
    rw [round64_eq_finite d0 (le_trans d1 (by norm_num))]
    simp only [FloatFormat.convert]
    rw [round32_eq_finite e0 (le_trans e1 (by norm_num))]
  · rfl

theorem minValBaseQ_mono (st : Settings) {n m : Nat}
    (hpos : 0 < st.INITIALIZATION_PHASE_COUNT) (hnm : n ≤ m) (hm : m < 2 ^ 64) :
    minValBaseQ st n ≤ minValBaseQ st m := by
  have hn : n < 2 ^ 64 := lt_of_le_of_lt hnm hm
  obtain ⟨⟨a0, _⟩, ⟨b0, _⟩, B0, _⟩ := minValBase_chain st n hpos hn
  obtain ⟨n0, _⟩ := countFloat_bounds hn
  have hI := one_le_countFloat hpos
  have hc : (0 : ℚ) ≤ binary32.roundQ (8 / 10) := by rw [roundQ32_eight_tenths]; norm_num
  have hc2 : (0 : ℚ) ≤ binary32.roundQ (2 / 10) := by rw [roundQ32_two_tenths]; norm_num
  have h1 : binary32.roundQ (n : ℚ) ≤ binary32.roundQ (m : ℚ) :=
    roundQ_mono binary32 binary32_prec (Nat.cast_nonneg n) (by exact_mod_cast hnm)
  have h2 := roundQ_mono binary32 binary32_prec a0 (mul_le_mul_of_nonneg_right h1 hc)
  have h3 := roundQ_mono binary32 binary32_prec b0
    (div_le_div_of_nonneg_right h2 (le_trans zero_le_one hI))
  have h4 := roundQ_mono binary32 binary32_prec (add_nonneg hc2 B0)
    (add_le_add_left h3 (binary32.roundQ (2 / 10)))
  unfold minValBaseQ
  exact min_le_min h4 (le_refl 1)

/-- After the initialization phase the threshold is at most one `float` step below 1. -/
theorem minValBaseQ_after (st : Settings) (n : Nat)
    (hpos : 0 < st.INITIALIZATION_PHASE_COUNT) (hge : st.INITIALIZATION_PHASE_COUNT ≤ n) :
    16777215 / 16777216 ≤ minValBaseQ st n := by
  have hI := one_le_countFloat hpos
  have hIn : binary32.roundQ (st.INITIALIZATION_PHASE_COUNT : ℚ) ≤ binary32.roundQ (n : ℚ) :=
    roundQ_mono binary32 binary32_prec (Nat.cast_nonneg _) (by exact_mod_cast hge)
  unfold minValBaseQ
  rw [roundQ32_eight_tenths, roundQ32_two_tenths]
  generalize binary32.roundQ (n : ℚ) = nf at *
  generalize binary32.roundQ (st.INITIALIZATION_PHASE_COUNT : ℚ) = fI at *
  have fpos : 0 < fI := lt_of_lt_of_le one_pos hI
  -- the product is at least the product for `n = INITIALIZATION_PHASE_COUNT`
  have p0 : 0 < fI * (13421773 / 16777216) := mul_pos fpos (by norm_num)
  have p1 : fI * (13421773 / 16777216) ≤ nf * (13421773 / 16777216) :=
    mul_le_mul_of_nonneg_right hIn (by norm_num)
  have hA1 := roundQ_mono binary32 binary32_prec p0.le p1
  have hbin : binary32.emin ≤ binade (fI * (13421773 / 16777216)) := by
    have hb : binade ((1 : ℚ) / 2) ≤ binade (fI * (13421773 / 16777216)) := by
      apply binade_mono (by norm_num)
      rw [abs_of_pos p0, abs_of_pos (by norm_num : (0 : ℚ) < 1 / 2)]
      nlinarith
    have hb2 : binade ((1 : ℚ) / 2) = -1 := by decide!
    have hb3 : binary32.emin = -126 := rfl
    omega
  have hA2 := roundQ_ge binary32 p0 hbin
  have hprec : (2 : ℚ) ^ (-(binary32.prec : ℤ)) = 1 / 16777216 := by
    have : (binary32.prec : ℤ) = 24 := rfl
    rw [this]
    norm_num
  rw [hprec] at hA2
  have hA : fI * (13421773 / 16777216) * (1 - 1 / 16777216)
      ≤ binary32.roundQ (nf * (13421773 / 16777216)) := le_trans hA2 hA1
  generalize binary32.roundQ (nf * (13421773 / 16777216)) = A at *
  -- the quotient is at least the `float` below `0.8f`
  have q0 : 13421773 / 16777216 * (1 - 1 / 16777216) ≤ A / fI := by
    rw [le_div_iff₀ fpos]
    linarith
  have hB := roundQ_mono binary32 binary32_prec (by norm_num) q0
  have hB0 : binary32.roundQ (13421773 / 16777216 * (1 - 1 / 16777216))
      = 13421772 / 16777216 := by decide!
  rw [hB0] at hB
  generalize binary32.roundQ (A / fI) = B at *
  have hC := roundQ_mono binary32 binary32_prec (by norm_num)
    (add_le_add_left hB (13421773 / 67108864))
  have hC0 : binary32.roundQ (13421773 / 67108864 + 13421772 / 16777216)
      = 16777215 / 16777216 := by decide!
  rw [hC0] at hC
  exact le_min hC (by norm_num)

/-- In the initialization phase the threshold lies between `0.14` and the `float` below
`0.7`. -/
theorem minValQ_init (st : Settings) (n : Nat)
    (hpos : 0 < st.INITIALIZATION_PHASE_COUNT) (hlt : n < st.INITIALIZATION_PHASE_COUNT)
    (hn : n < 2 ^ 64) :
    9395241 / 67108864 ≤ minValQ st n ∧ minValQ st n ≤ 11744051 / 16777216 := by
  obtain ⟨r0, r1⟩ := minValBaseQ_range st n hpos hn
  unfold minValQ
  rw [if_pos hlt, roundQ64_seven_tenths]
  generalize minValBaseQ st n = base at *
  have l1 := roundQ_mono binary64 binary64_prec (by norm_num)
    (mul_le_mul_of_nonneg_right r0
      (by norm_num : (0 : ℚ) ≤ 3152519739159347 / 4503599627370496))
  have l2 := roundQ_mono binary32 binary32_prec (roundQ_nonneg binary64 (by norm_num)) l1
  have l3 : binary32.roundQ (binary64.roundQ
      (13421773 / 67108864 * (3152519739159347 / 4503599627370496)))
      = 9395241 / 67108864 := by decide!
  rw [l3] at l2
  have b0 : 0 ≤ base * (3152519739159347 / 4503599627370496) :=
    mul_nonneg (le_trans (by norm_num) r0) (by norm_num)
  have u1 := roundQ_mono binary64 binary64_prec b0
    (mul_le_mul_of_nonneg_right r1
      (by norm_num : (0 : ℚ) ≤ 3152519739159347 / 4503599627370496))
  have u2 := roundQ_mono binary32 binary32_prec (roundQ_nonneg binary64 b0) u1
  have u3 : binary32.roundQ (binary64.roundQ (1 * (3152519739159347 / 4503599627370496)))
      = 11744051 / 16777216 := by decide!
  rw [u3] at u2
  exact ⟨l2, u2⟩

theorem minValQ_mono (st : Settings) {n m : Nat}
    (hpos : 0 < st.INITIALIZATION_PHASE_COUNT) (hnm : n ≤ m) (hm : m < 2 ^ 64) :
    minValQ st n ≤ minValQ st m := by
  have hn : n < 2 ^ 64 := lt_of_le_of_lt hnm hm
  by_cases h1 : n < st.INITIALIZATION_PHASE_COUNT
  · by_cases h2 : m < st.INITIALIZATION_PHASE_COUNT
    · have hb := minValBaseQ_mono st hpos hnm hm
      obtain ⟨r0, _⟩ := minValBaseQ_range st n hpos hn
      have c7 : (0 : ℚ) ≤ binary64.roundQ (7 / 10) := by rw [roundQ64_seven_tenths]; norm_num
      have b0 : 0 ≤ minValBaseQ st n * binary64.roundQ (7 / 10) :=
        mul_nonneg (le_trans (by norm_num) r0) c7
      unfold minValQ
      rw [if_pos h1, if_pos h2]
      exact roundQ_mono binary32 binary32_prec (roundQ_nonneg binary64 b0)
        (roundQ_mono binary64 binary64_prec b0 (mul_le_mul_of_nonneg_right hb c7))
    · have u := (minValQ_init st n hpos h1 hn).2
      have l := minValBaseQ_after st m hpos (not_lt.1 h2)
      have e : minValQ st m = minValBaseQ st m := by unfold minValQ; rw [if_neg h2]
      rw [e]
      linarith
  · have h2 : ¬ m < st.INITIALIZATION_PHASE_COUNT := fun h => h1 (lt_of_le_of_lt hnm h)
    unfold minValQ
    rw [if_neg h1, if_neg h2]
    exact minValBaseQ_mono st hpos hnm hm

/-! ## The threshold `minVal` against the exact formula -/

theorem roundQ_le_rel (F : FloatFormat) {q : ℚ} (h : 0 < q) (hn : F.emin ≤ binade q) :
    F.roundQ q ≤ q * (1 + (2 : ℚ) ^ (-(F.prec : ℤ))) := by
  have hb := (binade_spec h.ne').1
  rw [abs_of_pos h] at hb
  have hu : F.ulp q = 2 * ((2 : ℚ) ^ binade q * (2 : ℚ) ^ (-(F.prec : ℤ))) := by
    unfold FloatFormat.ulp
    rw [max_eq_left hn, ← zpow_add₀ (by norm_num)]
    have : binade q - ((F.prec : ℤ) - 1) = 1 + (binade q + -(F.prec : ℤ)) := by ring
    rw [this, zpow_add₀ (by norm_num), zpow_one]
  have h1 := roundHalfEven_le_add_half (q / F.ulp q)
  have h2 : (roundHalfEven (q / F.ulp q) : ℚ) * F.ulp q ≤ (q / F.ulp q + 1 / 2) * F.ulp q :=
    mul_le_mul_of_nonneg_right h1 (ulp_pos F q).le
  have h3 : (q / F.ulp q + 1 / 2) * F.ulp q = q + F.ulp q / 2 := by
    rw [add_mul, div_mul_cancel₀ _ (ulp_pos F q).ne']
    ring
  have h4 : (2 : ℚ) ^ binade q * (2 : ℚ) ^ (-(F.prec : ℤ)) ≤ q * (2 : ℚ) ^ (-(F.prec : ℤ)) :=
    mul_le_mul_of_nonneg_right hb (two_zpow_pos _).le
  unfold FloatFormat.roundQ
  rw [h3] at h2
  have h5 : F.ulp q / 2 = (2 : ℚ) ^ binade q * (2 : ℚ) ^ (-(F.prec : ℤ)) := by
    rw [hu]; ring
  rw [h5] at h2
  linarith

/-- The relative error of rounding a normal number to `float` is at most `2 ^ -24`. -/
theorem roundQ32_rel {q : ℚ} (h : 1 / 2 ^ 126 ≤ q) :
    q * (1 - 1 / 2 ^ 24) ≤ binary32.roundQ q ∧ binary32.roundQ q ≤ q * (1 + 1 / 2 ^ 24) := by
  have hq : 0 < q := lt_of_lt_of_le (by norm_num) h
  have hb : binary32.emin ≤ binade q := by
    have h1 : binade ((1 : ℚ) / 2 ^ 126) ≤ binade q := by
      apply binade_mono (by norm_num)
      rw [abs_of_pos hq, abs_of_pos (by norm_num : (0 : ℚ) < 1 / 2 ^ 126)]
      exact h
    have h2 : binade ((1 : ℚ) / 2 ^ 126) = -126 := by decide!
    have h3 : binary32.emin = -126 := rfl
    omega
  have hp : (2 : ℚ) ^ (-(binary32.prec : ℤ)) = 1 / 2 ^ 24 := by
    have : (binary32.prec : ℤ) = 24 := rfl
    rw [this]
    norm_num
  have l := roundQ_ge binary32 hq hb
  have u := roundQ_le_rel binary32 hq hb
  rw [hp] at l u
  exact ⟨l, u⟩

/-- The relative error of rounding a normal number to `double` is at most `2 ^ -53`. -/
theorem roundQ64_rel {q : ℚ} (h : 1 / 2 ^ 1022 ≤ q) :
    q * (1 - 1 / 2 ^ 53) ≤ binary64.roundQ q ∧ binary64.roundQ q ≤ q * (1 + 1 / 2 ^ 53) := by
  have hq : 0 < q := lt_of_lt_of_le (by norm_num) h
  have hb : binary64.emin ≤ binade q := by
    have h1 : binade ((1 : ℚ) / 2 ^ 1022) ≤ binade q := by
      apply binade_mono (by norm_num)
      rw [abs_of_pos hq, abs_of_pos (by norm_num : (0 : ℚ) < 1 / 2 ^ 1022)]
      exact h
    have h2 : binade ((1 : ℚ) / 2 ^ 1022) = -1022 := by decide!
    have h3 : binary64.emin = -1022 := rfl
    omega
  have hp : (2 : ℚ) ^ (-(binary64.prec : ℤ)) = 1 / 2 ^ 53 := by
    have : (binary64.prec : ℤ) = 53 := rfl
    rw [this]
    norm_num
  have l := roundQ_ge binary64 hq hb
  have u := roundQ_le_rel binary64 hq hb
  rw [hp] at l u
  exact ⟨l, u⟩

/-- A quotient whose numerator and denominator are known up to factors. -/
theorem div_between {x y a f lo hi dl dh : ℚ} (hx : 0 < x) (hy : 0 < y) (hlo : 0 < lo)
    (hdl : 0 < dl) (ha1 : x * lo ≤ a) (ha2 : a ≤ x * hi) (hf1 : y * dl ≤ f)
    (hf2 : f ≤ y * dh) :
    x / y * (lo / dh) ≤ a / f ∧ a / f ≤ x / y * (hi / dl) := by
  have hf0 : 0 < f := lt_of_lt_of_le (mul_pos hy hdl) hf1
  have hdh : 0 < dh := by
    by_contra hc
    have : y * dh ≤ 0 := mul_nonpos_of_nonneg_of_nonpos hy.le (not_lt.1 hc)
    linarith
  have ha0 : 0 < a := lt_of_lt_of_le (mul_pos hx hlo) ha1
  constructor
  · have e : x / y * (lo / dh) = x * lo / (y * dh) := by field_simp
    rw [e]
    exact div_le_div₀ ha0.le ha1 hf0 hf2
  · have e : x / y * (hi / dl) = x * hi / (y * dl) := by field_simp
    rw [e]
    exact div_le_div₀ (le_trans ha0.le ha2) ha2 (mul_pos hy hdl) hf1

/-- The rounded quotient `n * 0.8f / INITIALIZATION_PHASE_COUNT` of line 262 against the exact
ratio, for counts `0 < n < INITIALIZATION_PHASE_COUNT < 2 ^ 31`. -/
theorem quotient_near_ratio (n c : Nat) (hn : 0 < n) (hlt : n < c) (hint : c < 2 ^ 31) :
    (n : ℚ) * 0.8 / (c : ℚ) - 18 / 10 ^ 8
        ≤ binary32.roundQ
            (binary32.roundQ (binary32.roundQ (n : ℚ) * binary32.roundQ (8 / 10))
              / binary32.roundQ (c : ℚ)) ∧
      binary32.roundQ
          (binary32.roundQ (binary32.roundQ (n : ℚ) * binary32.roundQ (8 / 10))
            / binary32.roundQ (c : ℚ))
        ≤ (n : ℚ) * 0.8 / (c : ℚ) + 21 / 10 ^ 8 := by
  have hn1 : (1 : ℚ) ≤ n := by exact_mod_cast hn
  have hnc : (n : ℚ) ≤ c := by exact_mod_cast hlt.le
  have hc1 : (1 : ℚ) ≤ c := le_trans hn1 hnc
  have hc2 : (c : ℚ) ≤ 2 ^ 31 := by exact_mod_cast hint.le
  obtain ⟨nl, nu⟩ := roundQ32_rel (q := (n : ℚ)) (le_trans (by norm_num) hn1)
  obtain ⟨cl, cu⟩ := roundQ32_rel (q := (c : ℚ)) (le_trans (by norm_num) hc1)
  rw [roundQ32_eight_tenths]
  generalize binary32.roundQ (n : ℚ) = nf at *
  generalize binary32.roundQ (c : ℚ) = fc at *
  generalize (n : ℚ) = x at *
  generalize (c : ℚ) = y at *
  have hx0 : 0 < x := lt_of_lt_of_le one_pos hn1
  have hy0 : 0 < y := lt_of_lt_of_le one_pos hc1
  have hnf : 1 / 2 ≤ nf := le_trans (by linarith) nl
  have hfc0 : 0 < fc := lt_of_lt_of_le (by linarith) cl
  have hfc2 : fc ≤ 2 ^ 32 := le_trans cu (by linarith)
  have hP : 1 / 4 ≤ nf * (13421773 / 16777216) := by linarith
  obtain ⟨al, au⟩ := roundQ32_rel (q := nf * (13421773 / 16777216))
    (le_trans (by norm_num) hP)
  have hA0 : 1 / 8 ≤ binary32.roundQ (nf * (13421773 / 16777216)) := le_trans (by linarith) al
  generalize binary32.roundQ (nf * (13421773 / 16777216)) = A at *
  have hQ0 : 1 / 2 ^ 126 ≤ A / fc := by
    rw [le_div_iff₀ hfc0]
    have : 1 / 2 ^ 126 * fc ≤ 1 / 2 ^ 126 * 2 ^ 32 :=
      mul_le_mul_of_nonneg_left hfc2 (by norm_num)
    linarith
  obtain ⟨bl, bu⟩ := roundQ32_rel (q := A / fc) hQ0
  generalize binary32.roundQ (A / fc) = B at *
  have hr0 : 0 ≤ x / y := (div_pos hx0 hy0).le
  have hr1 : x / y ≤ 1 := (div_le_one hy0).2 hnc
  have e : x * 0.8 / y = 0.8 * (x / y) := by ring
  rw [e]
  -- the product against `x`
  have a1 : x * ((1 - 1 / 2 ^ 24) * (13421773 / 16777216) * (1 - 1 / 2 ^ 24)) ≤ A := by
    have := mul_le_mul_of_nonneg_right nl
      (by norm_num : (0 : ℚ) ≤ 13421773 / 16777216 * (1 - 1 / 2 ^ 24))
    linarith
  have a2 : A ≤ x * ((1 + 1 / 2 ^ 24) * (13421773 / 16777216) * (1 + 1 / 2 ^ 24)) := by
    have := mul_le_mul_of_nonneg_right nu
      (by norm_num : (0 : ℚ) ≤ 13421773 / 16777216 * (1 + 1 / 2 ^ 24))
    linarith
  obtain ⟨q1, q2⟩ := div_between hx0 hy0 (by norm_num) (by norm_num) a1 a2 cl cu
  have k1 : (0.8 - 17 / 10 ^ 8 : ℚ)
      ≤ (1 - 1 / 2 ^ 24) * (13421773 / 16777216) * (1 - 1 / 2 ^ 24) / (1 + 1 / 2 ^ 24) := by
    norm_num
  have k2 : (1 + 1 / 2 ^ 24) * (13421773 / 16777216) * (1 + 1 / 2 ^ 24) / (1 - 1 / 2 ^ 24)
      ≤ (0.8 + 20 / 10 ^ 8 : ℚ) := by
    norm_num
  have q3 : x / y * (0.8 - 17 / 10 ^ 8) ≤ A / fc :=
    le_trans (mul_le_mul_of_nonneg_left k1 hr0) q1
  have q4 : A / fc ≤ x / y * (0.8 + 20 / 10 ^ 8) :=
    le_trans q2 (mul_le_mul_of_nonneg_left k2 hr0)
  generalize A / fc = Q at *
  generalize x / y = r at *
  constructor
  · have : Q * (1 / 2 ^ 24) ≤ 1 * (1 / 2 ^ 24) :=
      mul_le_mul_of_nonneg_right (by linarith) (by norm_num)
    linarith
  · have : Q * (1 / 2 ^ 24) ≤ 2 * (1 / 2 ^ 24) :=
      mul_le_mul_of_nonneg_right (by linarith) (by norm_num)
    linarith

/-- The value of line 262 against the exact sum, in the initialization phase. -/
theorem minValBaseQ_near_formula (st : Settings) (n : Nat)
    (hint : st.INITIALIZATION_PHASE_COUNT < 2 ^ 31)
    (hlt : n < st.INITIALIZATION_PHASE_COUNT) :
    (0.2 : ℚ) + (n : ℚ) * 0.8 / (st.INITIALIZATION_PHASE_COUNT : ℚ) - 25 / 10 ^ 8
        ≤ minValBaseQ st n ∧
      minValBaseQ st n
        ≤ (0.2 : ℚ) + (n : ℚ) * 0.8 / (st.INITIALIZATION_PHASE_COUNT : ℚ) + 28 / 10 ^ 8 := by
  have hnc : (n : ℚ) ≤ st.INITIALIZATION_PHASE_COUNT := by exact_mod_cast hlt.le
  have hc0 : (0 : ℚ) < st.INITIALIZATION_PHASE_COUNT := by
    exact_mod_cast lt_of_le_of_lt (Nat.zero_le n) hlt
  have hr0 : 0 ≤ (n : ℚ) * 0.8 / (st.INITIALIZATION_PHASE_COUNT : ℚ) :=
    div_nonneg (mul_nonneg (Nat.cast_nonneg n) (by norm_num)) hc0.le
  have hr1 : (n : ℚ) * 0.8 / (st.INITIALIZATION_PHASE_COUNT : ℚ) ≤ 0.8 := by
    rw [div_le_iff₀ hc0]
    nlinarith
  -- the quotient
  have hB : (n : ℚ) * 0.8 / (st.INITIALIZATION_PHASE_COUNT : ℚ) - 18 / 10 ^ 8
        ≤ binary32.roundQ
            (binary32.roundQ (binary32.roundQ (n : ℚ) * binary32.roundQ (8 / 10))
              / binary32.roundQ (st.INITIALIZATION_PHASE_COUNT : ℚ)) ∧
      binary32.roundQ
          (binary32.roundQ (binary32.roundQ (n : ℚ) * binary32.roundQ (8 / 10))
            / binary32.roundQ (st.INITIALIZATION_PHASE_COUNT : ℚ))
        ≤ (n : ℚ) * 0.8 / (st.INITIALIZATION_PHASE_COUNT : ℚ) + 21 / 10 ^ 8 := by
    rcases Nat.eq_zero_or_pos n with h0 | h0
    · subst h0
      simp only [Nat.cast_zero, roundQ_zero, zero_mul, zero_div]
      norm_num
    · exact quotient_near_ratio n _ h0 hlt hint
  have hB0 : 0 ≤ binary32.roundQ
      (binary32.roundQ (binary32.roundQ (n : ℚ) * binary32.roundQ (8 / 10))
        / binary32.roundQ (st.INITIALIZATION_PHASE_COUNT : ℚ)) := by
    apply roundQ_nonneg
    apply div_nonneg
    · apply roundQ_nonneg
      apply mul_nonneg (roundQ_nonneg _ (Nat.cast_nonneg n))
      rw [roundQ32_eight_tenths]
      norm_num
    · exact roundQ_nonneg _ (Nat.cast_nonneg _)
  unfold minValBaseQ
  rw [roundQ32_two_tenths]
  generalize binary32.roundQ
      (binary32.roundQ (binary32.roundQ (n : ℚ) * binary32.roundQ (8 / 10))
        / binary32.roundQ (st.INITIALIZATION_PHASE_COUNT : ℚ)) = B at *
  generalize (n : ℚ) * 0.8 / (st.INITIALIZATION_PHASE_COUNT : ℚ) = r at *
  obtain ⟨cl, cu⟩ := roundQ32_rel (q := 13421773 / 67108864 + B)
    (le_trans (by norm_num) (le_add_of_nonneg_right hB0))
  generalize binary32.roundQ (13421773 / 67108864 + B) = C at *
  have hS : (13421773 / 67108864 + B) * (1 / 2 ^ 24) ≤ 2 * (1 / 2 ^ 24) :=
    mul_le_mul_of_nonneg_right (by linarith) (by norm_num)
  constructor
  · apply le_min
    · linarith
    · linarith
  · exact le_trans (min_le_left _ _) (by linarith)

/-- In the initialization phase the threshold is within `2 ^ -21` of the value of the
formula. -/
theorem minValQ_near_formula (st : Settings) (n : Nat)
    (hint : st.INITIALIZATION_PHASE_COUNT < 2 ^ 31)
    (hlt : n < st.INITIALIZATION_PHASE_COUNT) :
    |minValQ st n
        - ((0.2 : ℚ) + (n : ℚ) * 0.8 / (st.INITIALIZATION_PHASE_COUNT : ℚ)) * 0.7|
      ≤ 1 / 2 ^ 21 := by
  have hpos : 0 < st.INITIALIZATION_PHASE_COUNT := lt_of_le_of_lt (Nat.zero_le n) hlt
  have hn : n < 2 ^ 64 := lt_trans hlt (lt_trans hint (by norm_num))
  obtain ⟨f1, f2⟩ := minValBaseQ_near_formula st n hint hlt
  obtain ⟨r0, r1⟩ := minValBaseQ_range st n hpos hn
  unfold minValQ
  rw [if_pos hlt, roundQ64_seven_tenths]
  generalize minValBaseQ st n = base at *
  generalize (0.2 : ℚ) + (n : ℚ) * 0.8 / (st.INITIALIZATION_PHASE_COUNT : ℚ) = y at *
  have hT : (1 : ℚ) / 8 ≤ base * (3152519739159347 / 4503599627370496) := by linarith
  obtain ⟨dl, du⟩ := roundQ64_rel (q := base * (3152519739159347 / 4503599627370496))
    (le_trans (by norm_num) hT)
  have hD : (1 : ℚ) / 16 ≤ binary64.roundQ (base * (3152519739159347 / 4503599627370496)) :=
    le_trans (by linarith) dl
  have hD1 : binary64.roundQ (base * (3152519739159347 / 4503599627370496)) ≤ 1 :=
    le_trans du (by linarith)
  obtain ⟨el, eu⟩ := roundQ32_rel
    (q := binary64.roundQ (base * (3152519739159347 / 4503599627370496)))
    (le_trans (by norm_num) hD)
  generalize binary64.roundQ (base * (3152519739159347 / 4503599627370496)) = D at *
  generalize binary32.roundQ D = E at *
  rw [abs_le]
  constructor <;> linarith

/-- With counts in the range of their integer types the threshold is within `2 ^ -21` of the
value of the formula in exact arithmetic. -/
theorem minValQ_near_exact (st : Settings) (n : Nat)
    (hpos : 0 < st.INITIALIZATION_PHASE_COUNT)
    (hint : st.INITIALIZATION_PHASE_COUNT < 2 ^ 31) (hn : n < 2 ^ 64) :
    |minValQ st n
        - (if n < st.INITIALIZATION_PHASE_COUNT then
            min ((0.2 : ℚ) + (n : ℚ) * 0.8 / (st.INITIALIZATION_PHASE_COUNT : ℚ)) 1 * 0.7
          else min ((0.2 : ℚ) + (n : ℚ) * 0.8 / (st.INITIALIZATION_PHASE_COUNT : ℚ)) 1)|
      ≤ 1 / 2 ^ 21 := by
  have hc0 : (0 : ℚ) < st.INITIALIZATION_PHASE_COUNT := by exact_mod_cast hpos
  split_ifs with h
  · have hnc : (n : ℚ) ≤ st.INITIALIZATION_PHASE_COUNT := by exact_mod_cast h.le
    have hle : (0.2 : ℚ) + (n : ℚ) * 0.8 / (st.INITIALIZATION_PHASE_COUNT : ℚ) ≤ 1 := by
      have : (n : ℚ) * 0.8 / (st.INITIALIZATION_PHASE_COUNT : ℚ) ≤ 0.8 := by
        rw [div_le_iff₀ hc0]
        nlinarith
      linarith
    rw [min_eq_left hle]
    exact minValQ_near_formula st n hint h
  · have hnc : (st.INITIALIZATION_PHASE_COUNT : ℚ) ≤ n := by exact_mod_cast not_lt.1 h
    have hge : 1 ≤ (0.2 : ℚ) + (n : ℚ) * 0.8 / (st.INITIALIZATION_PHASE_COUNT : ℚ) := by
      have : 0.8 ≤ (n : ℚ) * 0.8 / (st.INITIALIZATION_PHASE_COUNT : ℚ) := by
        rw [le_div_iff₀ hc0]
        nlinarith
      linarith
    rw [min_eq_right hge]
    have e : minValQ st n = minValBaseQ st n := by
      unfold minValQ
      rw [if_neg h]
    have l := minValBaseQ_after st n hpos (not_lt.1 h)
    have u := (minValBaseQ_range st n hpos hn).2
    rw [e, abs_le]
    constructor <;> linarith

theorem round32_zero : binary32.round 0 = .finite 0 := by decide!

/-- With `INITIALIZATION_PHASE_COUNT = 0` the quotient of line 262 is a NaN or `+inf`, `fmin`
returns `1.0f`, and no count is below the constant: the threshold is 1. -/
theorem minVal_of_zero_phase (st : Settings) (n : Nat) (h0 : st.INITIALIZATION_PHASE_COUNT = 0)
    (hn : n < 2 ^ 64) : minVal st n = .finite 1 := by
  unfold minVal
  rw [h0, if_neg (Nat.not_lt_zero n)]
  unfold minValBase
  rw [h0, Nat.cast_zero, round32_zero, round32_eight_tenths, round32_two_tenths]
  rcases Nat.eq_zero_or_pos n with hz | hp
  · subst hz
    rw [Nat.cast_zero, round32_zero]
    simp only [FloatFormat.mul, zero_mul]
    rw [round32_zero]
    simp only [FloatFormat.div, if_true, FloatFormat.add]
    rfl
  · have hn0 : (0 : ℚ) ≤ n := Nat.cast_nonneg n
    have hn1 : (n : ℚ) ≤ 2 ^ 65 := by
      have h : (n : ℚ) ≤ 2 ^ 64 := by exact_mod_cast hn.le
      linarith [show (2 : ℚ) ^ 64 ≤ 2 ^ 65 by norm_num]
    obtain ⟨f0, f1⟩ := countFloat_bounds hn
    have hf := one_le_countFloat hp
    have a0 : 0 ≤ binary32.roundQ (n : ℚ) * binary32.roundQ (8 / 10) := by
      rw [roundQ32_eight_tenths]
      exact mul_nonneg f0 (by norm_num)
    have a1 : binary32.roundQ (n : ℚ) * binary32.roundQ (8 / 10) ≤ 2 ^ 65 := by
      rw [roundQ32_eight_tenths]
      linarith
    have hA : 0 < binary32.roundQ (binary32.roundQ (n : ℚ) * binary32.roundQ (8 / 10)) := by
      have h1 : (1 : ℚ) / 2 ≤ binary32.roundQ (n : ℚ) * binary32.roundQ (8 / 10) := by
        rw [roundQ32_eight_tenths]
        linarith
      have h2 := roundQ_mono binary32 binary32_prec (by norm_num : (0 : ℚ) ≤ 1 / 2) h1
      have h3 : binary32.roundQ (1 / 2) = 1 / 2 := by decide!
      rw [h3] at h2
      linarith
    rw [round32_eq_finite hn0 hn1]
    simp only [FloatFormat.mul]
    rw [round32_eq_finite a0 a1]
    simp only [FloatFormat.div, if_true]
    rw [if_neg hA.ne']
    have hd : decide (binary32.roundQ (binary32.roundQ (n : ℚ) * binary32.roundQ (8 / 10)) < 0)
        = false := decide_eq_false (not_lt.2 hA.le)
    rw [hd]
    rfl

/-! ## The keyframe-switch decision -/

/-- C12: for a frame tracked without loss, the call continues with
`changeKeyframe(newFrame, noCreate=false, force=true, maxScore=1)` if and only if the current
keyframe's `numMappedOnThisTotal` exceeds `MIN_NUM_MAPPED` and the `float` comparison
`score > minVal` of the code holds; at `score = minVal` the call returns without a switch:
current keyframe, keyframe list and id index are those on entry and no collaborator call is
made after the frame has been forwarded to mapping.  Score and threshold are the `float`
values the code computes. -/
theorem keyframe_switch_requested_iff (sys : SlamSystem) (kf : FramePtr) (tr : TrackerResult)
    (found : Option FramePtr) (f : FramePtr) (b : Bool)
    (hreach : ReachesTracker sys kf) (hnl : trackingLost sys tr = false) :
    (TrackingThread.trackFrame sys tr found f b =
          changeKeyframe
            (storeClosenessScore (acceptedState sys kf tr f b) (closenessScore sys tr kf))
            found f false true 1
        ↔ (sys.frames kf).numMappedOnThisTotal > sys.settings.MIN_NUM_MAPPED ∧
            closenessScore sys tr kf > minVal sys.settings sys.keyframesAll.length) ∧
      (closenessScore sys tr kf = minVal sys.settings sys.keyframesAll.length →
        ∃ s, TrackingThread.trackFrame sys tr found f b = .ok s ∧
          s.currentKeyFrame = sys.currentKeyFrame ∧ s.keyframesAll = sys.keyframesAll ∧
          s.idToKeyFrame = sys.idToKeyFrame ∧
          s.calls = (acceptedState sys kf tr f b).calls) := by
  have hshape := trackFrame_of_accepted hreach tr found f b hnl
  have hf := acceptedState_fields sys kf tr f b
  constructor
  · constructor
    · intro heq
      by_contra hcond
      rw [hshape] at heq
      have hcalls : ∀ s, changeKeyframe
          (storeClosenessScore (acceptedState sys kf tr f b) (closenessScore sys tr kf))
          found f false true 1 = .ok s →
          (acceptedState sys kf tr f b).calls.length < s.calls.length :=
        fun s hs => (changeKeyframe_create_fields hs).2.2.2
      by_cases hm : (sys.frames kf).numMappedOnThisTotal > sys.settings.MIN_NUM_MAPPED
      · have hsc : ¬ closenessScore sys tr kf > minVal sys.settings sys.keyframesAll.length :=
          fun h => hcond ⟨hm, h⟩
        rw [if_pos hm, if_neg hsc] at heq
        exact absurd (hcalls _ heq.symm) (lt_irrefl _)
      · rw [if_neg hm] at heq
        exact absurd (hcalls _ heq.symm) (lt_irrefl _)
    · rintro ⟨hm, hsc⟩
      rw [hshape, if_pos hm, if_pos hsc]
  · intro heq
    have hsc : ¬ closenessScore sys tr kf > minVal sys.settings sys.keyframesAll.length := by
      rw [heq]; exact floatVal_lt_irrefl _
    rw [hshape]
    by_cases hm : (sys.frames kf).numMappedOnThisTotal > sys.settings.MIN_NUM_MAPPED
    · rw [if_pos hm, if_neg hsc]
      exact ⟨_, rfl, hf.1, hf.2.2.2.1, hf.2.2.2.2.1, rfl⟩
    · rw [if_neg hm]
      exact ⟨_, rfl, hf.1, hf.2.2.2.1, hf.2.2.2.2.1, rfl⟩

theorem edgeTrack_score :
    closenessScore busySystem edgeTrack 0 = .finite (8455717 / 33554432) := by decide!

theorem busySystem_threshold :
    minVal busySystem.settings busySystem.keyframesAll.length = .finite (8455717 / 33554432) := by
  decide!

theorem farTrack_score : closenessScore busySystem farTrack 0 = .finite (73 / 4) := by decide!

/-- Instance of C12 on a system whose current keyframe has 10 frames mapped on it, so that
the comparison is reached.  For `edgeTrack` score and threshold are the same `float` and no
switch is requested, although the exact value `16 * (67376765 / 536870912) ^ 2` of the score
formula exceeds the exact threshold `63 / 250`; for `farTrack` the score `73 / 4` exceeds
the threshold and the switch is requested. -/
theorem keyframe_switch_requested_iff_witness :
    ReachesTracker busySystem 0 ∧ trackingLost busySystem edgeTrack = false ∧
      (busySystem.frames 0).numMappedOnThisTotal > busySystem.settings.MIN_NUM_MAPPED ∧
      closenessScore busySystem edgeTrack 0 = .finite (8455717 / 33554432) ∧
      minVal busySystem.settings busySystem.keyframesAll.length
        = .finite (8455717 / 33554432) ∧
      (16 * (67376765 / 536870912) ^ 2 : ℚ) > 63 / 250 ∧
      ((TrackingThread.trackFrame busySystem edgeTrack none 4 false =
            changeKeyframe
              (storeClosenessScore (acceptedState busySystem 0 edgeTrack 4 false)
                (closenessScore busySystem edgeTrack 0))
              none 4 false true 1
          ↔ (busySystem.frames 0).numMappedOnThisTotal > busySystem.settings.MIN_NUM_MAPPED ∧
              closenessScore busySystem edgeTrack 0
                > minVal busySystem.settings busySystem.keyframesAll.length) ∧
        (closenessScore busySystem edgeTrack 0
            = minVal busySystem.settings busySystem.keyframesAll.length →
          ∃ s, TrackingThread.trackFrame busySystem edgeTrack none 4 false = .ok s ∧
            s.currentKeyFrame = busySystem.currentKeyFrame ∧
            s.keyframesAll = busySystem.keyframesAll ∧
            s.idToKeyFrame = busySystem.idToKeyFrame ∧
            s.calls = (acceptedState busySystem 0 edgeTrack 4 false).calls)) ∧
      (∃ s, TrackingThread.trackFrame busySystem edgeTrack none 4 false = .ok s ∧
        s.currentKeyFrame = busySystem.currentKeyFrame ∧
        s.keyframesAll = busySystem.keyframesAll ∧
        s.idToKeyFrame = busySystem.idToKeyFrame ∧
        s.calls = (acceptedState busySystem 0 edgeTrack 4 false).calls) ∧
      trackingLost busySystem farTrack = false ∧
      closenessScore busySystem farTrack 0 = .finite (73 / 4) ∧
      TrackingThread.trackFrame busySystem farTrack none 4 false =
        changeKeyframe
          (storeClosenessScore (acceptedState busySystem 0 farTrack 4 false)
            (closenessScore busySystem farTrack 0))
          none 4 false true 1 :=
  ⟨busySystem_reaches, rfl, by decide, edgeTrack_score, busySystem_threshold, by norm_num,
    keyframe_switch_requested_iff busySystem 0 edgeTrack none 4 false busySystem_reaches rfl,
    (keyframe_switch_requested_iff busySystem 0 edgeTrack none 4 false
      busySystem_reaches rfl).2 (edgeTrack_score.trans busySystem_threshold.symm),
    rfl, farTrack_score,
    (keyframe_switch_requested_iff busySystem 0 farTrack none 4 false
      busySystem_reaches rfl).1.2
      ⟨by decide, by rw [farTrack_score, busySystem_threshold]; decide!⟩⟩

/-! ## The threshold of the keyframe switch -/

/-- C20, counterexample: with `INITIALIZATION_PHASE_COUNT = 5` and three keyframes the
threshold the code computes is the `float` `7985955 / 16777216`, which is not the value
`min(0.2 + 3 * 0.8 / 5, 1) * 0.7 = 119 / 250` of the formula. -/
theorem minVal_differs_from_exact_formula :
    sampleSettings.INITIALIZATION_PHASE_COUNT = 5 ∧
      minVal sampleSettings 3 = .finite (7985955 / 16777216) ∧
      min ((0.2 : ℚ) + (3 : ℕ) * 0.8 / (sampleSettings.INITIALIZATION_PHASE_COUNT : ℚ)) 1 * 0.7
        = 119 / 250 ∧
      minVal sampleSettings 3 ≠
        .finite (min ((0.2 : ℚ) + (3 : ℕ) * 0.8
          / (sampleSettings.INITIALIZATION_PHASE_COUNT : ℚ)) 1 * 0.7) := by
  have h1 : minVal sampleSettings 3 = .finite (7985955 / 16777216) := by decide!
  have h2 : min ((0.2 : ℚ) + (3 : ℕ) * 0.8 / (sampleSettings.INITIALIZATION_PHASE_COUNT : ℚ)) 1
      * 0.7 = 119 / 250 := by
    norm_num [sampleSettings]
  refine ⟨rfl, h1, h2, ?_⟩
  rw [h1, h2]
  intro h
  injection h with h
  norm_num at h

/-- C20, amended: in `trackFrame`, once the current keyframe has more than `MIN_NUM_MAPPED`
frames mapped on it, the keyframe switch is decided by comparing the score with `minVal`,
and for every keyframe count `n` this threshold is the `float` value of
`fmin(0.2f + n * 0.8f / INITIALIZATION_PHASE_COUNT, 1.0f)`: both counts are converted to
`float` and the product, the quotient and the sum are each rounded to the nearest `float`.
Exactly when `n < INITIALIZATION_PHASE_COUNT` that value is multiplied by the `double` 0.7
in `double` and the product is converted back to `float`.  With
`0 < INITIALIZATION_PHASE_COUNT` in the range of `int` and `n` in the range of `size_t` the
threshold is a finite number within `2^-21` of `min(0.2 + n*0.8/INITIALIZATION_PHASE_COUNT, 1)`,
times 0.7 when `n < INITIALIZATION_PHASE_COUNT`; with `INITIALIZATION_PHASE_COUNT = 0` the
quotient is `+inf` or a NaN and the threshold is 1. -/
theorem keyframe_switch_threshold_float_formula (sys : SlamSystem) (kf : FramePtr)
    (tr : TrackerResult) (found : Option FramePtr) (f : FramePtr) (b : Bool)
    (hreach : ReachesTracker sys kf) (hnl : trackingLost sys tr = false)
    (hmapped : (sys.frames kf).numMappedOnThisTotal > sys.settings.MIN_NUM_MAPPED) :
    TrackingThread.trackFrame sys tr found f b =
        (if closenessScore sys tr kf > minVal sys.settings sys.keyframesAll.length then
          changeKeyframe
            (storeClosenessScore (acceptedState sys kf tr f b)
              (closenessScore sys tr kf))
            found f false true 1
        else
          .ok (storeClosenessScore (acceptedState sys kf tr f b)
            (closenessScore sys tr kf))) ∧
      (∀ n : Nat, minVal sys.settings n =
        if n < sys.settings.INITIALIZATION_PHASE_COUNT then
          binary32.convert
            (binary64.mul
              (fmin
                (binary32.add (binary32.round (2 / 10))
                  (binary32.div
                    (binary32.mul (binary32.round (n : ℚ)) (binary32.round (8 / 10)))
                    (binary32.round (sys.settings.INITIALIZATION_PHASE_COUNT : ℚ))))
                (.finite 1))
              (binary64.round (7 / 10)))
        else
          fmin
            (binary32.add (binary32.round (2 / 10))
              (binary32.div
                (binary32.mul (binary32.round (n : ℚ)) (binary32.round (8 / 10)))
                (binary32.round (sys.settings.INITIALIZATION_PHASE_COUNT : ℚ))))
            (.finite 1)) ∧
      (0 < sys.settings.INITIALIZATION_PHASE_COUNT →
        sys.settings.INITIALIZATION_PHASE_COUNT < 2 ^ 31 →
        ∀ n : Nat, n < 2 ^ 64 →
          ∃ v : ℚ, minVal sys.settings n = .finite v ∧
            |v - (if n < sys.settings.INITIALIZATION_PHASE_COUNT then
                  min ((0.2 : ℚ) + (n : ℚ) * 0.8
                    / (sys.settings.INITIALIZATION_PHASE_COUNT : ℚ)) 1 * 0.7
                else
                  min ((0.2 : ℚ) + (n : ℚ) * 0.8
                    / (sys.settings.INITIALIZATION_PHASE_COUNT : ℚ)) 1)|
              ≤ 1 / 2 ^ 21) ∧
      (sys.settings.INITIALIZATION_PHASE_COUNT = 0 →
        ∀ n : Nat, n < 2 ^ 64 → minVal sys.settings n = .finite 1) :=
  ⟨by rw [trackFrame_of_accepted hreach tr found f b hnl, if_pos hmapped], fun _ => rfl,
    fun hpos hint n hn =>
      ⟨minValQ sys.settings n, minVal_eq_finite sys.settings n hpos hint hn,
        minValQ_near_exact sys.settings n hpos hint hn⟩,
    fun h0 n hn => minVal_of_zero_phase sys.settings n h0 hn⟩

/-- Instance of the amended C20: frame 4 is tracked well on a system whose current keyframe
has 10 frames mapped on it. -/
theorem keyframe_switch_threshold_float_formula_witness :
    ReachesTracker busySystem 0 ∧ trackingLost busySystem goodTrack = false ∧
      (busySystem.frames 0).numMappedOnThisTotal > busySystem.settings.MIN_NUM_MAPPED ∧
      TrackingThread.trackFrame busySystem goodTrack none 4 false =
        (if closenessScore busySystem goodTrack 0 > minVal busySystem.settings busySystem.keyframesAll.length then
          changeKeyframe
            (storeClosenessScore (acceptedState busySystem 0 goodTrack 4 false)
              (closenessScore busySystem goodTrack 0))
            none 4 false true 1
        else
          .ok (storeClosenessScore (acceptedState busySystem 0 goodTrack 4 false)
            (closenessScore busySystem goodTrack 0))) ∧
      (∀ n : Nat, minVal busySystem.settings n =
        if n < busySystem.settings.INITIALIZATION_PHASE_COUNT then
          binary32.convert
            (binary64.mul
              (fmin
                (binary32.add (binary32.round (2 / 10))
                  (binary32.div
                    (binary32.mul (binary32.round (n : ℚ)) (binary32.round (8 / 10)))
                    (binary32.round (busySystem.settings.INITIALIZATION_PHASE_COUNT : ℚ))))
                (.finite 1))
              (binary64.round (7 / 10)))
        else
          fmin
            (binary32.add (binary32.round (2 / 10))
              (binary32.div
                (binary32.mul (binary32.round (n : ℚ)) (binary32.round (8 / 10)))
                (binary32.round (busySystem.settings.INITIALIZATION_PHASE_COUNT : ℚ))))
            (.finite 1)) ∧
      (0 < busySystem.settings.INITIALIZATION_PHASE_COUNT →
        busySystem.settings.INITIALIZATION_PHASE_COUNT < 2 ^ 31 →
        ∀ n : Nat, n < 2 ^ 64 →
          ∃ v : ℚ, minVal busySystem.settings n = .finite v ∧
            |v - (if n < busySystem.settings.INITIALIZATION_PHASE_COUNT then
                  min ((0.2 : ℚ) + (n : ℚ) * 0.8
                    / (busySystem.settings.INITIALIZATION_PHASE_COUNT : ℚ)) 1 * 0.7
                else
                  min ((0.2 : ℚ) + (n : ℚ) * 0.8
                    / (busySystem.settings.INITIALIZATION_PHASE_COUNT : ℚ)) 1)|
              ≤ 1 / 2 ^ 21) ∧
      (busySystem.settings.INITIALIZATION_PHASE_COUNT = 0 →
        ∀ n : Nat, n < 2 ^ 64 → minVal busySystem.settings n = .finite 1) :=
  ⟨busySystem_reaches, rfl, by decide,
    keyframe_switch_threshold_float_formula busySystem 0 goodTrack none 4 false
      busySystem_reaches rfl (by decide)⟩

/-! ## The score of the keyframe selection -/

/-- C21, counterexample: with the weights 4 and 3, `getRefFrameScore(0, 0.1f)` is the `float`
`15288237 / 2097152` (7.28999949), which is not `0 * 4^2 + (1 - 0.1f)^2 * 3^2`. -/
theorem getRefFrameScore_differs_from_exact_formula :
    getRefFrameScore sampleSettings (.finite 0) (.finite oneTenthFloat)
        = .finite (15288237 / 2097152) ∧
      binary32.round (1 / 10) = .finite oneTenthFloat ∧
      getRefFrameScore sampleSettings (.finite 0) (.finite oneTenthFloat) ≠
        .finite (0 * sampleSettings.KFDistWeight ^ 2
          + (1 - oneTenthFloat) ^ 2 * sampleSettings.KFUsageWeight ^ 2) ∧
      getRefFrameScore sampleSettings (binary32.round (10 ^ 38)) (.finite 1) = .inf false := by
  have h1 : getRefFrameScore sampleSettings (.finite 0) (.finite oneTenthFloat)
      = .finite (15288237 / 2097152) := by decide!
  have h2 : (10 : ℚ) ^ 38 = 100000000000000000000000000000000000000 := by norm_num
  refine ⟨h1, by decide!, ?_, by rw [h2]; decide!⟩
  rw [h1]
  intro h
  injection h with h
  norm_num [sampleSettings, oneTenthFloat] at h

/-- The score is the exact value of the formula when no operation of `getRefFrameScore`
rounds. -/
theorem getRefFrameScore_of_exact (st : Settings) (d2 u : ℚ)
    (h1 : binary32.Exact (d2 * st.KFDistWeight))
    (h2 : binary32.Exact (d2 * st.KFDistWeight * st.KFDistWeight))
    (h3 : binary32.Exact (1 - u))
    (h4 : binary32.Exact ((1 - u) * (1 - u)))
    (h5 : binary32.Exact ((1 - u) * (1 - u) * st.KFUsageWeight))
    (h6 : binary32.Exact ((1 - u) * (1 - u) * st.KFUsageWeight * st.KFUsageWeight))
    (h7 : binary32.Exact (d2 * st.KFDistWeight * st.KFDistWeight
      + (1 - u) * (1 - u) * st.KFUsageWeight * st.KFUsageWeight)) :
    getRefFrameScore st (.finite d2) (.finite u) =
      .finite (d2 * st.KFDistWeight ^ 2 + (1 - u) ^ 2 * st.KFUsageWeight ^ 2) := by
  unfold FloatFormat.Exact at *
  unfold getRefFrameScore
  simp only [FloatFormat.sub, FloatVal.neg, FloatFormat.add, FloatFormat.mul,
    ← sub_eq_add_neg]
  rw [h1]
  simp only [FloatFormat.mul]
  rw [h2, h3]
  simp only [FloatFormat.mul]
  rw [h4]
  simp only [FloatFormat.mul]
  rw [h5]
  simp only [FloatFormat.mul]
  rw [h6]
  simp only [FloatFormat.add]
  rw [h7]
  congr 1
  ring

/-- C21, amended: `getRefFrameScore(d2, u)` is the `float` value of
`d2*KFDistWeight*KFDistWeight + (1-u)*(1-u)*KFUsageWeight*KFUsageWeight` evaluated from the
left, every operation rounded to the nearest `float` (an overflow gives an infinity); it is
`d2 * KFDistWeight^2 + (1-u)^2 * KFUsageWeight^2` whenever no operation rounds.  In
`trackFrame`, once the current keyframe has more than `MIN_NUM_MAPPED` frames mapped on it,
the score compared with `minVal` to decide the keyframe switch, and stored as
`lastTrackingClosenessScore`, is `getRefFrameScore` of `dist.dot(dist)` and `pointUsage`
converted to `float`, where `dist = translation * meanIdepth` of the current keyframe and the
scalar product are computed in `double`. -/
theorem closeness_score_float_formula (sys : SlamSystem) (kf : FramePtr) (tr : TrackerResult)
    (found : Option FramePtr) (f : FramePtr) (b : Bool)
    (hreach : ReachesTracker sys kf) (hnl : trackingLost sys tr = false)
    (hmapped : (sys.frames kf).numMappedOnThisTotal > sys.settings.MIN_NUM_MAPPED) :
    (∀ (st : Settings) (d2 u : FloatVal),
        getRefFrameScore st d2 u =
          binary32.add
            (binary32.mul (binary32.mul d2 (.finite st.KFDistWeight))
              (.finite st.KFDistWeight))
            (binary32.mul
              (binary32.mul
                (binary32.mul (binary32.sub (.finite 1) u) (binary32.sub (.finite 1) u))
                (.finite st.KFUsageWeight))
              (.finite st.KFUsageWeight))) ∧
      (∀ (st : Settings) (d2 u : ℚ),
        binary32.Exact (d2 * st.KFDistWeight) →
        binary32.Exact (d2 * st.KFDistWeight * st.KFDistWeight) →
        binary32.Exact (1 - u) →
        binary32.Exact ((1 - u) * (1 - u)) →
        binary32.Exact ((1 - u) * (1 - u) * st.KFUsageWeight) →
        binary32.Exact ((1 - u) * (1 - u) * st.KFUsageWeight * st.KFUsageWeight) →
        binary32.Exact (d2 * st.KFDistWeight * st.KFDistWeight
          + (1 - u) * (1 - u) * st.KFUsageWeight * st.KFUsageWeight) →
        getRefFrameScore st (.finite d2) (.finite u) =
          .finite (d2 * st.KFDistWeight ^ 2 + (1 - u) ^ 2 * st.KFUsageWeight ^ 2)) ∧
      TrackingThread.trackFrame sys tr found f b =
        (if getRefFrameScore sys.settings
              (binary32.convert
                (vec3Dot (vec3Scale tr.translation (sys.frames kf).meanIdepth)
                  (vec3Scale tr.translation (sys.frames kf).meanIdepth)))
              (binary32.round tr.pointUsage)
            > minVal sys.settings sys.keyframesAll.length then
          changeKeyframe
            (storeClosenessScore (acceptedState sys kf tr f b)
              (getRefFrameScore sys.settings
                (binary32.convert
                  (vec3Dot (vec3Scale tr.translation (sys.frames kf).meanIdepth)
                    (vec3Scale tr.translation (sys.frames kf).meanIdepth)))
                (binary32.round tr.pointUsage)))
            found f false true 1
        else
          .ok (storeClosenessScore (acceptedState sys kf tr f b)
            (getRefFrameScore sys.settings
              (binary32.convert
                (vec3Dot (vec3Scale tr.translation (sys.frames kf).meanIdepth)
                  (vec3Scale tr.translation (sys.frames kf).meanIdepth)))
              (binary32.round tr.pointUsage)))) ∧
      (storeClosenessScore (acceptedState sys kf tr f b)
          (getRefFrameScore sys.settings
            (binary32.convert
              (vec3Dot (vec3Scale tr.translation (sys.frames kf).meanIdepth)
                (vec3Scale tr.translation (sys.frames kf).meanIdepth)))
            (binary32.round tr.pointUsage))).trackingThread.lastTrackingClosenessScore
        = getRefFrameScore sys.settings
            (binary32.convert
              (vec3Dot (vec3Scale tr.translation (sys.frames kf).meanIdepth)
                (vec3Scale tr.translation (sys.frames kf).meanIdepth)))
            (binary32.round tr.pointUsage) := by
  refine ⟨fun _ _ _ => rfl, getRefFrameScore_of_exact, ?_, rfl⟩
  have h := trackFrame_of_accepted hreach tr found f b hnl
  rw [if_pos hmapped] at h
  exact h

/-- Instance of the amended C21: frame 4 is tracked with a large motion on a system whose
current keyframe has 10 frames mapped on it; no operation rounds and the score is
`1 * 4^2 + (1 - 1/2)^2 * 3^2 = 73/4`. -/
theorem closeness_score_float_formula_witness :
    ReachesTracker busySystem 0 ∧ trackingLost busySystem farTrack = false ∧
      (busySystem.frames 0).numMappedOnThisTotal > busySystem.settings.MIN_NUM_MAPPED ∧
      closenessScore busySystem farTrack 0 = .finite (73 / 4) ∧
      ((∀ (st : Settings) (d2 u : FloatVal),
        getRefFrameScore st d2 u =
          binary32.add
            (binary32.mul (binary32.mul d2 (.finite st.KFDistWeight))
              (.finite st.KFDistWeight))
            (binary32.mul
              (binary32.mul
                (binary32.mul (binary32.sub (.finite 1) u) (binary32.sub (.finite 1) u))
                (.finite st.KFUsageWeight))
              (.finite st.KFUsageWeight))) ∧
      (∀ (st : Settings) (d2 u : ℚ),
        binary32.Exact (d2 * st.KFDistWeight) →
        binary32.Exact (d2 * st.KFDistWeight * st.KFDistWeight) →
        binary32.Exact (1 - u) →
        binary32.Exact ((1 - u) * (1 - u)) →
        binary32.Exact ((1 - u) * (1 - u) * st.KFUsageWeight) →
        binary32.Exact ((1 - u) * (1 - u) * st.KFUsageWeight * st.KFUsageWeight) →
        binary32.Exact (d2 * st.KFDistWeight * st.KFDistWeight
          + (1 - u) * (1 - u) * st.KFUsageWeight * st.KFUsageWeight) →
        getRefFrameScore st (.finite d2) (.finite u) =
          .finite (d2 * st.KFDistWeight ^ 2 + (1 - u) ^ 2 * st.KFUsageWeight ^ 2)) ∧
      TrackingThread.trackFrame busySystem farTrack none 4 false =
        (if getRefFrameScore busySystem.settings
              (binary32.convert
                (vec3Dot (vec3Scale farTrack.translation (busySystem.frames 0).meanIdepth)
                  (vec3Scale farTrack.translation (busySystem.frames 0).meanIdepth)))
              (binary32.round farTrack.pointUsage)
            > minVal busySystem.settings busySystem.keyframesAll.length then
          changeKeyframe
            (storeClosenessScore (acceptedState busySystem 0 farTrack 4 false)
              (getRefFrameScore busySystem.settings
                (binary32.convert
                  (vec3Dot (vec3Scale farTrack.translation (busySystem.frames 0).meanIdepth)
                    (vec3Scale farTrack.translation (busySystem.frames 0).meanIdepth)))
                (binary32.round farTrack.pointUsage)))
            none 4 false true 1
        else
          .ok (storeClosenessScore (acceptedState busySystem 0 farTrack 4 false)
            (getRefFrameScore busySystem.settings
              (binary32.convert
                (vec3Dot (vec3Scale farTrack.translation (busySystem.frames 0).meanIdepth)
                  (vec3Scale farTrack.translation (busySystem.frames 0).meanIdepth)))
              (binary32.round farTrack.pointUsage)))) ∧
      (storeClosenessScore (acceptedState busySystem 0 farTrack 4 false)
          (getRefFrameScore busySystem.settings
            (binary32.convert
              (vec3Dot (vec3Scale farTrack.translation (busySystem.frames 0).meanIdepth)
                (vec3Scale farTrack.translation (busySystem.frames 0).meanIdepth)))
            (binary32.round farTrack.pointUsage))).trackingThread.lastTrackingClosenessScore
        = getRefFrameScore busySystem.settings
            (binary32.convert
              (vec3Dot (vec3Scale farTrack.translation (busySystem.frames 0).meanIdepth)
                (vec3Scale farTrack.translation (busySystem.frames 0).meanIdepth)))
            (binary32.round farTrack.pointUsage)) :=
  ⟨busySystem_reaches, rfl, by decide, farTrack_score,
    closeness_score_float_formula busySystem 0 farTrack none 4 false busySystem_reaches rfl
      (by decide)⟩

/-! ## Bounds on the keyframe-switch threshold -/

/-- C22, counterexample: with `INITIALIZATION_PHASE_COUNT = 41` and 41 keyframes, so that the
initialization phase is over, the threshold is the `float` `16777215 / 16777216`
(0.99999994), not 1. -/
theorem minVal_after_phase_below_one :
    0 < longPhaseSettings.INITIALIZATION_PHASE_COUNT ∧
      longPhaseSettings.INITIALIZATION_PHASE_COUNT ≤ 41 ∧
      minVal longPhaseSettings 41 = .finite (16777215 / 16777216) ∧
      minVal longPhaseSettings 41 ≠ .finite 1 := by
  have h : minVal longPhaseSettings 41 = .finite (16777215 / 16777216) := by decide!
  refine ⟨by decide, by decide, h, ?_⟩
  rw [h]
  intro h1
  injection h1 with h1
  norm_num at h1

/-- C22, amended: with `0 < INITIALIZATION_PHASE_COUNT`, the constant in the range of `int`
and the keyframe count `n` in the range of `size_t`, the threshold is a finite `float` `v`
with: in the initialization phase (`n < INITIALIZATION_PHASE_COUNT`) `0.14 ≤ v < 0.7`;
afterwards `1 - 2^-24 ≤ v ≤ 1`, that is 1 or the `float` just below 1; so `v` always lies in
`[0.14, 1]`; and the threshold is nondecreasing in `n`. -/
theorem minVal_float_bounds_and_monotone (st : Settings) (n : Nat)
    (hpos : 0 < st.INITIALIZATION_PHASE_COUNT)
    (hint : st.INITIALIZATION_PHASE_COUNT < 2 ^ 31) (hn : n < 2 ^ 64) :
    ∃ v : ℚ, minVal st n = .finite v ∧
      (n < st.INITIALIZATION_PHASE_COUNT → (0.14 : ℚ) ≤ v ∧ v < 0.7) ∧
      (st.INITIALIZATION_PHASE_COUNT ≤ n → 1 - 1 / 2 ^ 24 ≤ v ∧ v ≤ 1) ∧
      ((0.14 : ℚ) ≤ v ∧ v ≤ 1) ∧
      (∀ m : Nat, n ≤ m → m < 2 ^ 64 → ∃ w : ℚ, minVal st m = .finite w ∧ v ≤ w) := by
  have hin : n < st.INITIALIZATION_PHASE_COUNT →
      (0.14 : ℚ) ≤ minValQ st n ∧ minValQ st n < 0.7 := by
    intro h
    obtain ⟨l, u⟩ := minValQ_init st n hpos h hn
    constructor
    · exact le_trans (by norm_num) l
    · exact lt_of_le_of_lt u (by norm_num)
  have hout : st.INITIALIZATION_PHASE_COUNT ≤ n →
      1 - 1 / 2 ^ 24 ≤ minValQ st n ∧ minValQ st n ≤ 1 := by
    intro h
    have e : minValQ st n = minValBaseQ st n := by
      unfold minValQ
      rw [if_neg (not_lt.2 h)]
    rw [e]
    exact ⟨le_trans (by norm_num) (minValBaseQ_after st n hpos h),
      (minValBaseQ_range st n hpos hn).2⟩
  refine ⟨minValQ st n, minVal_eq_finite st n hpos hint hn, hin, hout, ?_, ?_⟩
  · by_cases h : n < st.INITIALIZATION_PHASE_COUNT
    · exact ⟨(hin h).1, le_trans (hin h).2.le (by norm_num)⟩
    · exact ⟨le_trans (by norm_num) (hout (not_lt.1 h)).1, (hout (not_lt.1 h)).2⟩
  · intro m hnm hm
    exact ⟨minValQ st m, minVal_eq_finite st m hpos hint hm, minValQ_mono st hpos hnm hm⟩

/-- Instance of the amended C22: `INITIALIZATION_PHASE_COUNT = 5` and three keyframes, where
the threshold is the `float` `7985955 / 16777216`. -/
theorem minVal_float_bounds_and_monotone_witness :
    0 < sampleSettings.INITIALIZATION_PHASE_COUNT ∧
      sampleSettings.INITIALIZATION_PHASE_COUNT < 2 ^ 31 ∧ 3 < 2 ^ 64 ∧
      minVal sampleSettings 3 = .finite (7985955 / 16777216) ∧
      ∃ v : ℚ, minVal sampleSettings 3 = .finite v ∧
        (3 < sampleSettings.INITIALIZATION_PHASE_COUNT → (0.14 : ℚ) ≤ v ∧ v < 0.7) ∧
        (sampleSettings.INITIALIZATION_PHASE_COUNT ≤ 3 → 1 - 1 / 2 ^ 24 ≤ v ∧ v ≤ 1) ∧
        ((0.14 : ℚ) ≤ v ∧ v ≤ 1) ∧
        (∀ m : Nat, 3 ≤ m → m < 2 ^ 64 →
          ∃ w : ℚ, minVal sampleSettings m = .finite w ∧ v ≤ w) :=
  ⟨by decide, by decide, by decide, by decide!,
    minVal_float_bounds_and_monotone sampleSettings 3 (by decide) (by decide) (by decide)⟩

end LsdSlam
